import Mathlib

/-!
# stereo_image_proc: disparity normalisation and point-cloud builders

A shallow embedding of `processor.cpp` / `processor.h` of the `stereo_image_proc`
package, followed by theorems about it.

Conventions of the embedding

* A C++ `float` is its IEEE-754 binary32 bit pattern (`F32`).  Its numeric meaning is
  given by `f32Val`; conversions to `float` round to nearest, ties to even (`roundToF32`).
* `double` quantities of the calibration model (`cx`, `fx`, baseline, `MISSING_Z`) are
  given by the value they denote (`ℚ`, resp. `FloatVal`); `double` arithmetic on them is
  taken exactly.
* Image matrices are given by their sizes and element accessors; an accessor is total.
* 32-bit unsigned message fields are natural numbers reduced modulo `2 ^ 32`.
* `std::vector<uint8_t>` is a list of bytes; a `memcpy` outside the vector has no defined
  behaviour and makes the embedded function return `none`.
* External collaborators (block matcher, calibration model, monocular processor) are
  inputs of the embedded functions.
-/

namespace stereo_image_proc

/-! ## IEEE-754 binary32 -/

/-- Bit pattern of a C++ `float` (IEEE-754 binary32): bit 31 sign, bits 30..23 biased
exponent, bits 22..0 fraction. -/
abbrev F32 := Fin 4294967296

/-- The 32-bit pattern with value `n` modulo `2 ^ 32`. -/
def toF32 (n : Nat) : F32 := ⟨n % 4294967296, Nat.mod_lt _ (by decide)⟩

/-- An 8-bit unsigned integer. -/
abbrev uint8_t := Fin 256

/-- The byte with value `n` modulo `256`. -/
def toByte (n : Nat) : uint8_t := ⟨n % 256, Nat.mod_lt _ (by decide)⟩

/-- Numeric meaning of a floating-point datum: not-a-number, a signed infinity, or a
finite rational (the two zeros both denote `0`). -/
inductive FloatVal
  | nan
  | inf (negative : Bool)
  | finite (q : ℚ)
  deriving DecidableEq

/-- Magnitude of the binary32 datum whose low 31 bits are `k`, in units of `2 ^ (-149)`:
subnormals are `fraction`, normals are `(2 ^ 23 + fraction) * 2 ^ (exponent - 1)`. -/
def f32Scaled (k : Nat) : Nat :=
  if k / 0x800000 = 0 then k % 0x800000
  else (0x800000 + k % 0x800000) * 2 ^ (k / 0x800000 - 1)

/-- A rational is representable in binary32 when its magnitude is the magnitude of a
finite bit pattern. -/
def f32Representable (q : ℚ) : Prop :=
  ∃ b, b < 0x7F800000 ∧ |q| = (f32Scaled b : ℚ) / 2 ^ 149

/-- Sign bit of a binary32 datum. -/
def f32Sign (x : F32) : Bool := decide (x.val / 0x80000000 = 1)

/-- Classification `std::isinf` on a `float`: exponent all ones, fraction zero. -/
def isinf (x : F32) : Bool :=
  decide (x.val / 0x800000 % 256 = 255) && decide (x.val % 0x800000 = 0)

/-- Classification `std::isnan` on a `float`: exponent all ones, fraction non-zero. -/
def isnan (x : F32) : Bool :=
  decide (x.val / 0x800000 % 256 = 255) && !decide (x.val % 0x800000 = 0)

/-- Numeric meaning of a binary32 bit pattern. -/
def f32Val (x : F32) : FloatVal :=
  if isnan x then FloatVal.nan
  else if isinf x then FloatVal.inf (f32Sign x)
  else FloatVal.finite
    ((if f32Sign x then -1 else 1) * (f32Scaled (x.val % 0x80000000) : ℚ) / 2 ^ 149)

/-- IEEE-754 comparison `a == b`: false as soon as one side is NaN. -/
def FloatVal.feq (a b : FloatVal) : Bool :=
  match a, b with
  | FloatVal.nan, _ => false
  | _, FloatVal.nan => false
  | a, b => decide (a = b)

/-- IEEE-754 comparison `a != b`, the negation of `==`. -/
def FloatVal.fne (a b : FloatVal) : Bool := !(a.feq b)

/-- Greatest bit pattern `k ≤ 0x7F800000` (searched bit by bit from bit `i - 1` down)
whose magnitude does not exceed `n / d`. -/
def f32FloorAux (n d : Nat) : Nat → Nat → Nat
  | 0, k => k
  | i + 1, k =>
    if k + 2 ^ i ≤ 0x7F800000 ∧ f32Scaled (k + 2 ^ i) * d ≤ n * 2 ^ 149 then
      f32FloorAux n d i (k + 2 ^ i)
    else f32FloorAux n d i k

/-- Low 31 bits of the binary32 nearest to the non-negative rational `n / d`, ties to the
even fraction; magnitudes of at least `2 ^ 128 - 2 ^ 103` give infinity. -/
def f32RoundMag (n d : Nat) : Nat :=
  let k := f32FloorAux n d 31 0
  if 0x7F800000 ≤ k then 0x7F800000
  else
    let lo := n * 2 ^ 149 - f32Scaled k * d
    let hi := f32Scaled (k + 1) * d - n * 2 ^ 149
    if lo < hi ∨ (lo = hi ∧ k % 2 = 0) then k else k + 1

/-- Conversion of a real value to `float`: round to nearest, ties to even. -/
def roundToF32 (q : ℚ) : F32 :=
  toF32 ((if q < 0 then 0x80000000 else 0) + f32RoundMag q.num.natAbs q.den)

/-- Implicit conversion `int32_t → float`. -/
def int32ToFloat (n : Int) : F32 := roundToF32 (n : ℚ)

/-- Reinterpretation `*(float*)(&i)` of a 32-bit integer as a `float`. -/
def bitCastToFloat (i : Nat) : F32 := toF32 i

/-- The value `std::numeric_limits<float>::quiet_NaN()`. -/
def quiet_NaN : F32 := 0x7FC00000

/-! ## IEEE-754 binary64 -/

/-- Magnitude of the C++ `double` (IEEE-754 binary64) whose low 63 bits are `k` (bits
62..52 biased exponent, bits 51..0 fraction), in units of `2 ^ (-1074)`: subnormals are
`fraction`, normals are `(2 ^ 52 + fraction) * 2 ^ (exponent - 1)`. -/
def f64Scaled (k : Nat) : Nat :=
  if k / 0x10000000000000 = 0 then k % 0x10000000000000
  else (0x10000000000000 + k % 0x10000000000000) * 2 ^ (k / 0x10000000000000 - 1)

/-- Greatest bit pattern `k ≤ 0x7FF0000000000000` (searched bit by bit from bit `i - 1`
down) whose magnitude does not exceed `n / d`. -/
def f64FloorAux (n d : Nat) : Nat → Nat → Nat
  | 0, k => k
  | i + 1, k =>
    if k + 2 ^ i ≤ 0x7FF0000000000000 ∧ f64Scaled (k + 2 ^ i) * d ≤ n * 2 ^ 1074 then
      f64FloorAux n d i (k + 2 ^ i)
    else f64FloorAux n d i k

/-- Low 63 bits of the binary64 nearest to the non-negative rational `n / d`, ties to the
even fraction; magnitudes of at least `2 ^ 1024 - 2 ^ 970` give infinity. -/
def f64RoundMag (n d : Nat) : Nat :=
  let k := f64FloorAux n d 63 0
  if 0x7FF0000000000000 ≤ k then 0x7FF0000000000000
  else
    let lo := n * 2 ^ 1074 - f64Scaled k * d
    let hi := f64Scaled (k + 1) * d - n * 2 ^ 1074
    if lo < hi ∨ (lo = hi ∧ k % 2 = 0) then k else k + 1

/-- The result of a `double` operation whose exact real result is `q`: round to nearest,
ties to even, overflow to a signed infinity. -/
def roundToF64 (q : ℚ) : FloatVal :=
  let k := f64RoundMag q.num.natAbs q.den
  if k = 0x7FF0000000000000 then FloatVal.inf (decide (q < 0))
  else FloatVal.finite ((if q < 0 then -1 else 1) * (f64Scaled k : ℚ) / 2 ^ 1074)

/-- The `double` subtraction `a - b` of two finite `double` values. -/
def double_sub (a b : ℚ) : FloatVal := roundToF64 (a - b)

/-- Unary minus on a floating-point datum. -/
def FloatVal.neg : FloatVal → FloatVal
  | FloatVal.nan => FloatVal.nan
  | FloatVal.inf s => FloatVal.inf (!s)
  | FloatVal.finite q => FloatVal.finite (-q)

/-! ## Validity classifier -/

/-- An element `cv::Vec3f`; `x`, `y`, `z` are the components `[0]`, `[1]`, `[2]`. -/
structure Vec3f where
  x : F32
  y : F32
  z : F32
  deriving DecidableEq

/-- Embedding of `isValidPoint`.  `MISSING_Z` is the constant
`image_geometry::StereoCameraModel::MISSING_Z` (a `double` of an external library). -/
def isValidPoint (MISSING_Z : FloatVal) (pt : Vec3f) : Bool :=
  (f32Val pt.z).fne MISSING_Z && !isinf pt.z

/-! ## Containers and loops -/

/-- A matrix header `cv::Mat_<α>`: the sizes `rows`, `cols` and the accessor `(u, v)`. -/
structure Mat_ (α : Type) where
  rows : Nat
  cols : Nat
  elem : Nat → Nat → α

/-- The loop `for (k = 0; k < n; ++k) s = body(k, s)`. -/
def forLoop {σ : Type} (n : Nat) (body : Nat → σ → σ) (s : σ) : σ :=
  match n with
  | 0 => s
  | n + 1 => body n (forLoop n body s)

/-- The loop `for (k = 0; k < n; ++k) s = body(k, s)` whose body may leave defined
behaviour (`none`); it stops at the first such iteration. -/
def forLoopM {σ : Type} (n : Nat) (body : Nat → σ → Option σ) (s : σ) : Option σ :=
  match n with
  | 0 => some s
  | n + 1 => (forLoopM n body s).bind (body n)

/-- Method `std::vector::resize(n)`: keep the first `n` elements, pad with the
value-initialised element `d`. -/
def resize {α : Type} (n : Nat) (d : α) (xs : List α) : List α :=
  xs.take n ++ List.replicate (n - xs.length) d

/-- In-place update `xs[i] = f(xs[i])` of a vector element. -/
def modifyAt {α : Type} (xs : List α) (i : Nat) (f : α → α) : List α :=
  match xs, i with
  | [], _ => []
  | x :: xs, 0 => f x :: xs
  | x :: xs, i + 1 => x :: modifyAt xs i f

/-- The call `memcpy(&data[idx], &w, 4)` on a little-endian host: the four bytes of the
32-bit word `w` go to `data[idx .. idx+3]`; `none` when they do not all lie in the vector. -/
def memcpy4 (data : List uint8_t) (idx : Nat) (w : Nat) : Option (List uint8_t) :=
  if idx + 4 ≤ data.length then
    some ((((data.set idx (toByte w)).set (idx + 1) (toByte (w / 256))).set
      (idx + 2) (toByte (w / 65536))).set (idx + 3) (toByte (w / 16777216)))
  else none

/-- The 32-bit word held by `data[idx .. idx+3]` (little-endian). -/
def read4 (data : List uint8_t) (idx : Nat) : Nat :=
  (data.getD idx 0).val + 256 * (data.getD (idx + 1) 0).val
    + 65536 * (data.getD (idx + 2) 0).val + 16777216 * (data.getD (idx + 3) 0).val

/-! ## Messages -/

/-- Message `sensor_msgs::Image` (header omitted). -/
structure Image where
  height : Nat
  width : Nat
  encoding : String
  is_bigendian : Bool
  step : Nat
  data : List uint8_t

/-- Message `stereo_msgs::DisparityImage` (header and valid_window omitted: the
processor never writes them). -/
structure DisparityImage where
  image : Image
  f : F32
  T : F32
  min_disparity : F32
  max_disparity : F32
  delta_d : F32

/-- Message `geometry_msgs::Point32`. -/
structure Point32 where
  x : F32
  y : F32
  z : F32
  deriving DecidableEq

/-- Message `sensor_msgs::ChannelFloat32`. -/
structure ChannelFloat32 where
  name : String
  values : List F32
  deriving DecidableEq

/-- Message `sensor_msgs::PointCloud` (header omitted). -/
structure PointCloud where
  points : List Point32
  channels : List ChannelFloat32
  deriving DecidableEq

/-- Message `sensor_msgs::PointField`. -/
structure PointField where
  name : String
  offset : Nat
  datatype : Nat
  count : Nat
  deriving DecidableEq

/-- Message `sensor_msgs::PointCloud2` (header omitted). -/
structure PointCloud2 where
  height : Nat
  width : Nat
  fields : List PointField
  is_bigendian : Bool
  point_step : Nat
  row_step : Nat
  data : List uint8_t
  is_dense : Bool
  deriving DecidableEq

/-- Constant `sensor_msgs::PointField::FLOAT32`. -/
def PointField.FLOAT32 : Nat := 7

/-- Constant `sensor_msgs::image_encodings::MONO8`. -/
def enc.MONO8 : String := "mono8"

/-- Constant `sensor_msgs::image_encodings::RGB8`. -/
def enc.RGB8 : String := "rgb8"

/-- Constant `sensor_msgs::image_encodings::BGR8`. -/
def enc.BGR8 : String := "bgr8"

/-- Constant `sensor_msgs::image_encodings::TYPE_32FC1`. -/
def enc.TYPE_32FC1 : String := "32FC1"

/-- A pixel `cv::Vec3b`; `c0`, `c1`, `c2` are the components `[0]`, `[1]`, `[2]`. -/
structure Vec3b where
  c0 : uint8_t
  c1 : uint8_t
  c2 : uint8_t
  deriving DecidableEq

/-- The colour image `cv::Mat color`, through the two typed accessors the builders
use: `color.at<uint8_t>(u, v)` and `color.at<cv::Vec3b>(u, v)`. -/
structure ColorMat where
  rows : Nat
  cols : Nat
  at_uint8_t : Nat → Nat → uint8_t
  at_Vec3b : Nat → Nat → Vec3b

/-! ## Disparity normaliser -/

/-- The element rule `saturate_cast<float>(x * alpha + beta)` that OpenCV documents for
`convertTo`, for a 16-bit signed element `x`, the scale `alpha` and the shift `beta`, both
of type `double`: the sum is rounded once to `float`; an infinite shift gives the infinity
of its sign. -/
def scaled_element (x : Int) (alpha : ℚ) (beta : FloatVal) : F32 :=
  match beta with
  | FloatVal.finite b => roundToF32 ((x : ℚ) * alpha + b)
  | FloatVal.inf s => if s then 0xFF800000 else 0x7F800000
  | FloatVal.nan => quiet_NaN

/-- Destination fill of `src.convertTo(dst, CV_32F, alpha, beta)` for the 16-bit signed
source `src` and an allocated `float` destination of the same size that views `data`
with row stride `step`.  OpenCV documents the element rule
`dst(u,v) = saturate_cast<float>(src(u,v) * alpha + beta)`; the element `(u, v)` of the
destination lives at byte `u * step + v * sizeof(float)`. -/
def convertTo (src : Mat_ Int) (data : List uint8_t) (step : Nat) (alpha : ℚ)
    (beta : FloatVal) : Option (List uint8_t) :=
  forLoopM src.rows (fun u data =>
    forLoopM src.cols (fun v data =>
      memcpy4 data (u * step + v * 4) (scaled_element (src.elem u v) alpha beta).val)
      data) data

/-- Embedding of `StereoProcessor::processDisparity`.  `disparity16_` is what the block
matcher produced for the rectified pair; `cx_left`, `cx_right`, `fx_right`, `baseline`
are the values of `model.left().cx()`, `model.right().cx()`, `model.right().fx()`,
`model.baseline()`, all of type `double`; `CUDA_GPU` is the build switch of that name.
The quotient `1.0 / DPP` is exact in `double` (`DPP` is 1 or 16); the shift
`-(cx_left - cx_right)` is formed in `double`; the fields of the message are `float`. -/
def processDisparity (CUDA_GPU : Bool) (disparity16_ : Mat_ Int)
    (cx_left cx_right fx_right baseline : ℚ) (disparity : DisparityImage) :
    Option DisparityImage :=
  let DPP : Nat := if CUDA_GPU then 1 else 16
  let inv_dpp : ℚ := 1 / (DPP : ℚ)
  -- Fill in DisparityImage image data, converting to 32-bit float
  let dimage := disparity.image
  let dimage := { dimage with height := disparity16_.rows % 2 ^ 32 }
  let dimage := { dimage with width := disparity16_.cols % 2 ^ 32 }
  let dimage := { dimage with encoding := enc.TYPE_32FC1 }
  let dimage := { dimage with step := (dimage.width * 4) % 2 ^ 32 }
  let dimage := { dimage with
    data := resize ((dimage.step * dimage.height) % 2 ^ 32) 0 dimage.data }
  -- d = d_fp*inv_dpp - (cx_l - cx_r)
  (convertTo disparity16_ dimage.data dimage.step inv_dpp
      (double_sub cx_left cx_right).neg).map
    fun data =>
      { image := { dimage with data := data }
        -- Stereo parameters
        f := roundToF32 fx_right
        T := roundToF32 baseline
        -- Disparity search range
        min_disparity := int32ToFloat 0
        max_disparity := int32ToFloat 63
        delta_d := roundToF32 inv_dpp }

/-! ## Colour packing -/

/-- The packing rule as the specification words it: `(R << 16) | (G << 8) | B`. -/
def packRGB (R G B : Nat) : Nat := (R <<< 16) ||| (G <<< 8) ||| B

/-- The unpacking a consumer of the `rgb` field performs on the 32-bit pattern: bits
16-23, bits 8-15 and bits 0-7. -/
def unpackRGB (bits : Nat) : Nat × Nat × Nat :=
  ((bits >>> 16) &&& 255, (bits >>> 8) &&& 255, bits &&& 255)

/-! ## Sparse cloud builder -/

/-- The statement `points.channels[c].values.push_back(x)`. -/
def push_value (points : PointCloud) (c : Nat) (x : F32) : PointCloud :=
  { points with
    channels := modifyAt points.channels c (fun ch => { ch with values := ch.values ++ [x] }) }

/-- The packed colour `(g << 16) | (g << 8) | g` of the `MONO8` branches. -/
def rgb_MONO8 (g : uint8_t) : Nat :=
  (g.val <<< 16) ||| (g.val <<< 8) ||| g.val

/-- The packed colour `(rgb[0] << 16) | (rgb[1] << 8) | rgb[2]` of the `RGB8` branches. -/
def rgb_packed_RGB8 (rgb : Vec3b) : Nat :=
  (rgb.c0.val <<< 16) ||| (rgb.c1.val <<< 8) ||| rgb.c2.val

/-- The packed colour `(bgr[2] << 16) | (bgr[1] << 8) | bgr[0]` of the `BGR8` branches. -/
def rgb_packed_BGR8 (bgr : Vec3b) : Nat :=
  (bgr.c2.val <<< 16) ||| (bgr.c1.val <<< 8) ||| bgr.c0.val

/-- Body of the geometry pass of `processPoints` at pixel `(u, v)`: a valid point is
appended, with its pixel indices `u` (channel 1) and `v` (channel 2). -/
def points_uv_append (MISSING_Z : FloatVal) (dense_points_ : Mat_ Vec3f) (u v : Nat)
    (points : PointCloud) : PointCloud :=
  if isValidPoint MISSING_Z (dense_points_.elem u v) then
    -- x,y,z
    let pt : Point32 :=
      ⟨(dense_points_.elem u v).x, (dense_points_.elem u v).y, (dense_points_.elem u v).z⟩
    let points := { points with points := points.points ++ [pt] }
    -- u,v
    let points := push_value points 1 (int32ToFloat u)
    push_value points 2 (int32ToFloat v)
  else points

/-- The geometry pass of `processPoints`: raster scan over all pixels. -/
def points_uv_pass (MISSING_Z : FloatVal) (dense_points_ : Mat_ Vec3f) (points : PointCloud) :
    PointCloud :=
  forLoop dense_points_.rows (fun u points =>
    forLoop dense_points_.cols (fun v points =>
      points_uv_append MISSING_Z dense_points_ u v points) points) points

/-- Body of a colour pass of `processPoints` at pixel `(u, v)`: the packed colour
`rgb u v` of a valid pixel, reinterpreted as a `float`, is appended to channel 0. -/
def points_rgb_append (MISSING_Z : FloatVal) (dense_points_ : Mat_ Vec3f)
    (rgb : Nat → Nat → Nat) (u v : Nat) (points : PointCloud) : PointCloud :=
  if isValidPoint MISSING_Z (dense_points_.elem u v) then
    push_value points 0 (bitCastToFloat (rgb u v))
  else points

/-- One colour pass of `processPoints`: raster scan over all pixels. -/
def points_rgb_pass (MISSING_Z : FloatVal) (dense_points_ : Mat_ Vec3f)
    (rgb : Nat → Nat → Nat) (points : PointCloud) : PointCloud :=
  forLoop dense_points_.rows (fun u points =>
    forLoop dense_points_.cols (fun v points =>
      points_rgb_append MISSING_Z dense_points_ rgb u v points) points) points

/-- The statements of `processPoints` that reset the output message: the point list is
emptied, there are three channels named "rgb", "u", "v", each emptied. -/
def points_reset (points : PointCloud) : PointCloud :=
  let points := { points with points := resize 0 ⟨0, 0, 0⟩ points.points }
  let points := { points with channels := resize 3 ⟨"", []⟩ points.channels }
  let points := { points with
    channels := modifyAt points.channels 0 (fun ch => { ch with name := "rgb" }) }
  let points := { points with
    channels := modifyAt points.channels 0 (fun ch => { ch with values := resize 0 0 ch.values }) }
  let points := { points with
    channels := modifyAt points.channels 1 (fun ch => { ch with name := "u" }) }
  let points := { points with
    channels := modifyAt points.channels 1 (fun ch => { ch with values := resize 0 0 ch.values }) }
  let points := { points with
    channels := modifyAt points.channels 2 (fun ch => { ch with name := "v" }) }
  { points with
    channels := modifyAt points.channels 2 (fun ch => { ch with values := resize 0 0 ch.values }) }

/-- Embedding of `StereoProcessor::processPoints` from the point where `dense_points_`
holds the result of `model.projectDisparityImageTo3d`.  The last argument is the
output message as the caller passed it. -/
def processPoints (MISSING_Z : FloatVal) (dense_points_ : Mat_ Vec3f) (color : ColorMat)
    (encoding : String) (points : PointCloud) : PointCloud :=
  -- Fill in sparse point cloud message
  let points := points_reset points
  let points := points_uv_pass MISSING_Z dense_points_ points
  -- Fill in color (the call `values.reserve` changes no content)
  if encoding = enc.MONO8 then
    points_rgb_pass MISSING_Z dense_points_ (fun u v => rgb_MONO8 (color.at_uint8_t u v)) points
  else if encoding = enc.RGB8 then
    points_rgb_pass MISSING_Z dense_points_ (fun u v => rgb_packed_RGB8 (color.at_Vec3b u v))
      points
  else if encoding = enc.BGR8 then
    points_rgb_pass MISSING_Z dense_points_ (fun u v => rgb_packed_BGR8 (color.at_Vec3b u v))
      points
  else
    -- ROS_WARN: could not fill color channel, unrecognized encoding
    points

/-! ## Structured cloud builder -/

/-- The index expression `i * points.point_step + k`, evaluated in 32-bit unsigned
arithmetic. -/
def record_index (i point_step k : Nat) : Nat := (i * point_step + k) % 2 ^ 32

/-- The statement `points.fields[j]` gets `name`, `offset`, `count = 1`,
`datatype = FLOAT32`. -/
def set_field (fields : List PointField) (j : Nat) (name : String) (offset : Nat) :
    List PointField :=
  let fields := modifyAt fields j (fun fld => { fld with name := name })
  let fields := modifyAt fields j (fun fld => { fld with offset := offset })
  let fields := modifyAt fields j (fun fld => { fld with count := 1 })
  modifyAt fields j (fun fld => { fld with datatype := PointField.FLOAT32 })

/-- Body of the geometry pass of `processPoints2` at pixel `(u, v)`: `x`, `y`, `z` at
record offsets 0, 4, 8 of record `i`, the value `bad_point` in all three for an invalid
pixel, then `++i`.  The state is the counter `i` and `points.data`. -/
def points2_xyz_record (MISSING_Z : FloatVal) (dense_points_ : Mat_ Vec3f) (point_step : Nat)
    (bad_point : F32) (u v : Nat) (s : Nat × List uint8_t) : Option (Nat × List uint8_t) :=
  let i := s.1
  let data := s.2
  if isValidPoint MISSING_Z (dense_points_.elem u v) then
    -- x,y,z,rgba
    (memcpy4 data (record_index i point_step 0) (dense_points_.elem u v).x.val).bind
      fun data =>
    (memcpy4 data (record_index i point_step 4) (dense_points_.elem u v).y.val).bind
      fun data =>
    (memcpy4 data (record_index i point_step 8) (dense_points_.elem u v).z.val).bind
      fun data => some (i + 1, data)
  else
    (memcpy4 data (record_index i point_step 0) bad_point.val).bind fun data =>
    (memcpy4 data (record_index i point_step 4) bad_point.val).bind fun data =>
    (memcpy4 data (record_index i point_step 8) bad_point.val).bind fun data =>
      some (i + 1, data)

/-- The geometry pass of `processPoints2`: raster scan, one record per pixel. -/
def points2_xyz_pass (MISSING_Z : FloatVal) (dense_points_ : Mat_ Vec3f) (point_step : Nat)
    (bad_point : F32) (s : Nat × List uint8_t) : Option (Nat × List uint8_t) :=
  forLoopM dense_points_.rows (fun u s =>
    forLoopM dense_points_.cols (fun v s =>
      points2_xyz_record MISSING_Z dense_points_ point_step bad_point u v s) s) s

/-- Body of a colour pass of `processPoints2` at pixel `(u, v)`: the packed colour
`rgb u v` at record offset 12 of a valid pixel, `bad_point` at record offset 12 of an
invalid one, then `++i`. -/
def points2_rgb_record (MISSING_Z : FloatVal) (dense_points_ : Mat_ Vec3f) (point_step : Nat)
    (bad_point : F32) (rgb : Nat → Nat → Nat) (u v : Nat) (s : Nat × List uint8_t) :
    Option (Nat × List uint8_t) :=
  let i := s.1
  let data := s.2
  if isValidPoint MISSING_Z (dense_points_.elem u v) then
    (memcpy4 data (record_index i point_step 12) (rgb u v)).bind fun data =>
      some (i + 1, data)
  else
    (memcpy4 data (record_index i point_step 12) bad_point.val).bind fun data =>
      some (i + 1, data)

/-- One colour pass of `processPoints2`: raster scan over all pixels. -/
def points2_rgb_pass (MISSING_Z : FloatVal) (dense_points_ : Mat_ Vec3f) (point_step : Nat)
    (bad_point : F32) (rgb : Nat → Nat → Nat) (s : Nat × List uint8_t) :
    Option (Nat × List uint8_t) :=
  forLoopM dense_points_.rows (fun u s =>
    forLoopM dense_points_.cols (fun v s =>
      points2_rgb_record MISSING_Z dense_points_ point_step bad_point rgb u v s) s) s

/-- The statements of `processPoints2` that lay the message out: sizes, the four field
descriptors, `point_step`, `row_step`, the resized buffer and `is_dense`. -/
def points2_layout (dense_points_ : Mat_ Vec3f) (points : PointCloud2) : PointCloud2 :=
  let points := { points with height := dense_points_.rows % 2 ^ 32 }
  let points := { points with width := dense_points_.cols % 2 ^ 32 }
  let points := { points with fields := resize 4 ⟨"", 0, 0, 0⟩ points.fields }
  let points := { points with fields := set_field points.fields 0 "x" 0 }
  let points := { points with fields := set_field points.fields 1 "y" 4 }
  let points := { points with fields := set_field points.fields 2 "z" 8 }
  let points := { points with fields := set_field points.fields 3 "rgb" 12 }
  --points.is_bigendian = false; ???
  let points := { points with point_step := 16 }
  let points := { points with row_step := (points.point_step * points.width) % 2 ^ 32 }
  let points := { points with
    data := resize ((points.row_step * points.height) % 2 ^ 32) 0 points.data }
  { points with is_dense := false }

/-- Embedding of `StereoProcessor::processPoints2` from the point where `dense_points_`
holds the result of `model.projectDisparityImageTo3d`.  The last argument is the
output message as the caller passed it. -/
def processPoints2 (MISSING_Z : FloatVal) (dense_points_ : Mat_ Vec3f) (color : ColorMat)
    (encoding : String) (points : PointCloud2) : Option PointCloud2 :=
  -- Fill in sparse point cloud message
  let points := points2_layout dense_points_ points
  let bad_point := quiet_NaN
  let i := 0
  (points2_xyz_pass MISSING_Z dense_points_ points.point_step bad_point (i, points.data)).bind
    fun s =>
  -- Fill in color
  let i := 0
  let data := s.2
  if encoding = enc.MONO8 then
    (points2_rgb_pass MISSING_Z dense_points_ points.point_step bad_point
      (fun u v => rgb_MONO8 (color.at_uint8_t u v)) (i, data)).map
      fun s => { points with data := s.2 }
  else if encoding = enc.RGB8 then
    (points2_rgb_pass MISSING_Z dense_points_ points.point_step bad_point
      (fun u v => rgb_packed_RGB8 (color.at_Vec3b u v)) (i, data)).map
      fun s => { points with data := s.2 }
  else if encoding = enc.BGR8 then
    (points2_rgb_pass MISSING_Z dense_points_ points.point_step bad_point
      (fun u v => rgb_packed_BGR8 (color.at_Vec3b u v)) (i, data)).map
      fun s => { points with data := s.2 }
  else
    -- ROS_WARN: could not fill color channel, unrecognized encoding
    some { points with data := data }

/-! ## Pipeline orchestrator -/

/-- Flag `StereoProcessor::LEFT_MONO`. -/
def LEFT_MONO : Nat := 1 <<< 0

/-- Flag `StereoProcessor::LEFT_RECT`. -/
def LEFT_RECT : Nat := 1 <<< 1

/-- Flag `StereoProcessor::LEFT_COLOR`. -/
def LEFT_COLOR : Nat := 1 <<< 2

/-- Flag `StereoProcessor::LEFT_RECT_COLOR`. -/
def LEFT_RECT_COLOR : Nat := 1 <<< 3

/-- Flag `StereoProcessor::RIGHT_MONO`. -/
def RIGHT_MONO : Nat := 1 <<< 4

/-- Flag `StereoProcessor::RIGHT_RECT`. -/
def RIGHT_RECT : Nat := 1 <<< 5

/-- Flag `StereoProcessor::RIGHT_COLOR`. -/
def RIGHT_COLOR : Nat := 1 <<< 6

/-- Flag `StereoProcessor::RIGHT_RECT_COLOR`. -/
def RIGHT_RECT_COLOR : Nat := 1 <<< 7

/-- Flag `StereoProcessor::DISPARITY`. -/
def DISPARITY : Nat := 1 <<< 8

/-- Flag `StereoProcessor::POINT_CLOUD`. -/
def POINT_CLOUD : Nat := 1 <<< 9

/-- Flag `StereoProcessor::POINT_CLOUD2`. -/
def POINT_CLOUD2 : Nat := 1 <<< 10

/-- Mask `StereoProcessor::LEFT_ALL`. -/
def LEFT_ALL : Nat := LEFT_MONO ||| LEFT_RECT ||| LEFT_COLOR ||| LEFT_RECT_COLOR

/-- Mask `StereoProcessor::RIGHT_ALL`. -/
def RIGHT_ALL : Nat := RIGHT_MONO ||| RIGHT_RECT ||| RIGHT_COLOR ||| RIGHT_RECT_COLOR

/-- Mask `StereoProcessor::STEREO_ALL`. -/
def STEREO_ALL : Nat := DISPARITY ||| POINT_CLOUD ||| POINT_CLOUD2

/-- Mask `StereoProcessor::ALL`. -/
def ALL : Nat := LEFT_ALL ||| RIGHT_ALL ||| STEREO_ALL

/-- A single-channel 8-bit image `cv::Mat`. -/
abbrev GrayMat := Mat_ uint8_t

/-- Modelled from the spec: the type `image_proc::ImageSet` is declared in the header
`image_proc/processor.h`, which is not among the sources; the monocular stage produces
the images mono, rectified, color, rectified color, and the code reads `rect`,
`rect_color` and `color_encoding`. -/
structure ImageSet where
  color_encoding : String
  mono : GrayMat
  rect : GrayMat
  color : ColorMat
  rect_color : ColorMat

/-- The struct `StereoImageSet`. -/
structure StereoImageSet where
  left : ImageSet
  right : ImageSet
  disparity : DisparityImage
  points : PointCloud
  points2 : PointCloud2

/-- What the code uses of an `image_geometry::PinholeCameraModel`: `cx()` and `fx()`. -/
structure PinholeCameraModel where
  cx : ℚ
  fx : ℚ

/-- What the code uses of an `image_geometry::StereoCameraModel`: `left()`, `right()`,
`baseline()`, the constant `MISSING_Z`, and `projectDisparityImageTo3d` applied, with
`handleMissingValues = true`, to the float matrix that views a disparity image. -/
structure StereoCameraModel where
  left : PinholeCameraModel
  right : PinholeCameraModel
  baseline : ℚ
  MISSING_Z : FloatVal
  projectDisparityImageTo3d : Image → Mat_ Vec3f

/-- The member `block_matcher_` (CPU matcher): its configured minimum disparity and
number of disparities, and the matching of two rectified images into a 16-bit signed
fixed-point disparity grid. -/
structure StereoBM where
  minDisparity : Int
  numberOfDisparities : Int
  compute : GrayMat → GrayMat → Mat_ Int

/-- The class `StereoProcessor`: the member `mono_processor_`, given by the effect of
`image_proc::Processor::process(raw, model, output, flags)` (its verdict and the image
set it leaves), and the member `block_matcher_`. -/
structure StereoProcessor where
  mono_processor_ : Image → PinholeCameraModel → ImageSet → Nat → Bool × ImageSet
  block_matcher_ : StereoBM

/-- Accessor `StereoProcessor::getMinDisparity` (CPU matcher). -/
def StereoProcessor.getMinDisparity (self : StereoProcessor) : Int :=
  self.block_matcher_.minDisparity

/-- Accessor `StereoProcessor::getDisparityRange` (CPU matcher). -/
def StereoProcessor.getDisparityRange (self : StereoProcessor) : Int :=
  self.block_matcher_.numberOfDisparities

/-- A call made by `process`, with the flags handed to a monocular call. -/
inductive Call
  | mono_left (flags : Nat)
  | mono_right (flags : Nat)
  | processDisparity
  | processPoints
  | processPoints2
  deriving DecidableEq

/-- The flag computation that opens `StereoProcessor::process`: the updated `flags`,
`left_flags` and `right_flags`.  The `int` flags are given by their bit pattern. -/
def process_flags (flags : Nat) : Nat × Nat × Nat :=
  -- Do monocular processing on left and right images
  let left_flags := flags &&& LEFT_ALL
  let right_flags := flags &&& RIGHT_ALL
  -- Need the rectified images for stereo processing
  let left_flags := if flags &&& STEREO_ALL ≠ 0 then left_flags ||| LEFT_RECT else left_flags
  let right_flags :=
    if flags &&& STEREO_ALL ≠ 0 then right_flags ||| RIGHT_RECT else right_flags
  -- Need the color channels for the point cloud
  let left_flags :=
    if flags &&& (POINT_CLOUD ||| POINT_CLOUD2) ≠ 0 then left_flags ||| LEFT_RECT_COLOR
    else left_flags
  let flags := if flags &&& (POINT_CLOUD ||| POINT_CLOUD2) ≠ 0 then flags ||| DISPARITY else flags
  (flags, left_flags, right_flags)

/-- One stage call of `process`: the call is recorded, and the stage is applied to the
output set unless an earlier stage left defined behaviour. -/
def call_stage (c : Call) (stage : StereoImageSet → Option StereoImageSet)
    (s : List Call × Option StereoImageSet) : List Call × Option StereoImageSet :=
  (s.1 ++ [c], s.2.bind stage)

/-- The stereo stages of `StereoProcessor::process`, run once both monocular calls have
succeeded, on the flags as updated by the flag computation: the calls made, in order,
and the output set, `none` if a stage left defined behaviour (a write outside a buffer).
Which stages are called depends on the flags only. -/
def process_stages (self : StereoProcessor) (CUDA_GPU : Bool) (model : StereoCameraModel)
    (output : StereoImageSet) (flags : Nat) : List Call × Option StereoImageSet :=
  let s : List Call × Option StereoImageSet := ([], some output)
  -- Do block matching to produce the disparity image
  let s :=
    if flags &&& DISPARITY ≠ 0 then
      call_stage Call.processDisparity (fun output =>
        (processDisparity CUDA_GPU
          (self.block_matcher_.compute output.left.rect output.right.rect)
          model.left.cx model.right.cx model.right.fx model.baseline output.disparity).map
          fun d => { output with disparity := d }) s
    else s
  -- Project disparity image to 3d point cloud
  let s :=
    if flags &&& POINT_CLOUD ≠ 0 then
      call_stage Call.processPoints (fun output =>
        some { output with
          points := processPoints model.MISSING_Z
            (model.projectDisparityImageTo3d output.disparity.image)
            output.left.rect_color output.left.color_encoding output.points }) s
    else s
  -- Project disparity image to 3d point cloud
  let s :=
    if flags &&& POINT_CLOUD2 ≠ 0 then
      call_stage Call.processPoints2 (fun output =>
        (processPoints2 model.MISSING_Z
          (model.projectDisparityImageTo3d output.disparity.image)
          output.left.rect_color output.left.color_encoding output.points2).map
          fun p2 => { output with points2 := p2 }) s
    else s
  s

/-- Embedding of `StereoProcessor::process`: the calls made, in order, and the value
returned together with the output set as the call leaves it; there is no value returned
(`none`) when a stage left defined behaviour (a write outside a buffer). -/
def process (self : StereoProcessor) (CUDA_GPU : Bool) (left_raw right_raw : Image)
    (model : StereoCameraModel) (output : StereoImageSet) (flags : Nat) :
    List Call × Option (Bool × StereoImageSet) :=
  let fl := process_flags flags
  let flags := fl.1
  let left_flags := fl.2.1
  let right_flags := fl.2.2
  let l := self.mono_processor_ left_raw model.left output.left left_flags
  let output := { output with left := l.2 }
  if l.1 = false then ([Call.mono_left left_flags], some (false, output))
  else
    let r := self.mono_processor_ right_raw model.right output.right (right_flags >>> 4)
    let output := { output with right := r.2 }
    if r.1 = false then
      ([Call.mono_left left_flags, Call.mono_right (right_flags >>> 4)], some (false, output))
    else
      let s := process_stages self CUDA_GPU model output flags
      ([Call.mono_left left_flags, Call.mono_right (right_flags >>> 4)] ++ s.1,
        s.2.map fun output => (true, output))

/-! ## Specification-side vocabulary -/

/-- The grid element of the pixel with raster index `p = u * cols + v`. -/
def Mat_.pixel {α : Type} (m : Mat_ α) (p : Nat) : α := m.elem (p / m.cols) (p % m.cols)

/-- The 32-bit word the geometry pass of `processPoints2` stores in field `k` (0 for x,
1 for y, 2 for z) of the record of a pixel whose grid point is `pt`. -/
def xyz_word (MISSING_Z : FloatVal) (bad_point : F32) (pt : Vec3f) (k : Nat) : Nat :=
  if isValidPoint MISSING_Z pt then
    (if k = 0 then pt.x.val else if k = 1 then pt.y.val else pt.z.val)
  else bad_point.val

/-- The 32-bit word a colour pass of `processPoints2` stores in the rgb field of the
record of a pixel whose grid point is `pt` and whose packed colour is `c`. -/
def rgb_word (MISSING_Z : FloatVal) (bad_point : F32) (pt : Vec3f) (c : Nat) : Nat :=
  if isValidPoint MISSING_Z pt then c % 4294967296 else bad_point.val

/-- Row-major (raster) enumeration of the pixels `(u, v)` of a `rows × cols` grid. -/
def raster (rows cols : Nat) : List (Nat × Nat) :=
  (List.range rows).flatMap (fun u => (List.range cols).map (fun v => (u, v)))

/-- The raster enumeration restricted to the pixels where `isValidPoint` holds. -/
def valid_pixels (MISSING_Z : FloatVal) (g : Mat_ Vec3f) : List (Nat × Nat) :=
  (raster g.rows g.cols).filter (fun p => isValidPoint MISSING_Z (g.elem p.1 p.2))

/-- The point `geometry_msgs::Point32` with the coordinates of a grid element. -/
def point_of (pt : Vec3f) : Point32 := ⟨pt.x, pt.y, pt.z⟩

/-- The packed colour of pixel `(u, v)` of the colour image under a recognised encoding,
in the words of the specification: grey replicated, RGB as given, BGR swapped. -/
def packed_colour (color : ColorMat) (encoding : String) (u v : Nat) : Nat :=
  if encoding = enc.MONO8 then
    packRGB (color.at_uint8_t u v).val (color.at_uint8_t u v).val (color.at_uint8_t u v).val
  else if encoding = enc.RGB8 then
    packRGB (color.at_Vec3b u v).c0.val (color.at_Vec3b u v).c1.val (color.at_Vec3b u v).c2.val
  else
    packRGB (color.at_Vec3b u v).c2.val (color.at_Vec3b u v).c1.val (color.at_Vec3b u v).c0.val

/-- The value of `left_flags` when `process` makes the left monocular call. -/
def left_flags (flags : Nat) : Nat := (process_flags flags).2.1

/-- The value of `right_flags` when `process` makes the right monocular call; the call
receives `right_flags >> 4`. -/
def right_flags (flags : Nat) : Nat := (process_flags flags).2.2

/-- The verdict and image set of the call
`mono_processor_.process(left_raw, model.left(), output.left, left_flags)`. -/
def mono_left_result (self : StereoProcessor) (left_raw : Image) (model : StereoCameraModel)
    (output : StereoImageSet) (flags : Nat) : Bool × ImageSet :=
  self.mono_processor_ left_raw model.left output.left (left_flags flags)

/-- The verdict and image set of the call
`mono_processor_.process(right_raw, model.right(), output.right, right_flags >> 4)`. -/
def mono_right_result (self : StereoProcessor) (right_raw : Image) (model : StereoCameraModel)
    (output : StereoImageSet) (flags : Nat) : Bool × ImageSet :=
  self.mono_processor_ right_raw model.right output.right (right_flags flags >>> 4)

/-- The output set once both monocular calls have returned. -/
def after_mono (self : StereoProcessor) (left_raw right_raw : Image) (model : StereoCameraModel)
    (output : StereoImageSet) (flags : Nat) : StereoImageSet :=
  { output with
    left := (mono_left_result self left_raw model output flags).2
    right := (mono_right_result self right_raw model output flags).2 }

/-- The call `processDisparity(output.left.rect, output.right.rect, model,
output.disparity)` on the output set `o`. -/
def stage_disparity (self : StereoProcessor) (CUDA_GPU : Bool) (model : StereoCameraModel)
    (o : StereoImageSet) : Option DisparityImage :=
  processDisparity CUDA_GPU (self.block_matcher_.compute o.left.rect o.right.rect)
    model.left.cx model.right.cx model.right.fx model.baseline o.disparity

/-- The call `processPoints(output.disparity, output.left.rect_color,
output.left.color_encoding, model, output.points)` on the output set `o`. -/
def stage_points (model : StereoCameraModel) (o : StereoImageSet) : PointCloud :=
  processPoints model.MISSING_Z (model.projectDisparityImageTo3d o.disparity.image)
    o.left.rect_color o.left.color_encoding o.points

/-- The call `processPoints2(output.disparity, output.left.rect_color,
output.left.color_encoding, model, output.points2)` on the output set `o`. -/
def stage_points2 (model : StereoCameraModel) (o : StereoImageSet) : Option PointCloud2 :=
  processPoints2 model.MISSING_Z (model.projectDisparityImageTo3d o.disparity.image)
    o.left.rect_color o.left.color_encoding o.points2

/-- The packed colour integer `c` has a zero top byte, and the `float` with its bit
pattern is neither NaN nor infinite, has sign bit 0, is a finite non-negative number, and
is not the NaN written for invalid pixels. -/
def colour_float_ok (c : Nat) : Prop :=
  c < 2 ^ 24 ∧ c / 2 ^ 24 = 0 ∧ (bitCastToFloat c).val = c ∧
  isnan (bitCastToFloat c) = false ∧ isinf (bitCastToFloat c) = false ∧
  f32Sign (bitCastToFloat c) = false ∧
  (∃ q : ℚ, 0 ≤ q ∧ f32Val (bitCastToFloat c) = FloatVal.finite q) ∧
  bitCastToFloat c ≠ quiet_NaN

/-! ## Sample inputs -/

/-- A sentinel for the samples: the value `10000.0`. -/
def sample_MISSING_Z : FloatVal := FloatVal.finite 10000

/-- A 2 × 2 grid: `(1, 2, 3)` valid, `z = +inf` invalid, `z = 10000` (the sentinel)
invalid, `(4, 5, 0.5)` valid. -/
def sample_grid : Mat_ Vec3f :=
  ⟨2, 2, fun u v =>
    if u = 0 ∧ v = 0 then ⟨0x3F800000, 0x40000000, 0x40400000⟩
    else if u = 0 ∧ v = 1 then ⟨0x3F800000, 0x3F800000, 0x7F800000⟩
    else if u = 1 ∧ v = 0 then ⟨0x3F800000, 0x3F800000, 0x461C4000⟩
    else ⟨0x40800000, 0x40A00000, 0x3F000000⟩⟩

/-- A 2 × 2 colour image: grey level `200 + u + v`, colour triple `(10 + u, 20 + v, 30)`. -/
def sample_color : ColorMat :=
  ⟨2, 2, fun u v => toByte (200 + u + v), fun u v => ⟨toByte (10 + u), toByte (20 + v), 30⟩⟩

/-- A used `PointCloud2` message: other sizes, one stale field, three stale bytes. -/
def sample_cloud2 : PointCloud2 :=
  ⟨7, 9, [⟨"intensity", 3, 2, 5⟩], true, 4, 36, [1, 2, 3], true⟩

/-- A used `PointCloud` message: one stale point, four stale channels. -/
def sample_cloud : PointCloud :=
  ⟨[⟨1, 2, 3⟩], [⟨"a", [1]⟩, ⟨"b", [2, 3]⟩, ⟨"c", []⟩, ⟨"d", [4]⟩]⟩

/-- A one-pixel grid holding the point `pt`. -/
def single_pixel (pt : Vec3f) : Mat_ Vec3f := ⟨1, 1, fun _ _ => pt⟩

/-- A one-row grid of `2 ^ 28` pixels, every one the valid point `(1, 1, 1)`. -/
def wide_grid : Mat_ Vec3f := ⟨1, 268435456, fun _ _ => ⟨0x3F800000, 0x3F800000, 0x3F800000⟩⟩

/-- A one-column grid of `2 ^ 24 + 2` rows: the point `(1, 1, 1)` in the last row
(row `2 ^ 24 + 1`), infinite depth in every other row. -/
def tall_grid : Mat_ Vec3f :=
  ⟨16777218, 1, fun u _ =>
    if u = 16777217 then ⟨0x3F800000, 0x3F800000, 0x3F800000⟩ else ⟨0, 0, 0x7F800000⟩⟩

/-- The raw disparity grid `[[160, 0], [-1, 320]]`. -/
def scenario_A : Mat_ Int :=
  ⟨2, 2, fun u v =>
    if u = 0 ∧ v = 0 then 160 else if u = 0 ∧ v = 1 then 0
    else if u = 1 ∧ v = 0 then -1 else 320⟩

/-- The raw disparity grid `[[0]]`. -/
def zero_disparity : Mat_ Int := ⟨1, 1, fun _ _ => 0⟩

/-- An empty `DisparityImage` message. -/
def empty_disparity : DisparityImage := ⟨⟨0, 0, "", false, 0, []⟩, 0, 0, 0, 0, 0⟩

/-- A one-row grid of `2 ^ 28` pixels, every one of infinite depth (invalid). -/
def wide_invalid_grid : Mat_ Vec3f := ⟨1, 268435456, fun _ _ => ⟨0, 0, 0x7F800000⟩⟩

/-- A one-row raw disparity grid of `2 ^ 30` pixels, every one `160`. -/
def wide_disparity : Mat_ Int := ⟨1, 1073741824, fun _ _ => 160⟩

/-- A colour image of the size of `wide_grid`: grey level 200, colour `(10, 20, 30)`. -/
def wide_color : ColorMat := ⟨1, 268435456, fun _ _ => 200, fun _ _ => ⟨10, 20, 30⟩⟩

/-- A one-pixel colour image: grey level 200, colour `(10, 20, 30)`. -/
def single_color : ColorMat := ⟨1, 1, fun _ _ => 200, fun _ _ => ⟨10, 20, 30⟩⟩

/-- An empty `PointCloud2` message. -/
def empty_cloud2 : PointCloud2 := ⟨0, 0, [], false, 0, 0, [], false⟩

/-- The colour image whose three-channel view replicates the grey level of `color`. -/
def grey_as_rgb (color : ColorMat) : ColorMat :=
  { color with
    at_Vec3b := fun u v => ⟨color.at_uint8_t u v, color.at_uint8_t u v, color.at_uint8_t u v⟩ }

/-- The colour image whose three-channel view has channels 0 and 2 exchanged. -/
def swap_channels (color : ColorMat) : ColorMat :=
  { color with
    at_Vec3b := fun u v =>
      ⟨(color.at_Vec3b u v).c2, (color.at_Vec3b u v).c1, (color.at_Vec3b u v).c0⟩ }

/-- An empty single-channel image. -/
def empty_gray : GrayMat := ⟨0, 0, fun _ _ => 0⟩

/-- An image set nobody has written yet. -/
def empty_image_set : ImageSet := ⟨"", empty_gray, empty_gray, ⟨0, 0, fun _ _ => 0, fun _ _ => ⟨0, 0, 0⟩⟩,
  ⟨0, 0, fun _ _ => 0, fun _ _ => ⟨0, 0, 0⟩⟩⟩

/-- A 2 × 2 raw image of encoding `mono8`. -/
def sample_raw : Image := ⟨2, 2, enc.MONO8, false, 2, [200, 201, 201, 202]⟩

/-- A 2 × 2 raw image of an encoding a monocular processor refuses. -/
def sample_raw_refused : Image := ⟨2, 2, "8UC3", false, 6, []⟩

/-- A sample monocular processor: it refuses every raw image but `mono8`, leaving the
image set untouched; for a `mono8` image it records the colour encoding and stores the
pixels in all four images. -/
def sample_mono (raw : Image) (_model : PinholeCameraModel) (output : ImageSet) (_flags : Nat) :
    Bool × ImageSet :=
  if raw.encoding = enc.MONO8 then
    (true,
      ⟨enc.MONO8, ⟨raw.height, raw.width, fun u v => raw.data.getD (u * raw.step + v) 0⟩,
        ⟨raw.height, raw.width, fun u v => raw.data.getD (u * raw.step + v) 0⟩,
        ⟨raw.height, raw.width, fun u v => raw.data.getD (u * raw.step + v) 0,
          fun _ _ => ⟨10, 20, 30⟩⟩,
        ⟨raw.height, raw.width, fun u v => raw.data.getD (u * raw.step + v) 0,
          fun _ _ => ⟨10, 20, 30⟩⟩⟩)
  else (false, output)

/-- A sample matcher, configured with minimum disparity 5 and 128 disparities, whose
matching result is `scenario_A`. -/
def sample_matcher : StereoBM := ⟨5, 128, fun _ _ => scenario_A⟩

/-- A sample processor. -/
def sample_processor : StereoProcessor := ⟨sample_mono, sample_matcher⟩

/-- A sample camera pair: principal points 320 and 318, focal lengths 500, baseline
`1 / 8`, sentinel `10000.0`, and a reprojection that gives `sample_grid`. -/
def sample_model : StereoCameraModel :=
  ⟨⟨320, 500⟩, ⟨318, 500⟩, 1 / 8, sample_MISSING_Z, fun _ => sample_grid⟩

/-- An output set that holds stale artifacts. -/
def sample_output : StereoImageSet :=
  ⟨empty_image_set, empty_image_set, empty_disparity, sample_cloud, sample_cloud2⟩

/-- A grid of no rows and `2 ^ 28` columns. -/
def flat_grid : Mat_ Vec3f := ⟨0, 268435456, fun _ _ => ⟨0, 0, 0⟩⟩

/-- A colour image of the size of `flat_grid`. -/
def flat_color : ColorMat := ⟨0, 268435456, fun _ _ => 200, fun _ _ => ⟨10, 20, 30⟩⟩

/-- A colour image of the size of `tall_grid`: grey level 100 in row `2 ^ 24`, grey
level 200 elsewhere, colour `(10, 20, 30)`. -/
def tall_two_tone : ColorMat :=
  ⟨16777218, 1, fun u _ => if u = 16777216 then 100 else 200, fun _ _ => ⟨10, 20, 30⟩⟩

/-- A raw `mono8` image of one row of `w` pixels of grey level 200. -/
def row_raw (w : Nat) : Image := ⟨1, w, enc.MONO8, false, w, List.replicate w 200⟩

/-- A sample matcher whose disparity grid has the size of the left rectified image and
holds the raw value 160 everywhere. -/
def size_matcher : StereoBM := ⟨0, 64, fun l _ => ⟨l.rows, l.cols, fun _ _ => 160⟩⟩

/-- A sample processor with the matcher `size_matcher`. -/
def size_processor : StereoProcessor := ⟨sample_mono, size_matcher⟩

/-- A sample camera pair whose reprojection gives a grid of the size of the disparity
image, every point the valid point `(1, 1, 1)`. -/
def size_model : StereoCameraModel :=
  ⟨⟨320, 500⟩, ⟨320, 500⟩, 1 / 8, sample_MISSING_Z,
    fun img => ⟨img.height, img.width, fun _ _ => ⟨0x3F800000, 0x3F800000, 0x3F800000⟩⟩⟩

theorem packed_colour_MONO8 (color : ColorMat) (u v : Nat) :
    rgb_MONO8 (color.at_uint8_t u v) = packed_colour color enc.MONO8 u v := by
  simp [packed_colour, rgb_MONO8, packRGB]

theorem packed_colour_RGB8 (color : ColorMat) (u v : Nat) :
    rgb_packed_RGB8 (color.at_Vec3b u v) = packed_colour color enc.RGB8 u v := by
  have h : ¬ (enc.RGB8 = enc.MONO8) := by decide
  simp [packed_colour, rgb_packed_RGB8, packRGB, h]

theorem packed_colour_BGR8 (color : ColorMat) (u v : Nat) :
    rgb_packed_BGR8 (color.at_Vec3b u v) = packed_colour color enc.BGR8 u v := by
  have h : ¬ (enc.BGR8 = enc.MONO8) := by decide
  have h' : ¬ (enc.BGR8 = enc.RGB8) := by decide
  simp [packed_colour, rgb_packed_BGR8, packRGB, h, h']


/-! ## Floating-point classification -/

theorem isnan_isinf_exclusive (x : F32) : ¬ (isnan x = true ∧ isinf x = true) := by
  unfold isnan isinf
  cases decide (x.val / 0x800000 % 256 = 255) <;> cases decide (x.val % 0x800000 = 0) <;> simp

theorem isinf_iff_f32Val (x : F32) :
    isinf x = true ↔ (f32Val x = FloatVal.inf false ∨ f32Val x = FloatVal.inf true) := by
  have hex := isnan_isinf_exclusive x
  unfold f32Val
  constructor
  · intro h
    have hn : isnan x = false := by
      cases hx : isnan x
      · rfl
      · exact absurd ⟨hx, h⟩ hex
    rw [hn, h]
    cases f32Sign x <;> simp
  · intro h
    by_cases hn : isnan x = true
    · rw [hn] at h
      simp at h
    · by_cases hi : isinf x = true
      · exact hi
      · simp [hn, hi] at h

/-- C2: `isValidPoint` is false exactly when `z` compares equal to `MISSING_Z` or is plus
or minus infinity, it is true for every other `z` (NaN included), and its result does not
depend on the `x` and `y` components. -/
theorem C2_isValidPoint_iff (MISSING_Z : FloatVal) (x y z x' y' : F32) :
    (isValidPoint MISSING_Z ⟨x, y, z⟩ = false ↔
      ((f32Val z).feq MISSING_Z = true ∨ f32Val z = FloatVal.inf false ∨
        f32Val z = FloatVal.inf true)) ∧
    (isValidPoint MISSING_Z ⟨x, y, z⟩ = true ↔
      ¬ ((f32Val z).feq MISSING_Z = true ∨ f32Val z = FloatVal.inf false ∨
        f32Val z = FloatVal.inf true)) ∧
    isValidPoint MISSING_Z ⟨x', y', z⟩ = isValidPoint MISSING_Z ⟨x, y, z⟩ := by
  have hinf := isinf_iff_f32Val z
  have key : isValidPoint MISSING_Z ⟨x, y, z⟩ = false ↔
      ((f32Val z).feq MISSING_Z = true ∨ f32Val z = FloatVal.inf false ∨
        f32Val z = FloatVal.inf true) := by
    rw [← hinf]
    unfold isValidPoint FloatVal.fne
    cases (f32Val z).feq MISSING_Z <;> cases isinf z <;> simp
  refine ⟨key, ?_, rfl⟩
  rw [← key]
  cases isValidPoint MISSING_Z ⟨x, y, z⟩ <;> simp

/-! ## Rounding to binary32 -/

theorem f32Scaled_lt_succ (k : Nat) : f32Scaled k < f32Scaled (k + 1) := by
  unfold f32Scaled
  have hp : 0 < 2 ^ (k / 0x800000 - 1) := Nat.two_pow_pos _
  by_cases hm : k % 0x800000 + 1 < 0x800000
  · have e1 : (k + 1) / 0x800000 = k / 0x800000 := by omega
    have e2 : (k + 1) % 0x800000 = k % 0x800000 + 1 := by omega
    rw [e1, e2]
    by_cases he : k / 0x800000 = 0
    · rw [if_pos he, if_pos he]
      omega
    · rw [if_neg he, if_neg he]
      exact Nat.mul_lt_mul_of_pos_right (by omega) hp
  · have e1 : (k + 1) / 0x800000 = k / 0x800000 + 1 := by omega
    have e2 : (k + 1) % 0x800000 = 0 := by omega
    have e3 : k % 0x800000 = 0x7FFFFF := by omega
    have e5 : ¬ (k / 0x800000 + 1 = 0) := by omega
    rw [e1, e2, e3, if_neg e5]
    by_cases he : k / 0x800000 = 0
    · rw [if_pos he, he]
      decide
    · rw [if_neg he]
      have e4 : k / 0x800000 + 1 - 1 = (k / 0x800000 - 1) + 1 := by omega
      rw [e4, Nat.pow_succ]
      generalize 2 ^ (k / 0x800000 - 1) = P at hp ⊢
      omega

theorem f32Scaled_strictMono : StrictMono f32Scaled :=
  strictMono_nat_of_lt_succ f32Scaled_lt_succ

/-- On a magnitude that is exactly the one of the bit pattern `b`, the bitwise search
returns `b`. -/
theorem f32FloorAux_exact (n d b : Nat) (hd : 0 < d) (hb : b ≤ 0x7F800000)
    (hnd : f32Scaled b * d = n * 2 ^ 149) (i k : Nat) (hk : k ≤ b) (hlt : b < k + 2 ^ i) :
    f32FloorAux n d i k = b := by
  induction i generalizing k with
  | zero =>
    simp only [f32FloorAux]
    have : (2 : Nat) ^ 0 = 1 := rfl
    omega
  | succ i ih =>
    simp only [f32FloorAux]
    by_cases hle : k + 2 ^ i ≤ b
    · have h1 : k + 2 ^ i ≤ 0x7F800000 := Nat.le_trans hle hb
      have h2 : f32Scaled (k + 2 ^ i) * d ≤ n * 2 ^ 149 := by
        rw [← hnd]
        exact Nat.mul_le_mul_right d (f32Scaled_strictMono.monotone hle)
      rw [if_pos ⟨h1, h2⟩]
      apply ih _ hle
      rw [Nat.pow_succ] at hlt
      omega
    · have h2 : ¬ (f32Scaled (k + 2 ^ i) * d ≤ n * 2 ^ 149) := by
        rw [← hnd]
        intro h
        have h3 := Nat.le_of_mul_le_mul_right h hd
        exact hle ((f32Scaled_strictMono.le_iff_le).1 h3)
      rw [if_neg (fun h => h2 h.2)]
      exact ih _ hk (by omega)

/-- Rounding the magnitude of a finite bit pattern `b` gives `b`. -/
theorem f32RoundMag_exact (n d b : Nat) (hd : 0 < d) (hb : b < 0x7F800000)
    (hnd : f32Scaled b * d = n * 2 ^ 149) : f32RoundMag n d = b := by
  have hfl : f32FloorAux n d 31 0 = b :=
    f32FloorAux_exact n d b hd (Nat.le_of_lt hb) hnd 31 0 (Nat.zero_le b) (by
      have : (2 : Nat) ^ 31 = 2147483648 := by norm_num
      omega)
  unfold f32RoundMag
  simp only [hfl]
  rw [if_neg (by omega)]
  have hlt : n * 2 ^ 149 < f32Scaled (b + 1) * d := by
    rw [← hnd]
    exact Nat.mul_lt_mul_of_pos_right (f32Scaled_lt_succ b) hd
  rw [if_pos (Or.inl (by rw [← hnd] at hlt ⊢; omega))]

/-- The value of the finite bit pattern with low 31 bits `b` and sign `neg`. -/
theorem f32Val_toF32_finite (b : Nat) (hb : b < 0x7F800000) (neg : Bool) :
    f32Val (toF32 ((if neg then 0x80000000 else 0) + b)) =
      FloatVal.finite ((if neg then -1 else 1) * (f32Scaled b : ℚ) / 2 ^ 149) := by
  have hv : (toF32 ((if neg then 0x80000000 else 0) + b)).val =
      (if neg then 0x80000000 else 0) + b := by
    show ((if neg then 0x80000000 else 0) + b) % 4294967296 = _
    cases neg <;> simp <;> omega
  have hnan : isnan (toF32 ((if neg then 0x80000000 else 0) + b)) = false := by
    unfold isnan
    rw [hv]
    cases neg <;> simp <;> omega
  have hinf : isinf (toF32 ((if neg then 0x80000000 else 0) + b)) = false := by
    unfold isinf
    rw [hv]
    cases neg <;> simp <;> omega
  have hs : f32Sign (toF32 ((if neg then 0x80000000 else 0) + b)) = neg := by
    unfold f32Sign
    rw [hv]
    cases neg <;> simp <;> omega
  have hm : (toF32 ((if neg then 0x80000000 else 0) + b)).val % 0x80000000 = b := by
    rw [hv]
    cases neg <;> simp <;> omega
  unfold f32Val
  rw [hnan, hinf, hs, hm]
  simp

theorem cross_mul_of_div_eq (a b c P : Nat) (hc : 0 < c) (hP : 0 < P)
    (h : (a : ℚ) / c = (b : ℚ) / P) : b * c = a * P := by
  have hc' : (c : ℚ) ≠ 0 := by exact_mod_cast (Nat.pos_iff_ne_zero.1 hc)
  have hP' : (P : ℚ) ≠ 0 := by exact_mod_cast (Nat.pos_iff_ne_zero.1 hP)
  rw [div_eq_div_iff hc' hP'] at h
  exact_mod_cast h.symm

theorem cast_two_pow_149 : ((2 ^ 149 : Nat) : ℚ) = (2 : ℚ) ^ 149 := by
  rw [Nat.cast_pow, Nat.cast_ofNat]

theorem natAbs_mul_eq_of_abs (q : ℚ) (b : Nat) (h : |q| = (f32Scaled b : ℚ) / 2 ^ 149) :
    f32Scaled b * q.den = q.num.natAbs * 2 ^ 149 := by
  have hden : (0 : ℚ) < q.den := by exact_mod_cast q.den_pos
  have habs : |q| = (q.num.natAbs : ℚ) / q.den := by
    conv_lhs => rw [← Rat.num_div_den q]
    rw [abs_div, abs_of_pos hden, Nat.cast_natAbs, Int.cast_abs]
  rw [habs, ← cast_two_pow_149] at h
  exact cross_mul_of_div_eq _ _ _ _ q.den_pos (Nat.two_pow_pos 149) h

/-- Conversion to `float` is exact on representable values. -/
theorem roundToF32_exact (q : ℚ) (h : f32Representable q) :
    f32Val (roundToF32 q) = FloatVal.finite q := by
  obtain ⟨b, hb, habs⟩ := h
  have hr : f32RoundMag q.num.natAbs q.den = b :=
    f32RoundMag_exact _ _ b q.den_pos hb (natAbs_mul_eq_of_abs q b habs)
  unfold roundToF32
  rw [hr]
  have e := f32Val_toF32_finite b hb (decide (q < 0))
  simp only [decide_eq_true_eq] at e
  rw [e, mul_div_assoc, ← habs]
  congr 1
  by_cases hq : q < 0
  · rw [if_pos hq, abs_of_neg hq]
    ring
  · rw [if_neg hq, abs_of_nonneg (not_lt.1 hq)]
    ring

/-! ## Rounding to binary64 -/

theorem cast_two_pow_1074 : ((2 ^ 1074 : Nat) : ℚ) = (2 : ℚ) ^ 1074 := by
  rw [Nat.cast_pow, Nat.cast_ofNat]

theorem f32Representable_of_scaled (n b : Nat) (hb : b < 0x7F800000)
    (hsc : f32Scaled b = n * 2 ^ 149) : f32Representable (n : ℚ) := by
  refine ⟨b, hb, ?_⟩
  rw [hsc, Nat.cast_mul, cast_two_pow_149,
    mul_div_cancel_right₀ _ (pow_ne_zero 149 (by norm_num : (2 : ℚ) ≠ 0)),
    abs_of_nonneg (Nat.cast_nonneg n)]

/-- Every natural number up to `2 ^ 24` is representable in binary32. -/
theorem f32Representable_nat (n : Nat) (hn : n ≤ 16777216) : f32Representable (n : ℚ) := by
  by_cases h0 : n = 0
  · subst h0
    exact f32Representable_of_scaled 0 0 (by decide) (by decide)
  by_cases h24 : n = 16777216
  · subst h24
    exact f32Representable_of_scaled 16777216 0x4B800000 (by decide) (by decide)
  have hlo : 2 ^ n.log2 ≤ n := Nat.log2_self_le h0
  have hhi : n < 2 ^ (n.log2 + 1) := Nat.lt_log2_self
  have he : n.log2 < 24 := (Nat.log2_lt h0).2 (by omega)
  have hsplit : (2 : Nat) ^ n.log2 * 2 ^ (23 - n.log2) = 8388608 := by
    rw [← Nat.pow_add]
    exact congrArg (fun x => 2 ^ x) (show n.log2 + (23 - n.log2) = 23 by omega)
  have hsplit' : (2 : Nat) ^ (n.log2 + 1) * 2 ^ (23 - n.log2) = 16777216 := by
    rw [← Nat.pow_add]
    exact congrArg (fun x => 2 ^ x) (show n.log2 + 1 + (23 - n.log2) = 24 by omega)
  have hp : 0 < 2 ^ (23 - n.log2) := Nat.two_pow_pos _
  have hmlo : 8388608 ≤ n * 2 ^ (23 - n.log2) := by
    rw [← hsplit]
    exact Nat.mul_le_mul_right _ hlo
  have hmhi : n * 2 ^ (23 - n.log2) < 16777216 := by
    rw [← hsplit']
    exact Nat.mul_lt_mul_of_pos_right hhi hp
  refine f32Representable_of_scaled n
    ((n.log2 + 127) * 0x800000 + (n * 2 ^ (23 - n.log2) - 0x800000)) (by omega) ?_
  have hdiv : ((n.log2 + 127) * 0x800000 + (n * 2 ^ (23 - n.log2) - 0x800000)) / 0x800000 =
      n.log2 + 127 := by omega
  have hmod : ((n.log2 + 127) * 0x800000 + (n * 2 ^ (23 - n.log2) - 0x800000)) % 0x800000 =
      n * 2 ^ (23 - n.log2) - 0x800000 := by omega
  have e1 : 0x800000 + (n * 2 ^ (23 - n.log2) - 0x800000) = n * 2 ^ (23 - n.log2) := by
    omega
  have e2 : (2 : Nat) ^ (23 - n.log2) * 2 ^ (n.log2 + 127 - 1) = 2 ^ 149 := by
    rw [← Nat.pow_add]
    exact congrArg (fun x => 2 ^ x) (show 23 - n.log2 + (n.log2 + 127 - 1) = 149 by omega)
  unfold f32Scaled
  rw [hdiv, hmod, if_neg (by omega), e1, Nat.mul_assoc, e2]

/-! ## Loops -/

theorem forLoopM_add {σ : Type} (a b : Nat) (body : Nat → σ → Option σ) (s : σ) :
    forLoopM (a + b) body s =
      (forLoopM a body s).bind (fun t => forLoopM b (fun k => body (a + k)) t) := by
  induction b with
  | zero => simp [forLoopM]
  | succ b ih =>
    rw [← Nat.add_assoc]
    simp only [forLoopM]
    rw [ih, Option.bind_assoc]

theorem forLoopM_congr {σ : Type} (n : Nat) (body₁ body₂ : Nat → σ → Option σ) (s : σ)
    (h : ∀ k, k < n → ∀ t, body₁ k t = body₂ k t) :
    forLoopM n body₁ s = forLoopM n body₂ s := by
  induction n with
  | zero => rfl
  | succ n ih =>
    simp only [forLoopM]
    rw [ih (fun k hk t => h k (Nat.lt_succ_of_lt hk) t)]
    cases forLoopM n body₂ s with
    | none => rfl
    | some t => exact h n (Nat.lt_succ_self n) t

/-- A nested raster scan is the flat scan over the pixel index `p = u * cols + v`. -/
theorem forLoopM_nested {σ : Type} (rows cols : Nat) (B : Nat → Nat → σ → Option σ) (s : σ) :
    forLoopM rows (fun u t => forLoopM cols (fun v t => B u v t) t) s =
      forLoopM (rows * cols) (fun p t => B (p / cols) (p % cols) t) s := by
  induction rows with
  | zero => simp [forLoopM]
  | succ r ih =>
    have e : forLoopM (r + 1) (fun u t => forLoopM cols (fun v t => B u v t) t) s =
        (forLoopM r (fun u t => forLoopM cols (fun v t => B u v t) t) s).bind
          (fun t => forLoopM cols (fun v t => B r v t) t) := rfl
    rw [e, ih, Nat.succ_mul, forLoopM_add (r * cols) cols]
    congr 1
    funext t
    apply forLoopM_congr
    intro k hk t
    have hc : 0 < cols := Nat.lt_of_le_of_lt (Nat.zero_le k) hk
    have h1 : (r * cols + k) / cols = r := by
      rw [Nat.add_comm, Nat.add_mul_div_right _ _ hc, Nat.div_eq_of_lt hk, Nat.zero_add]
    have h2 : (r * cols + k) % cols = k := by
      rw [Nat.add_comm, Nat.add_mul_mod_self_right, Nat.mod_eq_of_lt hk]
    rw [h1, h2]

theorem forLoopM_one {σ : Type} (body : Nat → σ → Option σ) (s : σ) :
    forLoopM 1 body s = body 0 s := rfl

theorem forLoopM_eq_none {σ : Type} (n : Nat) (body : Nat → σ → Option σ) (s : σ)
    (hn : 0 < n) (h : body 0 s = none) : forLoopM n body s = none := by
  induction n with
  | zero => exact absurd hn (Nat.lt_irrefl 0)
  | succ n ih =>
    cases n with
    | zero => simpa [forLoopM] using h
    | succ m =>
      have e : forLoopM (m + 1 + 1) body s = (forLoopM (m + 1) body s).bind (body (m + 1)) :=
        rfl
      rw [e, ih (Nat.succ_pos m)]
      rfl

/-- A pure nested raster scan that acts on the selected pixels only is the left fold of
the action over the selected pixels in raster order. -/
theorem forLoop_raster_filter {σ : Type} (rows cols : Nat) (sel : Nat → Nat → Bool)
    (f : Nat → Nat → σ → σ) (s : σ) :
    forLoop rows (fun u t => forLoop cols (fun v t => if sel u v then f u v t else t) t) s =
      ((raster rows cols).filter (fun p => sel p.1 p.2)).foldl (fun t p => f p.1 p.2 t) s := by
  have inner : ∀ (u c : Nat) (t : σ),
      forLoop c (fun v t => if sel u v then f u v t else t) t =
        (((List.range c).map (fun v => (u, v))).filter (fun p => sel p.1 p.2)).foldl
          (fun t p => f p.1 p.2 t) t := by
    intro u c t
    induction c with
    | zero => rfl
    | succ c ih =>
      simp only [forLoop]
      rw [ih, List.range_succ, List.map_append, List.filter_append, List.foldl_append]
      cases h : sel u c <;> simp [h]
  unfold raster
  induction rows with
  | zero => rfl
  | succ r ih =>
    simp only [forLoop]
    rw [ih, inner, List.range_succ, List.flatMap_append, List.filter_append, List.foldl_append]
    simp

/-- Invariant rule for a loop whose body may fail: an invariant that every iteration
re-establishes, without failing, holds at the end and the loop does not fail. -/
theorem forLoopM_inv {σ : Type} (Inv : Nat → σ → Prop) (n : Nat) (body : Nat → σ → Option σ)
    (s : σ) (h0 : Inv 0 s)
    (hstep : ∀ k, k < n → ∀ t, Inv k t → ∃ t', body k t = some t' ∧ Inv (k + 1) t') :
    ∃ t, forLoopM n body s = some t ∧ Inv n t := by
  induction n with
  | zero => exact ⟨s, rfl, h0⟩
  | succ n ih =>
    obtain ⟨t, ht, hinv⟩ := ih (fun k hk t => hstep k (Nat.lt_succ_of_lt hk) t)
    obtain ⟨t', ht', hinv'⟩ := hstep n (Nat.lt_succ_self n) t hinv
    refine ⟨t', ?_, hinv'⟩
    simp only [forLoopM]
    rw [ht]
    exact ht'

/-! ## Byte buffers -/

theorem toByte_val (n : Nat) : (toByte n).val = n % 256 := rfl

theorem getD_set (d : List uint8_t) (i j : Nat) (x : uint8_t) :
    (d.set i x).getD j 0 = if i = j ∧ i < d.length then x else d.getD j 0 := by
  simp only [List.getD_eq_getElem?_getD, List.getElem?_set]
  by_cases h : i = j
  · subst h
    by_cases hl : i < d.length
    · simp [hl]
    · simp [hl, List.getElem?_eq_none (Nat.le_of_not_lt hl)]
  · simp [h]

theorem memcpy4_length {d d' : List uint8_t} {i w : Nat} (h : memcpy4 d i w = some d') :
    d'.length = d.length := by
  unfold memcpy4 at h
  split at h
  · cases h
    simp
  · cases h

theorem memcpy4_isSome {d : List uint8_t} {i : Nat} (w : Nat) (h : i + 4 ≤ d.length) :
    ∃ d', memcpy4 d i w = some d' := by
  unfold memcpy4
  rw [if_pos h]
  exact ⟨_, rfl⟩

theorem memcpy4_eq_none {d : List uint8_t} {i : Nat} (w : Nat) (h : d.length < i + 4) :
    memcpy4 d i w = none := by
  unfold memcpy4
  rw [if_neg (by omega)]

theorem memcpy4_getD {d d' : List uint8_t} {i w : Nat} (h : memcpy4 d i w = some d')
    (j : Nat) :
    d'.getD j 0 =
      if j = i then toByte w else if j = i + 1 then toByte (w / 256)
      else if j = i + 2 then toByte (w / 65536)
      else if j = i + 3 then toByte (w / 16777216) else d.getD j 0 := by
  unfold memcpy4 at h
  split at h
  · rename_i hl
    cases h
    simp only [getD_set, List.length_set]
    by_cases h3 : i + 3 = j
    · subst h3
      rw [if_pos ⟨rfl, by omega⟩, if_neg (by omega), if_neg (by omega), if_neg (by omega),
        if_pos rfl]
    · rw [if_neg (fun hh => h3 hh.1)]
      by_cases h2 : i + 2 = j
      · subst h2
        rw [if_pos ⟨rfl, by omega⟩, if_neg (by omega), if_neg (by omega), if_pos rfl]
      · rw [if_neg (fun hh => h2 hh.1)]
        by_cases h1 : i + 1 = j
        · subst h1
          rw [if_pos ⟨rfl, by omega⟩, if_neg (by omega), if_pos rfl]
        · rw [if_neg (fun hh => h1 hh.1)]
          by_cases h0 : i = j
          · subst h0
            rw [if_pos ⟨rfl, by omega⟩, if_pos rfl]
          · rw [if_neg (fun hh => h0 hh.1), if_neg (fun hh => h0 hh.symm),
              if_neg (fun hh => h1 hh.symm), if_neg (fun hh => h2 hh.symm),
              if_neg (fun hh => h3 hh.symm)]
  · cases h

theorem memcpy4_getD_outside {d d' : List uint8_t} {i w : Nat} (h : memcpy4 d i w = some d')
    (j : Nat) (hj : j < i ∨ i + 4 ≤ j) : d'.getD j 0 = d.getD j 0 := by
  have e0 : ¬ j = i := by omega
  have e1 : ¬ j = i + 1 := by omega
  have e2 : ¬ j = i + 2 := by omega
  have e3 : ¬ j = i + 3 := by omega
  simp only [memcpy4_getD h j, e0, e1, e2, e3, if_false]

theorem read4_memcpy4_same {d d' : List uint8_t} {i w : Nat} (h : memcpy4 d i w = some d') :
    read4 d' i = w % 4294967296 := by
  have b0 : d'.getD i 0 = toByte w := by
    rw [memcpy4_getD h i]; simp
  have b1 : d'.getD (i + 1) 0 = toByte (w / 256) := by
    rw [memcpy4_getD h (i + 1)]; simp
  have b2 : d'.getD (i + 2) 0 = toByte (w / 65536) := by
    rw [memcpy4_getD h (i + 2)]; simp
  have b3 : d'.getD (i + 3) 0 = toByte (w / 16777216) := by
    rw [memcpy4_getD h (i + 3)]; simp
  unfold read4
  rw [b0, b1, b2, b3]
  simp only [toByte_val]
  omega

theorem read4_memcpy4_other {d d' : List uint8_t} {i w : Nat} (h : memcpy4 d i w = some d')
    (j : Nat) (hj : j + 4 ≤ i ∨ i + 4 ≤ j) : read4 d' j = read4 d j := by
  unfold read4
  rw [memcpy4_getD_outside h j (by omega), memcpy4_getD_outside h (j + 1) (by omega),
    memcpy4_getD_outside h (j + 2) (by omega), memcpy4_getD_outside h (j + 3) (by omega)]

/-- Word-level reading of a buffer after an aligned `memcpy4`. -/
theorem read4_memcpy4_word {d d' : List uint8_t} {a w : Nat}
    (h : memcpy4 d (4 * a) w = some d') (q : Nat) :
    read4 d' (4 * q) = if q = a then w % 4294967296 else read4 d (4 * q) := by
  by_cases hq : q = a
  · subst hq
    rw [if_pos rfl]
    exact read4_memcpy4_same h
  · rw [if_neg hq]
    exact read4_memcpy4_other h _ (by omega)

theorem read4_lt (d : List uint8_t) (j : Nat) : read4 d j < 4294967296 := by
  unfold read4
  have h0 := (d.getD j 0).isLt
  have h1 := (d.getD (j + 1) 0).isLt
  have h2 := (d.getD (j + 2) 0).isLt
  have h3 := (d.getD (j + 3) 0).isLt
  omega

theorem length_resize {α : Type} (n : Nat) (x : α) (xs : List α) :
    (resize n x xs).length = n := by
  unfold resize
  simp only [List.length_append, List.length_take, List.length_replicate]
  omega

theorem memcpy4_mod (d : List uint8_t) (i w : Nat) :
    memcpy4 d i (w % 4294967296) = memcpy4 d i w := by
  have b0 : toByte (w % 4294967296) = toByte w := by
    apply Fin.ext; simp only [toByte_val]; omega
  have b1 : toByte (w % 4294967296 / 256) = toByte (w / 256) := by
    apply Fin.ext; simp only [toByte_val]; omega
  have b2 : toByte (w % 4294967296 / 65536) = toByte (w / 65536) := by
    apply Fin.ext; simp only [toByte_val]; omega
  have b3 : toByte (w % 4294967296 / 16777216) = toByte (w / 16777216) := by
    apply Fin.ext; simp only [toByte_val]; omega
  unfold memcpy4
  rw [b0, b1, b2, b3]

theorem memcpy4_word_step (d : List uint8_t) (a w : Nat) (h : 4 * a + 4 ≤ d.length) :
    ∃ d', memcpy4 d (4 * a) w = some d' ∧ d'.length = d.length ∧
      ∀ q, read4 d' (4 * q) = if q = a then w % 4294967296 else read4 d (4 * q) := by
  obtain ⟨d', hd'⟩ := memcpy4_isSome w h
  exact ⟨d', hd', memcpy4_length hd', read4_memcpy4_word hd'⟩

theorem record_index_eq (i k : Nat) (h : 16 * i + k < 4294967296) :
    record_index i 16 k = 16 * i + k := by
  unfold record_index
  norm_num
  omega

/-! ## Disparity normaliser -/

/-- The fill of `convertTo` never fails on a buffer that holds `rows * cols` floats with
row stride `4 * cols`, keeps its length, stores the element rule of `src` in the
word of every pixel and leaves every other word as it was. -/
theorem convertTo_spec (src : Mat_ Int) (d0 : List uint8_t) (step : Nat) (alpha : ℚ)
    (beta : FloatVal)
    (hstep : 0 < src.rows → step = 4 * src.cols)
    (hlen : 4 * (src.rows * src.cols) ≤ d0.length) :
    ∃ d, convertTo src d0 step alpha beta = some d ∧ d.length = d0.length ∧
      ∀ q, read4 d (4 * q) =
        if q < src.rows * src.cols then
          (scaled_element (src.pixel q) alpha beta).val
        else read4 d0 (4 * q) := by
  unfold convertTo
  rw [forLoopM_nested]
  exact forLoopM_inv
    (fun p (t : List uint8_t) => t.length = d0.length ∧
      ∀ q, read4 t (4 * q) =
        if q < p then (scaled_element (src.pixel q) alpha beta).val
        else read4 d0 (4 * q))
    (src.rows * src.cols)
    (fun p t => memcpy4 t (p / src.cols * step + p % src.cols * 4)
      (scaled_element (src.elem (p / src.cols) (p % src.cols)) alpha beta).val)
    d0 ⟨rfl, fun q => by simp⟩
    (by
      rintro k hk d ⟨hl, hr⟩
      have hrows : 0 < src.rows := Nat.pos_of_ne_zero (fun h => by simp [h] at hk)
      have hoff : k / src.cols * step + k % src.cols * 4 = 4 * k := by
        rw [hstep hrows]
        calc k / src.cols * (4 * src.cols) + k % src.cols * 4
            = 4 * (src.cols * (k / src.cols) + k % src.cols) := by ring
          _ = 4 * k := by rw [Nat.div_add_mod]
      obtain ⟨d1, hd1, hl1, hr1⟩ := memcpy4_word_step d k
        (scaled_element (src.pixel k) alpha beta).val (by omega)
      refine ⟨d1, ?_, by omega, ?_⟩
      · simp only [hoff]
        exact hd1
      · intro q
        rw [hr1, hr q, Nat.mod_eq_of_lt (Fin.isLt _)]
        by_cases hq : q = k
        · subst hq
          rw [if_pos rfl, if_pos (by omega)]
        · rw [if_neg hq]
          by_cases hq' : q < k
          · rw [if_pos hq', if_pos (by omega)]
          · rw [if_neg hq', if_neg (by omega)])

theorem image_size_mod (r c : Nat) :
    ((c % 2 ^ 32 * 4) % 2 ^ 32 * (r % 2 ^ 32)) % 2 ^ 32 = (r * c * 4) % 2 ^ 32 := by
  have h1 : (c % 2 ^ 32 * 4) % 2 ^ 32 * (r % 2 ^ 32) % 2 ^ 32 =
      (c % 2 ^ 32 * 4 * r) % 2 ^ 32 := (Nat.mul_mod _ _ _).symm
  have h2 : r * c * 4 = 2 ^ 32 * (r * (c / 2 ^ 32) * 4) + c % 2 ^ 32 * 4 * r := by
    conv_lhs => rw [← Nat.div_add_mod c (2 ^ 32)]
    ring
  rw [h1, h2, Nat.mul_add_mod]

/-- Closed form of the disparity image when `height * width * 4` fits 32 bits. -/
theorem processDisparity_spec (CUDA_GPU : Bool) (src : Mat_ Int)
    (cx_left cx_right fx_right baseline : ℚ) (disparity : DisparityImage)
    (hb : src.rows * src.cols * 4 < 2 ^ 32) :
    ∃ out, processDisparity CUDA_GPU src cx_left cx_right fx_right baseline disparity =
        some out ∧
      out.delta_d = roundToF32 (1 / ((if CUDA_GPU then 1 else 16 : Nat) : ℚ)) ∧
      out.image.data.length = src.rows * src.cols * 4 ∧
      ∀ q, q < src.rows * src.cols → read4 out.image.data (4 * q) =
        (scaled_element (src.pixel q) (1 / ((if CUDA_GPU then 1 else 16 : Nat) : ℚ))
          (double_sub cx_left cx_right).neg).val := by
  have hmod : ((src.cols % 2 ^ 32 * 4) % 2 ^ 32 * (src.rows % 2 ^ 32)) % 2 ^ 32 =
      src.rows * src.cols * 4 := by
    rw [image_size_mod, Nat.mod_eq_of_lt hb]
  have hstep : 0 < src.rows → (src.cols % 2 ^ 32 * 4) % 2 ^ 32 = 4 * src.cols := by
    intro hr
    have h1 : src.cols * 4 ≤ src.rows * src.cols * 4 := by
      have := Nat.mul_le_mul_right (src.cols * 4) hr
      calc src.cols * 4 = 1 * (src.cols * 4) := (Nat.one_mul _).symm
        _ ≤ src.rows * (src.cols * 4) := this
        _ = src.rows * src.cols * 4 := by ring
    have hb' := hb
    norm_num at hb' ⊢
    omega
  obtain ⟨d, hd, hl, hr⟩ := convertTo_spec src
    (resize (((src.cols % 2 ^ 32 * 4) % 2 ^ 32 * (src.rows % 2 ^ 32)) % 2 ^ 32) 0
      disparity.image.data)
    ((src.cols % 2 ^ 32 * 4) % 2 ^ 32) (1 / ((if CUDA_GPU then 1 else 16 : Nat) : ℚ))
    (double_sub cx_left cx_right).neg hstep (by rw [length_resize, hmod]; omega)
  unfold processDisparity
  simp only [hd, Option.map_some']
  refine ⟨_, rfl, rfl, ?_, ?_⟩
  · show d.length = _
    rw [hl, length_resize, hmod]
  · intro q hq
    show read4 d (4 * q) = _
    rw [hr q, if_pos hq]

/-! ## Passes of the structured cloud builder -/

theorem xyz_word_lt (MISSING_Z : FloatVal) (bad : F32) (pt : Vec3f) (k : Nat) :
    xyz_word MISSING_Z bad pt k < 4294967296 := by
  unfold xyz_word
  split_ifs
  · exact pt.x.isLt
  · exact pt.y.isLt
  · exact pt.z.isLt
  · exact bad.isLt

/-- The geometry pass never fails on a buffer that holds `rows * cols` records, keeps its
length, fills words 0, 1, 2 of every record and leaves every other word as it was. -/
theorem points2_xyz_pass_spec (MISSING_Z : FloatVal) (g : Mat_ Vec3f) (bad : F32)
    (d0 : List uint8_t) (hlen : 16 * (g.rows * g.cols) ≤ d0.length)
    (hwrap : 16 * (g.rows * g.cols) ≤ 4294967296) :
    ∃ d, points2_xyz_pass MISSING_Z g 16 bad (0, d0) = some (g.rows * g.cols, d) ∧
      d.length = d0.length ∧
      ∀ q, read4 d (4 * q) =
        if q < 4 * (g.rows * g.cols) ∧ q % 4 ≠ 3 then
          xyz_word MISSING_Z bad (g.pixel (q / 4)) (q % 4)
        else read4 d0 (4 * q) := by
  unfold points2_xyz_pass
  rw [forLoopM_nested]
  obtain ⟨t, ht, hi, hl, hr⟩ := forLoopM_inv
    (fun p (t : Nat × List uint8_t) => t.1 = p ∧ t.2.length = d0.length ∧
      ∀ q, read4 t.2 (4 * q) =
        if q < 4 * p ∧ q % 4 ≠ 3 then xyz_word MISSING_Z bad (g.pixel (q / 4)) (q % 4)
        else read4 d0 (4 * q))
    (g.rows * g.cols)
    (fun p t => points2_xyz_record MISSING_Z g 16 bad (p / g.cols) (p % g.cols) t)
    (0, d0) ⟨rfl, rfl, fun q => by simp⟩
    (by
      rintro k hk ⟨i, d⟩ ⟨hi, hl, hr⟩
      change i = k at hi
      change d.length = d0.length at hl
      change ∀ q, read4 d (4 * q) = _ at hr
      subst hi
      have e0 : record_index i 16 0 = 4 * (4 * i) := by
        rw [record_index_eq _ _ (by omega)]; omega
      have e1 : record_index i 16 4 = 4 * (4 * i + 1) := by
        rw [record_index_eq _ _ (by omega)]; omega
      have e2 : record_index i 16 8 = 4 * (4 * i + 2) := by
        rw [record_index_eq _ _ (by omega)]; omega
      obtain ⟨d1, hd1, hl1, hr1⟩ := memcpy4_word_step d (4 * i)
        (xyz_word MISSING_Z bad (g.pixel i) 0) (by omega)
      obtain ⟨d2, hd2, hl2, hr2⟩ := memcpy4_word_step d1 (4 * i + 1)
        (xyz_word MISSING_Z bad (g.pixel i) 1) (by omega)
      obtain ⟨d3, hd3, hl3, hr3⟩ := memcpy4_word_step d2 (4 * i + 2)
        (xyz_word MISSING_Z bad (g.pixel i) 2) (by omega)
      refine ⟨(i + 1, d3), ?_, rfl, by simp only; omega, ?_⟩
      · unfold points2_xyz_record
        simp only [e0, e1, e2]
        unfold xyz_word Mat_.pixel at hd1 hd2 hd3
        cases hv : isValidPoint MISSING_Z (g.elem (i / g.cols) (i % g.cols))
        · simp [hv] at hd1 hd2 hd3
          simp [hd1, hd2, hd3]
        · simp [hv] at hd1 hd2 hd3
          simp [hd1, hd2, hd3]
      · intro q
        simp only
        rw [hr3, hr2, hr1, hr q]
        rw [Nat.mod_eq_of_lt (xyz_word_lt _ _ _ _), Nat.mod_eq_of_lt (xyz_word_lt _ _ _ _),
          Nat.mod_eq_of_lt (xyz_word_lt _ _ _ _)]
        by_cases h2 : q = 4 * i + 2
        · subst h2
          have a1 : (4 * i + 2) / 4 = i := by omega
          have a2 : (4 * i + 2) % 4 = 2 := by omega
          rw [if_pos rfl, if_pos ⟨by omega, by omega⟩, a1, a2]
        · rw [if_neg h2]
          by_cases h1 : q = 4 * i + 1
          · subst h1
            have a1 : (4 * i + 1) / 4 = i := by omega
            have a2 : (4 * i + 1) % 4 = 1 := by omega
            rw [if_pos rfl, if_pos ⟨by omega, by omega⟩, a1, a2]
          · rw [if_neg h1]
            by_cases h0 : q = 4 * i
            · subst h0
              have a1 : (4 * i) / 4 = i := by omega
              have a2 : (4 * i) % 4 = 0 := by omega
              rw [if_pos rfl, if_pos ⟨by omega, by omega⟩, a1, a2]
            · rw [if_neg h0]
              by_cases hq : q < 4 * i ∧ q % 4 ≠ 3
              · rw [if_pos hq, if_pos ⟨by omega, hq.2⟩]
              · rw [if_neg hq, if_neg (by omega)])
  obtain ⟨i, d⟩ := t
  change i = _ at hi
  subst hi
  exact ⟨d, ht, hl, hr⟩

theorem rgb_word_lt (MISSING_Z : FloatVal) (bad : F32) (pt : Vec3f) (c : Nat) :
    rgb_word MISSING_Z bad pt c < 4294967296 := by
  unfold rgb_word
  split_ifs
  · exact Nat.mod_lt _ (by decide)
  · exact bad.isLt

/-- A colour pass never fails on a buffer that holds `rows * cols` records, keeps its
length, fills word 3 of every record and leaves every other word as it was. -/
theorem points2_rgb_pass_spec (MISSING_Z : FloatVal) (g : Mat_ Vec3f) (bad : F32)
    (rgb : Nat → Nat → Nat) (d0 : List uint8_t) (hlen : 16 * (g.rows * g.cols) ≤ d0.length)
    (hwrap : 16 * (g.rows * g.cols) ≤ 4294967296) :
    ∃ d, points2_rgb_pass MISSING_Z g 16 bad rgb (0, d0) = some (g.rows * g.cols, d) ∧
      d.length = d0.length ∧
      ∀ q, read4 d (4 * q) =
        if q < 4 * (g.rows * g.cols) ∧ q % 4 = 3 then
          rgb_word MISSING_Z bad (g.pixel (q / 4)) (rgb (q / 4 / g.cols) (q / 4 % g.cols))
        else read4 d0 (4 * q) := by
  unfold points2_rgb_pass
  rw [forLoopM_nested]
  obtain ⟨t, ht, hi, hl, hr⟩ := forLoopM_inv
    (fun p (t : Nat × List uint8_t) => t.1 = p ∧ t.2.length = d0.length ∧
      ∀ q, read4 t.2 (4 * q) =
        if q < 4 * p ∧ q % 4 = 3 then
          rgb_word MISSING_Z bad (g.pixel (q / 4)) (rgb (q / 4 / g.cols) (q / 4 % g.cols))
        else read4 d0 (4 * q))
    (g.rows * g.cols)
    (fun p t => points2_rgb_record MISSING_Z g 16 bad rgb (p / g.cols) (p % g.cols) t)
    (0, d0) ⟨rfl, rfl, fun q => by simp⟩
    (by
      rintro k hk ⟨i, d⟩ ⟨hi, hl, hr⟩
      change i = k at hi
      change d.length = d0.length at hl
      change ∀ q, read4 d (4 * q) = _ at hr
      subst hi
      have e3 : record_index i 16 12 = 4 * (4 * i + 3) := by
        rw [record_index_eq _ _ (by omega)]; omega
      obtain ⟨d1, hd1, hl1, hr1⟩ := memcpy4_word_step d (4 * i + 3)
        (rgb_word MISSING_Z bad (g.pixel i) (rgb (i / g.cols) (i % g.cols))) (by omega)
      refine ⟨(i + 1, d1), ?_, rfl, by simp only; omega, ?_⟩
      · unfold points2_rgb_record
        simp only [e3]
        unfold rgb_word Mat_.pixel at hd1
        cases hv : isValidPoint MISSING_Z (g.elem (i / g.cols) (i % g.cols))
        · simp [hv] at hd1
          simp [hd1]
        · simp only [hv, if_true] at hd1
          rw [memcpy4_mod] at hd1
          simp [hd1]
      · intro q
        simp only
        rw [hr1, hr q, Nat.mod_eq_of_lt (rgb_word_lt _ _ _ _)]
        by_cases h3 : q = 4 * i + 3
        · subst h3
          have a1 : (4 * i + 3) / 4 = i := by omega
          rw [if_pos rfl, if_pos ⟨by omega, by omega⟩, a1]
        · rw [if_neg h3]
          by_cases hq : q < 4 * i ∧ q % 4 = 3
          · rw [if_pos hq, if_pos ⟨by omega, hq.2⟩]
          · rw [if_neg hq, if_neg (by omega)])
  obtain ⟨i, d⟩ := t
  change i = _ at hi
  subst hi
  exact ⟨d, ht, hl, hr⟩

theorem points2_layout_point_step (g : Mat_ Vec3f) (points : PointCloud2) :
    (points2_layout g points).point_step = 16 := rfl

theorem points2_layout_data (g : Mat_ Vec3f) (points : PointCloud2) :
    (points2_layout g points).data =
      resize (((16 * (g.cols % 2 ^ 32)) % 2 ^ 32 * (g.rows % 2 ^ 32)) % 2 ^ 32) 0 points.data :=
  rfl

theorem layout_size_mod (r c : Nat) :
    ((16 * (c % 2 ^ 32)) % 2 ^ 32 * (r % 2 ^ 32)) % 2 ^ 32 = (r * c * 16) % 2 ^ 32 := by
  have h1 : (16 * (c % 2 ^ 32)) % 2 ^ 32 * (r % 2 ^ 32) % 2 ^ 32 =
      (16 * (c % 2 ^ 32) * r) % 2 ^ 32 := (Nat.mul_mod _ _ _).symm
  have h2 : r * c * 16 = 2 ^ 32 * (r * (c / 2 ^ 32) * 16) + 16 * (c % 2 ^ 32) * r := by
    conv_lhs => rw [← Nat.div_add_mod c (2 ^ 32)]
    ring
  rw [h1, h2, Nat.mul_add_mod]

/-- The request of `data.resize`: `height * width * 16` reduced modulo `2 ^ 32`. -/
theorem points2_layout_data_length (g : Mat_ Vec3f) (points : PointCloud2) :
    (points2_layout g points).data.length = (g.rows * g.cols * 16) % 2 ^ 32 := by
  rw [points2_layout_data, length_resize, layout_size_mod]

/-- Closed form of the structured cloud when `height * width * 16` fits 32 bits: the call
does not fail, only the buffer differs from the laid-out message, the buffer has
`height * width` records and each of its words is determined as stated. -/
theorem processPoints2_spec (MISSING_Z : FloatVal) (g : Mat_ Vec3f) (color : ColorMat)
    (encoding : String) (points : PointCloud2) (hb : g.rows * g.cols * 16 < 2 ^ 32) :
    ∃ out, processPoints2 MISSING_Z g color encoding points = some out ∧
      out = { points2_layout g points with data := out.data } ∧
      out.data.length = g.rows * g.cols * 16 ∧
      ∀ q, q < 4 * (g.rows * g.cols) → read4 out.data (4 * q) =
        if q % 4 ≠ 3 then xyz_word MISSING_Z quiet_NaN (g.pixel (q / 4)) (q % 4)
        else if encoding = enc.MONO8 ∨ encoding = enc.RGB8 ∨ encoding = enc.BGR8 then
          rgb_word MISSING_Z quiet_NaN (g.pixel (q / 4))
            (packed_colour color encoding (q / 4 / g.cols) (q / 4 % g.cols))
        else read4 (resize (g.rows * g.cols * 16) 0 points.data) (4 * q) := by
  have hL : (points2_layout g points).data.length = g.rows * g.cols * 16 := by
    rw [points2_layout_data_length, Nat.mod_eq_of_lt hb]
  have hD : (points2_layout g points).data = resize (g.rows * g.cols * 16) 0 points.data := by
    rw [points2_layout_data, layout_size_mod, Nat.mod_eq_of_lt hb]
  have hb' : 16 * (g.rows * g.cols) ≤ 4294967296 := by
    have := hb
    norm_num at this
    omega
  obtain ⟨d1, hp1, hl1, hr1⟩ := points2_xyz_pass_spec MISSING_Z g quiet_NaN
    (points2_layout g points).data (by omega) hb'
  have rgbcase : ∀ rgb : Nat → Nat → Nat,
      ∃ d2, points2_rgb_pass MISSING_Z g 16 quiet_NaN rgb (0, d1) =
          some (g.rows * g.cols, d2) ∧
        d2.length = g.rows * g.cols * 16 ∧
        ∀ q, q < 4 * (g.rows * g.cols) → read4 d2 (4 * q) =
          if q % 4 ≠ 3 then xyz_word MISSING_Z quiet_NaN (g.pixel (q / 4)) (q % 4)
          else rgb_word MISSING_Z quiet_NaN (g.pixel (q / 4))
            (rgb (q / 4 / g.cols) (q / 4 % g.cols)) := by
    intro rgb
    obtain ⟨d2, hp2, hl2, hr2⟩ := points2_rgb_pass_spec MISSING_Z g quiet_NaN rgb d1
      (by omega) hb'
    refine ⟨d2, hp2, by omega, ?_⟩
    intro q hq
    rw [hr2 q, hr1 q]
    by_cases h3 : q % 4 = 3
    · rw [if_pos ⟨hq, h3⟩, if_neg (by simpa using h3)]
    · rw [if_neg (fun h => h3 h.2), if_pos ⟨hq, h3⟩, if_pos h3]
  unfold processPoints2
  simp only [points2_layout_point_step, hp1, Option.some_bind]
  by_cases h1 : encoding = enc.MONO8
  · subst h1
    obtain ⟨d2, hp2, hl2, hr2⟩ := rgbcase (fun u v => rgb_MONO8 (color.at_uint8_t u v))
    refine ⟨_, by rw [if_pos rfl, hp2]; rfl, rfl, hl2, ?_⟩
    intro q hq
    simp only [hr2 q hq, true_or, if_true, packed_colour_MONO8]
  · rw [if_neg h1]
    by_cases h2 : encoding = enc.RGB8
    · subst h2
      obtain ⟨d2, hp2, hl2, hr2⟩ := rgbcase (fun u v => rgb_packed_RGB8 (color.at_Vec3b u v))
      refine ⟨_, by rw [if_pos rfl, hp2]; rfl, rfl, hl2, ?_⟩
      intro q hq
      simp only [hr2 q hq, true_or, or_true, if_true, packed_colour_RGB8]
    · rw [if_neg h2]
      by_cases h3 : encoding = enc.BGR8
      · subst h3
        obtain ⟨d2, hp2, hl2, hr2⟩ := rgbcase (fun u v => rgb_packed_BGR8 (color.at_Vec3b u v))
        refine ⟨_, by rw [if_pos rfl, hp2]; rfl, rfl, hl2, ?_⟩
        intro q hq
        simp only [hr2 q hq, or_true, if_true, packed_colour_BGR8]
      · rw [if_neg h3]
        refine ⟨_, rfl, rfl, by simp only; omega, ?_⟩
        intro q hq
        simp only
        rw [hr1 q, hD]
        by_cases h4 : q % 4 = 3
        · simp [h4, h1, h2, h3]
        · simp [h4, hq]

/-! ## Passes of the sparse cloud builder -/

theorem resize_zero {α : Type} (x : α) (xs : List α) : resize 0 x xs = [] := by
  simp [resize]

/-- Whatever the message held, after the reset it holds no point and exactly the three
empty channels "rgb", "u", "v". -/
theorem points_reset_eq (points : PointCloud) :
    points_reset points = ⟨[], [⟨"rgb", []⟩, ⟨"u", []⟩, ⟨"v", []⟩]⟩ := by
  obtain ⟨pts, chans⟩ := points
  unfold points_reset
  simp only [resize_zero]
  match chans with
  | [] => rfl
  | [_] => rfl
  | [_, _] => rfl
  | _ :: _ :: _ :: _ => simp [resize, modifyAt]

theorem foldl_uv_append (g : Mat_ Vec3f) (L : List (Nat × Nat)) (P : List Point32)
    (c0 : ChannelFloat32) (n1 n2 : String) (V1 V2 : List F32) :
    L.foldl (fun (t : PointCloud) p =>
        push_value (push_value { t with points := t.points ++ [point_of (g.elem p.1 p.2)] }
          1 (int32ToFloat p.1)) 2 (int32ToFloat p.2))
      ⟨P, [c0, ⟨n1, V1⟩, ⟨n2, V2⟩]⟩ =
    ⟨P ++ L.map (fun p => point_of (g.elem p.1 p.2)),
      [c0, ⟨n1, V1 ++ L.map (fun p => int32ToFloat p.1)⟩,
        ⟨n2, V2 ++ L.map (fun p => int32ToFloat p.2)⟩]⟩ := by
  induction L generalizing P V1 V2 with
  | nil => simp
  | cons p L ih =>
    have e : push_value (push_value
        { (⟨P, [c0, ⟨n1, V1⟩, ⟨n2, V2⟩]⟩ : PointCloud) with
          points := P ++ [point_of (g.elem p.1 p.2)] } 1 (int32ToFloat p.1)) 2
        (int32ToFloat p.2) =
        ⟨P ++ [point_of (g.elem p.1 p.2)],
          [c0, ⟨n1, V1 ++ [int32ToFloat p.1]⟩, ⟨n2, V2 ++ [int32ToFloat p.2]⟩]⟩ := rfl
    rw [List.foldl_cons, e, ih]
    simp

theorem foldl_rgb_append (rgb : Nat → Nat → Nat) (L : List (Nat × Nat)) (P : List Point32)
    (n0 : String) (V0 : List F32) (c1 c2 : ChannelFloat32) :
    L.foldl (fun (t : PointCloud) p => push_value t 0 (bitCastToFloat (rgb p.1 p.2)))
      ⟨P, [⟨n0, V0⟩, c1, c2]⟩ =
    ⟨P, [⟨n0, V0 ++ L.map (fun p => bitCastToFloat (rgb p.1 p.2))⟩, c1, c2]⟩ := by
  induction L generalizing V0 with
  | nil => simp
  | cons p L ih =>
    have e : push_value (⟨P, [⟨n0, V0⟩, c1, c2]⟩ : PointCloud) 0
        (bitCastToFloat (rgb p.1 p.2)) =
        ⟨P, [⟨n0, V0 ++ [bitCastToFloat (rgb p.1 p.2)]⟩, c1, c2]⟩ := rfl
    rw [List.foldl_cons, e, ih]
    simp

theorem points_uv_pass_eq (MISSING_Z : FloatVal) (g : Mat_ Vec3f) (P : List Point32)
    (c0 : ChannelFloat32) (n1 n2 : String) (V1 V2 : List F32) :
    points_uv_pass MISSING_Z g ⟨P, [c0, ⟨n1, V1⟩, ⟨n2, V2⟩]⟩ =
      ⟨P ++ (valid_pixels MISSING_Z g).map (fun p => point_of (g.elem p.1 p.2)),
        [c0, ⟨n1, V1 ++ (valid_pixels MISSING_Z g).map (fun p => int32ToFloat p.1)⟩,
          ⟨n2, V2 ++ (valid_pixels MISSING_Z g).map (fun p => int32ToFloat p.2)⟩]⟩ := by
  unfold points_uv_pass points_uv_append valid_pixels
  exact (forLoop_raster_filter g.rows g.cols (fun u v => isValidPoint MISSING_Z (g.elem u v))
    (fun u v (t : PointCloud) =>
      push_value (push_value { t with points := t.points ++ [point_of (g.elem u v)] }
        1 (int32ToFloat u)) 2 (int32ToFloat v)) _).trans
    (foldl_uv_append g _ P c0 n1 n2 V1 V2)

theorem points_rgb_pass_eq (MISSING_Z : FloatVal) (g : Mat_ Vec3f) (rgb : Nat → Nat → Nat)
    (P : List Point32) (n0 : String) (V0 : List F32) (c1 c2 : ChannelFloat32) :
    points_rgb_pass MISSING_Z g rgb ⟨P, [⟨n0, V0⟩, c1, c2]⟩ =
      ⟨P, [⟨n0, V0 ++ (valid_pixels MISSING_Z g).map (fun p => bitCastToFloat (rgb p.1 p.2))⟩,
        c1, c2]⟩ := by
  unfold points_rgb_pass points_rgb_append valid_pixels
  exact (forLoop_raster_filter g.rows g.cols (fun u v => isValidPoint MISSING_Z (g.elem u v))
    (fun u v (t : PointCloud) => push_value t 0 (bitCastToFloat (rgb u v))) _).trans
    (foldl_rgb_append rgb _ P n0 V0 c1 c2)

/-- Closed form of the sparse cloud: the output depends on the grid, the colour image and
the encoding only. -/
theorem processPoints_eq (MISSING_Z : FloatVal) (g : Mat_ Vec3f) (color : ColorMat)
    (encoding : String) (points : PointCloud) :
    processPoints MISSING_Z g color encoding points =
      ⟨(valid_pixels MISSING_Z g).map (fun p => point_of (g.elem p.1 p.2)),
        [⟨"rgb",
            if encoding = enc.MONO8 ∨ encoding = enc.RGB8 ∨ encoding = enc.BGR8 then
              (valid_pixels MISSING_Z g).map
                (fun p => bitCastToFloat (packed_colour color encoding p.1 p.2))
            else []⟩,
          ⟨"u", (valid_pixels MISSING_Z g).map (fun p => int32ToFloat p.1)⟩,
          ⟨"v", (valid_pixels MISSING_Z g).map (fun p => int32ToFloat p.2)⟩]⟩ := by
  unfold processPoints
  simp only [points_reset_eq, points_uv_pass_eq, points_rgb_pass_eq, List.nil_append]
  by_cases h1 : encoding = enc.MONO8
  · subst h1
    simp only [if_true, true_or, packed_colour_MONO8]
  · rw [if_neg h1]
    by_cases h2 : encoding = enc.RGB8
    · subst h2
      simp only [if_true, true_or, or_true, packed_colour_RGB8]
    · rw [if_neg h2]
      by_cases h3 : encoding = enc.BGR8
      · subst h3
        simp only [if_true, or_true, packed_colour_BGR8]
      · rw [if_neg h3, if_neg (by simp [h1, h2, h3])]

/-! ## Colour packing -/

theorem pack_eq_add (r g b : Nat) (hg : g < 256) (hb : b < 256) :
    (r <<< 16) ||| (g <<< 8) ||| b = r * 65536 + g * 256 + b := by
  have h1 : g <<< 8 ||| b = 2 ^ 8 * g + b := by
    rw [Nat.shiftLeft_eq, Nat.mul_comm]
    exact (Nat.mul_add_lt_is_or (by simpa using hb) g).symm
  have h2 : r <<< 16 ||| (2 ^ 8 * g + b) = 2 ^ 16 * r + (2 ^ 8 * g + b) := by
    rw [Nat.shiftLeft_eq, Nat.mul_comm]
    exact (Nat.mul_add_lt_is_or (by norm_num; omega) r).symm
  rw [Nat.or_assoc, h1, h2]
  ring

theorem unpackRGB_add (r g b : Nat) (hr : r < 256) (hg : g < 256) (hb : b < 256) :
    unpackRGB (r * 65536 + g * 256 + b) = (r, g, b) := by
  unfold unpackRGB
  have e255 : (255 : Nat) = 2 ^ 8 - 1 := by norm_num
  rw [e255]
  simp only [Nat.and_pow_two_sub_one_eq_mod, Nat.shiftRight_eq_div_pow]
  refine Prod.ext ?_ (Prod.ext ?_ ?_) <;> simp only [] <;> omega

theorem packRGB_lt (r g b : Nat) (hr : r < 256) (hg : g < 256) (hb : b < 256) :
    packRGB r g b < 16777216 := by
  unfold packRGB
  rw [pack_eq_add r g b hg hb]
  omega

/-! ## Raster indices -/

theorem raster_index (rows cols u v : Nat) (hu : u < rows) (hv : v < cols) :
    u * cols + v < rows * cols ∧ (u * cols + v) / cols = u ∧ (u * cols + v) % cols = v := by
  have hc : 0 < cols := Nat.lt_of_le_of_lt (Nat.zero_le v) hv
  refine ⟨?_, ?_, ?_⟩
  · calc u * cols + v < u * cols + cols := Nat.add_lt_add_left hv _
      _ = (u + 1) * cols := (Nat.succ_mul u cols).symm
      _ ≤ rows * cols := Nat.mul_le_mul_right cols hu
  · rw [Nat.add_comm, Nat.add_mul_div_right _ _ hc, Nat.div_eq_of_lt hv, Nat.zero_add]
  · rw [Nat.add_comm, Nat.add_mul_mod_self_right, Nat.mod_eq_of_lt hv]

theorem packed_colour_lt (color : ColorMat) (encoding : String) (u v : Nat) :
    packed_colour color encoding u v < 16777216 := by
  unfold packed_colour
  split_ifs <;> exact packRGB_lt _ _ _ (Fin.isLt _) (Fin.isLt _) (Fin.isLt _)

/-- The four words of the record of pixel `(u, v)` in the structured cloud. -/
theorem processPoints2_record (MISSING_Z : FloatVal) (g : Mat_ Vec3f) (color : ColorMat)
    (encoding : String) (points : PointCloud2) (hb : g.rows * g.cols * 16 < 2 ^ 32)
    (u v : Nat) (hu : u < g.rows) (hv : v < g.cols) :
    ∃ out, processPoints2 MISSING_Z g color encoding points = some out ∧
      out.data.length = g.rows * g.cols * 16 ∧
      (u * g.cols + v) * 16 + 16 ≤ out.data.length ∧
      read4 out.data ((u * g.cols + v) * 16 + 0) = xyz_word MISSING_Z quiet_NaN (g.elem u v) 0 ∧
      read4 out.data ((u * g.cols + v) * 16 + 4) = xyz_word MISSING_Z quiet_NaN (g.elem u v) 1 ∧
      read4 out.data ((u * g.cols + v) * 16 + 8) = xyz_word MISSING_Z quiet_NaN (g.elem u v) 2 ∧
      read4 out.data ((u * g.cols + v) * 16 + 12) =
        if encoding = enc.MONO8 ∨ encoding = enc.RGB8 ∨ encoding = enc.BGR8 then
          rgb_word MISSING_Z quiet_NaN (g.elem u v) (packed_colour color encoding u v)
        else read4 (resize (g.rows * g.cols * 16) 0 points.data) ((u * g.cols + v) * 16 + 12) := by
  obtain ⟨out, hout, -, hlen, hr⟩ := processPoints2_spec MISSING_Z g color encoding points hb
  obtain ⟨hp, hdiv, hmod⟩ := raster_index g.rows g.cols u v hu hv
  have hpix : ∀ q, q / 4 = u * g.cols + v → g.pixel (q / 4) = g.elem u v := by
    intro q hq
    unfold Mat_.pixel
    rw [hq, hdiv, hmod]
  refine ⟨out, hout, hlen, by omega, ?_, ?_, ?_, ?_⟩
  · have e : (u * g.cols + v) * 16 + 0 = 4 * (4 * (u * g.cols + v)) := by omega
    have e1 : 4 * (u * g.cols + v) / 4 = u * g.cols + v := by omega
    have e2 : 4 * (u * g.cols + v) % 4 = 0 := by omega
    rw [e, hr _ (by omega), if_pos (by omega), hpix _ e1, e2]
  · have e : (u * g.cols + v) * 16 + 4 = 4 * (4 * (u * g.cols + v) + 1) := by omega
    have e1 : (4 * (u * g.cols + v) + 1) / 4 = u * g.cols + v := by omega
    have e2 : (4 * (u * g.cols + v) + 1) % 4 = 1 := by omega
    rw [e, hr _ (by omega), if_pos (by omega), hpix _ e1, e2]
  · have e : (u * g.cols + v) * 16 + 8 = 4 * (4 * (u * g.cols + v) + 2) := by omega
    have e1 : (4 * (u * g.cols + v) + 2) / 4 = u * g.cols + v := by omega
    have e2 : (4 * (u * g.cols + v) + 2) % 4 = 2 := by omega
    rw [e, hr _ (by omega), if_pos (by omega), hpix _ e1, e2]
  · have e : (u * g.cols + v) * 16 + 12 = 4 * (4 * (u * g.cols + v) + 3) := by omega
    have e1 : (4 * (u * g.cols + v) + 3) / 4 = u * g.cols + v := by omega
    have e2 : (4 * (u * g.cols + v) + 3) % 4 = 3 := by omega
    rw [e, hr _ (by omega), if_neg (by omega), hpix _ e1, e1, hdiv, hmod]

/-- On a one-row grid of `2 ^ 28` pixels the buffer is resized to length 0 and the first
`memcpy` of the geometry pass falls outside it. -/
theorem processPoints2_overflow (MISSING_Z : FloatVal) (g : Mat_ Vec3f) (hr : g.rows = 1)
    (hc : g.cols = 268435456) (color : ColorMat) (encoding : String) (points : PointCloud2) :
    (points2_layout g points).data = [] ∧
      processPoints2 MISSING_Z g color encoding points = none := by
  have hd : (points2_layout g points).data = [] := by
    have h := points2_layout_data_length g points
    rw [hr, hc] at h
    exact List.eq_nil_of_length_eq_zero h
  refine ⟨hd, ?_⟩
  unfold processPoints2
  simp only [hd]
  have hp : points2_xyz_pass MISSING_Z g (points2_layout g points).point_step
      quiet_NaN (0, []) = none := by
    unfold points2_xyz_pass
    rw [hr, forLoopM_one, hc]
    apply forLoopM_eq_none
    · decide
    · unfold points2_xyz_record
      simp [memcpy4]
  rw [hp]
  rfl

/-! ## Claims on the structured cloud -/

/-- C4 (amended): when `height * width * 16` fits 32 bits and the encoding is mono8, rgb8
or bgr8, `processPoints2` does not fail and, for every valid pixel `(u, v)`, the record at
byte offset `(u * width + v) * 16` lies inside the buffer and holds the bit patterns of
the grid point's x, y, z at record offsets 0, 4, 8 and the packed colour at offset 12. -/
theorem C4_valid_record (MISSING_Z : FloatVal) (g : Mat_ Vec3f) (color : ColorMat)
    (encoding : String) (points : PointCloud2)
    (henc : encoding = enc.MONO8 ∨ encoding = enc.RGB8 ∨ encoding = enc.BGR8)
    (hb : g.rows * g.cols * 16 < 2 ^ 32) (u v : Nat) (hu : u < g.rows) (hv : v < g.cols)
    (hvalid : isValidPoint MISSING_Z (g.elem u v) = true) :
    ∃ out, processPoints2 MISSING_Z g color encoding points = some out ∧
      (u * g.cols + v) * 16 + 16 ≤ out.data.length ∧
      read4 out.data ((u * g.cols + v) * 16 + 0) = (g.elem u v).x.val ∧
      read4 out.data ((u * g.cols + v) * 16 + 4) = (g.elem u v).y.val ∧
      read4 out.data ((u * g.cols + v) * 16 + 8) = (g.elem u v).z.val ∧
      read4 out.data ((u * g.cols + v) * 16 + 12) = packed_colour color encoding u v := by
  obtain ⟨out, hout, -, hin, h0, h1, h2, h3⟩ :=
    processPoints2_record MISSING_Z g color encoding points hb u v hu hv
  refine ⟨out, hout, hin, ?_, ?_, ?_, ?_⟩
  · rw [h0]; simp [xyz_word, hvalid]
  · rw [h1]; simp [xyz_word, hvalid]
  · rw [h2]; simp [xyz_word, hvalid]
  · rw [h3, if_pos henc]
    unfold rgb_word
    rw [if_pos hvalid]
    exact Nat.mod_eq_of_lt (Nat.lt_trans (packed_colour_lt color encoding u v) (by decide))

/-- Witness of C4 on the 2 × 2 sample, pixel `(1, 1)`, encoding bgr8. -/
theorem C4_valid_record_witness :
    sample_grid.rows * sample_grid.cols * 16 < 2 ^ 32 ∧
    isValidPoint sample_MISSING_Z (sample_grid.elem 1 1) = true ∧
    ∃ out, processPoints2 sample_MISSING_Z sample_grid sample_color enc.BGR8 sample_cloud2 =
        some out ∧
      (1 * sample_grid.cols + 1) * 16 + 16 ≤ out.data.length ∧
      read4 out.data ((1 * sample_grid.cols + 1) * 16 + 0) = (sample_grid.elem 1 1).x.val ∧
      read4 out.data ((1 * sample_grid.cols + 1) * 16 + 4) = (sample_grid.elem 1 1).y.val ∧
      read4 out.data ((1 * sample_grid.cols + 1) * 16 + 8) = (sample_grid.elem 1 1).z.val ∧
      read4 out.data ((1 * sample_grid.cols + 1) * 16 + 12) =
        packed_colour sample_color enc.BGR8 1 1 :=
  ⟨by decide, by decide!,
    C4_valid_record sample_MISSING_Z sample_grid sample_color enc.BGR8 sample_cloud2
      (by decide) (by decide) 1 1 (by decide) (by decide) (by decide!)⟩

/-- Counterexample to C4 as stated: on a one-row grid of `2 ^ 28` valid pixels, with a
colour image of the same size and encoding mono8, the 32-bit product `row_step * height`
wraps to 0, the buffer is empty, and the write of the record of pixel `(0, 0)` is outside
the buffer. -/
theorem C4_counterexample :
    (wide_color.rows = wide_grid.rows ∧ wide_color.cols = wide_grid.cols) ∧
    isValidPoint sample_MISSING_Z (wide_grid.elem 0 0) = true ∧
    (points2_layout wide_grid empty_cloud2).data.length = 0 ∧
    ¬ ((0 * wide_grid.cols + 0) * 16 + 16 ≤
      (points2_layout wide_grid empty_cloud2).data.length) ∧
    processPoints2 sample_MISSING_Z wide_grid wide_color enc.MONO8 empty_cloud2 = none := by
  obtain ⟨hd, hn⟩ :=
    processPoints2_overflow sample_MISSING_Z wide_grid rfl rfl wide_color enc.MONO8 empty_cloud2
  refine ⟨⟨rfl, rfl⟩, by decide!, by rw [hd]; rfl, by rw [hd]; decide, hn⟩

/-- C5 (amended): when `height * width * 16` fits 32 bits, for every pixel where
`isValidPoint` is false the fields x, y, z of its record hold the quiet NaN whatever the
encoding tag, and the field rgb holds the quiet NaN when the encoding is mono8, rgb8 or
bgr8; under any other tag the rgb field keeps the bytes the resized buffer had. -/
theorem C5_invalid_record (MISSING_Z : FloatVal) (g : Mat_ Vec3f) (color : ColorMat)
    (encoding : String) (points : PointCloud2)
    (hb : g.rows * g.cols * 16 < 2 ^ 32) (u v : Nat) (hu : u < g.rows) (hv : v < g.cols)
    (hinvalid : isValidPoint MISSING_Z (g.elem u v) = false) :
    isnan quiet_NaN = true ∧
    ∃ out, processPoints2 MISSING_Z g color encoding points = some out ∧
      read4 out.data ((u * g.cols + v) * 16 + 0) = quiet_NaN.val ∧
      read4 out.data ((u * g.cols + v) * 16 + 4) = quiet_NaN.val ∧
      read4 out.data ((u * g.cols + v) * 16 + 8) = quiet_NaN.val ∧
      read4 out.data ((u * g.cols + v) * 16 + 12) =
        if encoding = enc.MONO8 ∨ encoding = enc.RGB8 ∨ encoding = enc.BGR8 then quiet_NaN.val
        else read4 (resize (g.rows * g.cols * 16) 0 points.data) ((u * g.cols + v) * 16 + 12) := by
  obtain ⟨out, hout, -, -, h0, h1, h2, h3⟩ :=
    processPoints2_record MISSING_Z g color encoding points hb u v hu hv
  refine ⟨by decide, out, hout, ?_, ?_, ?_, ?_⟩
  · rw [h0]; simp [xyz_word, hinvalid]
  · rw [h1]; simp [xyz_word, hinvalid]
  · rw [h2]; simp [xyz_word, hinvalid]
  · rw [h3]
    simp [rgb_word, hinvalid]

/-- Witness of C5 on the 2 × 2 sample, pixel `(0, 1)` (infinite depth), encoding mono8. -/
theorem C5_invalid_record_witness :
    sample_grid.rows * sample_grid.cols * 16 < 2 ^ 32 ∧
    isValidPoint sample_MISSING_Z (sample_grid.elem 0 1) = false ∧
    (isnan quiet_NaN = true ∧
    ∃ out, processPoints2 sample_MISSING_Z sample_grid sample_color enc.MONO8 sample_cloud2 =
        some out ∧
      read4 out.data ((0 * sample_grid.cols + 1) * 16 + 0) = quiet_NaN.val ∧
      read4 out.data ((0 * sample_grid.cols + 1) * 16 + 4) = quiet_NaN.val ∧
      read4 out.data ((0 * sample_grid.cols + 1) * 16 + 8) = quiet_NaN.val ∧
      read4 out.data ((0 * sample_grid.cols + 1) * 16 + 12) =
        if enc.MONO8 = enc.MONO8 ∨ enc.MONO8 = enc.RGB8 ∨ enc.MONO8 = enc.BGR8 then
          quiet_NaN.val
        else read4 (resize (sample_grid.rows * sample_grid.cols * 16) 0 sample_cloud2.data)
          ((0 * sample_grid.cols + 1) * 16 + 12)) :=
  ⟨by decide, by decide,
    C5_invalid_record sample_MISSING_Z sample_grid sample_color enc.MONO8 sample_cloud2
      (by decide) 0 1 (by decide) (by decide) (by decide)⟩

/-- Counterexample to C5 as stated.  First, one invalid pixel (infinite depth), the
encoding tag "yuv422", an empty message: the call succeeds and the rgb field of the record
holds the word 0, which is the float `+0.0` and not a NaN.  Second, a one-row grid of
`2 ^ 28` invalid pixels under mono8: the 32-bit size wraps to 0 and no record is written
inside the buffer. -/
theorem C5_counterexample :
    (isValidPoint sample_MISSING_Z ((single_pixel ⟨0, 0, 0x7F800000⟩).elem 0 0) = false ∧
    (processPoints2 sample_MISSING_Z (single_pixel ⟨0, 0, 0x7F800000⟩) single_color "yuv422"
      empty_cloud2).map (fun out => read4 out.data 12) = some 0 ∧
    isnan (toF32 0) = false) ∧
    (isValidPoint sample_MISSING_Z (wide_invalid_grid.elem 0 0) = false ∧
    processPoints2 sample_MISSING_Z wide_invalid_grid wide_color enc.MONO8 empty_cloud2 =
      none) := by
  refine ⟨⟨by decide, by decide, by decide⟩, by decide, ?_⟩
  exact (processPoints2_overflow sample_MISSING_Z wide_invalid_grid rfl rfl wide_color
    enc.MONO8 empty_cloud2).2

/-- C6 (amended): when the encoding tag is none of mono8, rgb8, bgr8 and
`height * width * 16` fits 32 bits, `processPoints2` completes without failing and never
writes the rgb field: for every pixel, valid or not, the word at record offset 12 is the
one the resized buffer had there (zero bytes where the buffer grew). -/
theorem C6_unrecognised_encoding (MISSING_Z : FloatVal) (g : Mat_ Vec3f) (color : ColorMat)
    (encoding : String) (points : PointCloud2)
    (henc : ¬ (encoding = enc.MONO8 ∨ encoding = enc.RGB8 ∨ encoding = enc.BGR8))
    (hb : g.rows * g.cols * 16 < 2 ^ 32) :
    ∃ out, processPoints2 MISSING_Z g color encoding points = some out ∧
      ∀ u v, u < g.rows → v < g.cols →
        read4 out.data ((u * g.cols + v) * 16 + 12) =
          read4 (resize (g.rows * g.cols * 16) 0 points.data) ((u * g.cols + v) * 16 + 12) := by
  obtain ⟨out, hout, -, -, hr⟩ := processPoints2_spec MISSING_Z g color encoding points hb
  refine ⟨out, hout, ?_⟩
  intro u v hu hv
  obtain ⟨hp, -, -⟩ := raster_index g.rows g.cols u v hu hv
  have e : (u * g.cols + v) * 16 + 12 = 4 * (4 * (u * g.cols + v) + 3) := by omega
  rw [e, hr _ (by omega), if_neg (by omega), if_neg henc]

/-- Witness of C6 on the 2 × 2 sample with the encoding tag "YUV422". -/
theorem C6_unrecognised_encoding_witness :
    ¬ ("YUV422" = enc.MONO8 ∨ "YUV422" = enc.RGB8 ∨ "YUV422" = enc.BGR8) ∧
    sample_grid.rows * sample_grid.cols * 16 < 2 ^ 32 ∧
    ∃ out, processPoints2 sample_MISSING_Z sample_grid sample_color "YUV422" sample_cloud2 =
        some out ∧
      ∀ u v, u < sample_grid.rows → v < sample_grid.cols →
        read4 out.data ((u * sample_grid.cols + v) * 16 + 12) =
          read4 (resize (sample_grid.rows * sample_grid.cols * 16) 0 sample_cloud2.data)
            ((u * sample_grid.cols + v) * 16 + 12) :=
  ⟨by decide, by decide,
    C6_unrecognised_encoding sample_MISSING_Z sample_grid sample_color "YUV422" sample_cloud2
      (by decide) (by decide)⟩

/-- Counterexample to C6 as stated.  First, one valid pixel `(1, 1, 1)`, the encoding tag
"YUV422", an empty message: the call succeeds and the rgb field of the record holds the
word 0, which is the float `+0.0` and not a NaN.  Second, a one-row grid of `2 ^ 28`
pixels under "YUV422": the 32-bit size wraps to 0 and the call does not complete. -/
theorem C6_counterexample :
    (isValidPoint sample_MISSING_Z
      ((single_pixel ⟨0x3F800000, 0x3F800000, 0x3F800000⟩).elem 0 0) = true ∧
    (processPoints2 sample_MISSING_Z (single_pixel ⟨0x3F800000, 0x3F800000, 0x3F800000⟩)
      single_color "YUV422" empty_cloud2).map (fun out => read4 out.data 12) = some 0 ∧
    isnan (toF32 0) = false) ∧
    processPoints2 sample_MISSING_Z wide_grid wide_color "YUV422" empty_cloud2 = none := by
  refine ⟨⟨by decide!, by decide!, by decide⟩, ?_⟩
  exact (processPoints2_overflow sample_MISSING_Z wide_grid rfl rfl wide_color
    "YUV422" empty_cloud2).2

/-- C10 (amended): `row_step` is `16 * width` and the buffer is resized to
`height * width * 16`, both reduced modulo `2 ^ 32` (the products are formed in the
32-bit unsigned fields); when `height * width * 16` fits 32 bits the call does not fail
and the buffer produced has length exactly `height * width * 16`. -/
theorem C10_buffer_length (MISSING_Z : FloatVal) (g : Mat_ Vec3f) (color : ColorMat)
    (encoding : String) (points : PointCloud2) :
    (points2_layout g points).row_step = (16 * g.cols) % 2 ^ 32 ∧
    (points2_layout g points).data.length = (g.rows * g.cols * 16) % 2 ^ 32 ∧
    (g.rows * g.cols * 16 < 2 ^ 32 →
      ∃ out, processPoints2 MISSING_Z g color encoding points = some out ∧
        out.data.length = g.rows * g.cols * 16) := by
  refine ⟨?_, points2_layout_data_length g points, ?_⟩
  · show (16 * (g.cols % 2 ^ 32)) % 2 ^ 32 = (16 * g.cols) % 2 ^ 32
    rw [Nat.mul_mod, Nat.mod_mod, ← Nat.mul_mod]
  · intro hb
    obtain ⟨out, hout, -, hlen, -⟩ := processPoints2_spec MISSING_Z g color encoding points hb
    exact ⟨out, hout, hlen⟩

/-- Witness of C10 on the 2 × 2 sample. -/
theorem C10_buffer_length_witness :
    sample_grid.rows * sample_grid.cols * 16 < 2 ^ 32 ∧
    (points2_layout sample_grid sample_cloud2).row_step = (16 * sample_grid.cols) % 2 ^ 32 ∧
    (points2_layout sample_grid sample_cloud2).data.length =
      (sample_grid.rows * sample_grid.cols * 16) % 2 ^ 32 ∧
    ∃ out, processPoints2 sample_MISSING_Z sample_grid sample_color enc.RGB8 sample_cloud2 =
        some out ∧
      out.data.length = sample_grid.rows * sample_grid.cols * 16 :=
  ⟨by decide,
    (C10_buffer_length sample_MISSING_Z sample_grid sample_color enc.RGB8 sample_cloud2).1,
    (C10_buffer_length sample_MISSING_Z sample_grid sample_color enc.RGB8 sample_cloud2).2.1,
    (C10_buffer_length sample_MISSING_Z sample_grid sample_color enc.RGB8 sample_cloud2).2.2
      (by decide)⟩

/-- Counterexample to C10 as stated: for height 1 and width `2 ^ 28` the buffer is resized
to length 0, not to `1 * 2 ^ 28 * 16 = 2 ^ 32`, and the call produces no buffer. -/
theorem C10_counterexample :
    (points2_layout wide_grid empty_cloud2).row_step = 0 ∧
    (points2_layout wide_grid empty_cloud2).data.length = 0 ∧
    wide_grid.rows * wide_grid.cols * 16 = 4294967296 ∧
    processPoints2 sample_MISSING_Z wide_grid wide_color enc.RGB8 empty_cloud2 = none := by
  obtain ⟨hd, hn⟩ :=
    processPoints2_overflow sample_MISSING_Z wide_grid rfl rfl wide_color enc.RGB8 empty_cloud2
  refine ⟨by decide, by rw [hd]; rfl, by decide, hn⟩

/-! ## Claim on the disparity image -/

/-- On a one-row raw grid of `2 ^ 30` pixels the 32-bit `step` wraps to 0, the buffer is
resized to length 0 and the first store of `convertTo` falls outside it. -/
theorem processDisparity_overflow (src : Mat_ Int) (hr : src.rows = 1)
    (hc : src.cols = 1073741824) (cx_left cx_right fx_right baseline : ℚ)
    (disparity : DisparityImage) :
    processDisparity false src cx_left cx_right fx_right baseline disparity = none := by
  have hstep : (src.cols % 2 ^ 32 * 4) % 2 ^ 32 = 0 := by rw [hc]; decide
  have hd : resize (((src.cols % 2 ^ 32 * 4) % 2 ^ 32 * (src.rows % 2 ^ 32)) % 2 ^ 32)
      (0 : uint8_t) disparity.image.data = [] := by
    apply List.eq_nil_of_length_eq_zero
    rw [length_resize, hstep, Nat.zero_mul]
    rfl
  have hcv : ∀ (alpha : ℚ) (beta : FloatVal), convertTo src [] 0 alpha beta = none := by
    intro alpha beta
    unfold convertTo
    rw [hr, forLoopM_one, hc]
    apply forLoopM_eq_none
    · decide
    · simp [memcpy4]
  unfold processDisparity
  simp only [hstep]
  rw [hstep] at hd
  rw [hd, hcv]
  rfl

theorem mem_raster (rows cols : Nat) (p : Nat × Nat) :
    p ∈ raster rows cols ↔ p.1 < rows ∧ p.2 < cols := by
  unfold raster
  simp only [List.mem_flatMap, List.mem_range, List.mem_map]
  constructor
  · rintro ⟨u, hu, v, hv, rfl⟩
    exact ⟨hu, hv⟩
  · rintro ⟨hu, hv⟩
    exact ⟨p.1, hu, p.2, hv, rfl⟩

theorem mem_valid_pixels {MISSING_Z : FloatVal} {g : Mat_ Vec3f} {p : Nat × Nat}
    (h : p ∈ valid_pixels MISSING_Z g) :
    p.1 < g.rows ∧ p.2 < g.cols ∧ isValidPoint MISSING_Z (g.elem p.1 p.2) = true := by
  unfold valid_pixels at h
  rw [List.mem_filter] at h
  exact ⟨((mem_raster _ _ _).1 h.1).1, ((mem_raster _ _ _).1 h.1).2, h.2⟩

/-- The conversion `int32_t → float` of an index up to `2 ^ 24` is exact. -/
theorem f32Val_int32ToFloat (n : Nat) (hn : n ≤ 16777216) :
    f32Val (int32ToFloat (n : Int)) = FloatVal.finite (n : ℚ) := by
  unfold int32ToFloat
  rw [Int.cast_natCast]
  exact roundToF32_exact _ (f32Representable_nat n hn)

/-- In a one-column grid whose only valid pixel is in row `a`, the valid pixels in raster
order are the single pixel `(a, 0)`. -/
theorem valid_pixels_single (MISSING_Z : FloatVal) (g : Mat_ Vec3f) (a : Nat)
    (ha : a < g.rows) (hc : g.cols = 1)
    (hv : ∀ u, isValidPoint MISSING_Z (g.elem u 0) = decide (u = a)) :
    valid_pixels MISSING_Z g = [(a, 0)] := by
  have key : ∀ n, ((List.range n).flatMap (fun u => (List.range 1).map (fun v => (u, v)))).filter
      (fun p => isValidPoint MISSING_Z (g.elem p.1 p.2)) = if a < n then [(a, 0)] else [] := by
    intro n
    induction n with
    | zero => rfl
    | succ n ih =>
      rw [List.range_succ, List.flatMap_append, List.filter_append, ih]
      have e : (List.flatMap [n] fun u => (List.range 1).map (fun v => (u, v))) = [(n, 0)] := rfl
      rw [e]
      by_cases h1 : a < n
      · have h2 : ¬ (n = a) := by omega
        simp [List.filter, hv, h1, h2, Nat.lt_succ_of_lt h1]
      · by_cases h3 : n = a
        · subst h3
          simp [List.filter, hv]
        · have h4 : ¬ (a < n + 1) := by omega
          simp [List.filter, hv, h1, h3, h4]
  unfold valid_pixels raster
  rw [hc, key, if_pos ha]

/-- C7: after `processPoints`, whatever the message held before, there are exactly three
channels, named "rgb", "u", "v"; "u" and "v" are as long as the point list; "rgb" is as
long as the point list under mono8, rgb8 or bgr8 and has length 0 under any other tag. -/
theorem C7_channels_invariant (MISSING_Z : FloatVal) (g : Mat_ Vec3f) (color : ColorMat)
    (encoding : String) (points : PointCloud) :
    ∃ c0 c1 c2, (processPoints MISSING_Z g color encoding points).channels = [c0, c1, c2] ∧
      c0.name = "rgb" ∧ c1.name = "u" ∧ c2.name = "v" ∧
      c1.values.length = (processPoints MISSING_Z g color encoding points).points.length ∧
      c2.values.length = (processPoints MISSING_Z g color encoding points).points.length ∧
      c0.values.length =
        if encoding = enc.MONO8 ∨ encoding = enc.RGB8 ∨ encoding = enc.BGR8 then
          (processPoints MISSING_Z g color encoding points).points.length
        else 0 := by
  rw [processPoints_eq]
  refine ⟨_, _, _, rfl, rfl, rfl, rfl, by simp, by simp, ?_⟩
  split_ifs <;> simp

theorem unpack_bitCast (p : Nat) (hp : p < 4294967296) :
    (bitCastToFloat p).val = p := Nat.mod_eq_of_lt hp

theorem unpack_memcpy4 (data : List uint8_t) (idx p : Nat) (hp : p < 4294967296)
    (t : Nat × Nat × Nat) (ht : unpackRGB p = t) :
    (memcpy4 data idx p).map (fun d => unpackRGB (read4 d idx)) =
      (memcpy4 data idx p).map (fun _ => t) := by
  cases h : memcpy4 data idx p with
  | none => rfl
  | some d =>
    simp only [Option.map_some']
    rw [read4_memcpy4_same h, Nat.mod_eq_of_lt hp, ht]

theorem packed_colour_mono8_eq (color : ColorMat) (u v : Nat) :
    packed_colour color enc.MONO8 u v =
      packRGB (color.at_uint8_t u v).val (color.at_uint8_t u v).val
        (color.at_uint8_t u v).val := by
  simp [packed_colour]

theorem packed_colour_rgb8_eq (color : ColorMat) (u v : Nat) :
    packed_colour color enc.RGB8 u v =
      packRGB (color.at_Vec3b u v).c0.val (color.at_Vec3b u v).c1.val
        (color.at_Vec3b u v).c2.val := by
  have h : ¬ (enc.RGB8 = enc.MONO8) := by decide
  simp [packed_colour, h]

theorem packed_colour_bgr8_eq (color : ColorMat) (u v : Nat) :
    packed_colour color enc.BGR8 u v =
      packRGB (color.at_Vec3b u v).c2.val (color.at_Vec3b u v).c1.val
        (color.at_Vec3b u v).c0.val := by
  have h : ¬ (enc.BGR8 = enc.MONO8) := by decide
  have h' : ¬ (enc.BGR8 = enc.RGB8) := by decide
  simp [packed_colour, h, h']

/-- The "rgb" channel of the sparse cloud under a recognised encoding. -/
theorem processPoints_rgb (MISSING_Z : FloatVal) (g : Mat_ Vec3f) (color : ColorMat)
    (encoding : String) (points : PointCloud)
    (henc : encoding = enc.MONO8 ∨ encoding = enc.RGB8 ∨ encoding = enc.BGR8) :
    (processPoints MISSING_Z g color encoding points).channels.head? =
      some ⟨"rgb", (valid_pixels MISSING_Z g).map
        (fun p => bitCastToFloat (packed_colour color encoding p.1 p.2))⟩ := by
  rw [processPoints_eq, if_pos henc]
  rfl

/-- The word in the "rgb" field of the record of a valid pixel of the structured cloud
under a recognised encoding, when the buffer size fits 32 bits. -/
theorem processPoints2_rgb (MISSING_Z : FloatVal) (g : Mat_ Vec3f) (color : ColorMat)
    (encoding : String) (points : PointCloud2) (hb : g.rows * g.cols * 16 < 2 ^ 32)
    (henc : encoding = enc.MONO8 ∨ encoding = enc.RGB8 ∨ encoding = enc.BGR8)
    (u v : Nat) (hu : u < g.rows) (hv : v < g.cols)
    (hvalid : isValidPoint MISSING_Z (g.elem u v) = true) :
    ∃ out, processPoints2 MISSING_Z g color encoding points = some out ∧
      read4 out.data ((u * g.cols + v) * 16 + 12) = packed_colour color encoding u v := by
  obtain ⟨out, hout, -, -, -, -, -, h12⟩ :=
    processPoints2_record MISSING_Z g color encoding points hb u v hu hv
  refine ⟨out, hout, ?_⟩
  rw [h12, if_pos henc]
  unfold rgb_word
  rw [if_pos hvalid]
  exact Nat.mod_eq_of_lt (Nat.lt_trans (packed_colour_lt color encoding u v) (by decide))

/-- C8 (amended): the packed colour is `(R << 16) | (G << 8) | B`: a mono8 pixel `g`
packs as the RGB pixel `(g, g, g)`, an rgb8 pixel packs in the order given, a bgr8 pixel
`(b, g, r)` packs as the rgb8 pixel `(r, g, b)`.  The sparse builder stores, for every
grid, as the "rgb" value of each retained pixel the bit-cast of that packed colour of the
pixel of the colour image; the structured builder stores it as the word at offset 12 of
the record of each valid pixel, for every grid whose `rows * cols * 16` fits 32 bits, on
which it completes.  Each builder gives, on a mono8 image, what it gives on the rgb8
image with the grey level replicated, and on a bgr8 image what it gives on the rgb8 image
with channels 0 and 2 exchanged. -/
theorem C8_packed_colour (MISSING_Z : FloatVal) (dense : Mat_ Vec3f) (color : ColorMat)
    (points : PointCloud) (points2 : PointCloud2) (grey r g b : uint8_t) :
    (rgb_MONO8 grey = packRGB grey.val grey.val grey.val ∧
    rgb_MONO8 grey = rgb_packed_RGB8 ⟨grey, grey, grey⟩ ∧
    rgb_packed_RGB8 ⟨r, g, b⟩ = packRGB r.val g.val b.val ∧
    rgb_packed_BGR8 ⟨b, g, r⟩ = rgb_packed_RGB8 ⟨r, g, b⟩ ∧
    rgb_MONO8 200 = packRGB 200 200 200 ∧
    rgb_packed_BGR8 ⟨10, 20, 30⟩ = rgb_packed_RGB8 ⟨30, 20, 10⟩ ∧
    processPoints MISSING_Z dense color enc.MONO8 points =
      processPoints MISSING_Z dense (grey_as_rgb color) enc.RGB8 points ∧
    processPoints MISSING_Z dense color enc.BGR8 points =
      processPoints MISSING_Z dense (swap_channels color) enc.RGB8 points ∧
    processPoints2 MISSING_Z dense color enc.MONO8 points2 =
      processPoints2 MISSING_Z dense (grey_as_rgb color) enc.RGB8 points2 ∧
    processPoints2 MISSING_Z dense color enc.BGR8 points2 =
      processPoints2 MISSING_Z dense (swap_channels color) enc.RGB8 points2) ∧
    ((processPoints MISSING_Z dense color enc.MONO8 points).channels.head? =
      some ⟨"rgb", (valid_pixels MISSING_Z dense).map (fun p => bitCastToFloat
        (packRGB (color.at_uint8_t p.1 p.2).val (color.at_uint8_t p.1 p.2).val
          (color.at_uint8_t p.1 p.2).val))⟩ ∧
    (processPoints MISSING_Z dense color enc.RGB8 points).channels.head? =
      some ⟨"rgb", (valid_pixels MISSING_Z dense).map (fun p => bitCastToFloat
        (packRGB (color.at_Vec3b p.1 p.2).c0.val (color.at_Vec3b p.1 p.2).c1.val
          (color.at_Vec3b p.1 p.2).c2.val))⟩ ∧
    (processPoints MISSING_Z dense color enc.BGR8 points).channels.head? =
      some ⟨"rgb", (valid_pixels MISSING_Z dense).map (fun p => bitCastToFloat
        (packRGB (color.at_Vec3b p.1 p.2).c2.val (color.at_Vec3b p.1 p.2).c1.val
          (color.at_Vec3b p.1 p.2).c0.val))⟩) ∧
    (dense.rows * dense.cols * 16 < 2 ^ 32 →
      ∀ u v, u < dense.rows → v < dense.cols →
        isValidPoint MISSING_Z (dense.elem u v) = true →
        (∃ out, processPoints2 MISSING_Z dense color enc.MONO8 points2 = some out ∧
          read4 out.data ((u * dense.cols + v) * 16 + 12) =
            packRGB (color.at_uint8_t u v).val (color.at_uint8_t u v).val
              (color.at_uint8_t u v).val) ∧
        (∃ out, processPoints2 MISSING_Z dense color enc.RGB8 points2 = some out ∧
          read4 out.data ((u * dense.cols + v) * 16 + 12) =
            packRGB (color.at_Vec3b u v).c0.val (color.at_Vec3b u v).c1.val
              (color.at_Vec3b u v).c2.val) ∧
        (∃ out, processPoints2 MISSING_Z dense color enc.BGR8 points2 = some out ∧
          read4 out.data ((u * dense.cols + v) * 16 + 12) =
            packRGB (color.at_Vec3b u v).c2.val (color.at_Vec3b u v).c1.val
              (color.at_Vec3b u v).c0.val)) := by
  have n1 : ¬ (enc.RGB8 = enc.MONO8) := by decide
  have n2 : ¬ (enc.BGR8 = enc.MONO8) := by decide
  have n3 : ¬ (enc.BGR8 = enc.RGB8) := by decide
  refine ⟨⟨rfl, rfl, rfl, rfl, rfl, rfl, ?_, ?_, ?_, ?_⟩, ⟨?_, ?_, ?_⟩, ?_⟩
  · unfold processPoints
    rw [if_pos rfl, if_neg n1, if_pos rfl]
    rfl
  · unfold processPoints
    rw [if_neg n2, if_neg n3, if_pos rfl, if_neg n1, if_pos rfl]
    rfl
  · unfold processPoints2
    simp only [if_pos, if_neg n1]
    rfl
  · unfold processPoints2
    simp only [if_pos, if_neg n1, if_neg n2, if_neg n3]
    rfl
  · rw [processPoints_rgb MISSING_Z dense color enc.MONO8 points (Or.inl rfl)]
    simp only [packed_colour_mono8_eq]
  · rw [processPoints_rgb MISSING_Z dense color enc.RGB8 points (Or.inr (Or.inl rfl))]
    simp only [packed_colour_rgb8_eq]
  · rw [processPoints_rgb MISSING_Z dense color enc.BGR8 points (Or.inr (Or.inr rfl))]
    simp only [packed_colour_bgr8_eq]
  · intro hb u v hu hv hvalid
    refine ⟨?_, ?_, ?_⟩
    · obtain ⟨out, h1, h2⟩ := processPoints2_rgb MISSING_Z dense color enc.MONO8 points2 hb
        (Or.inl rfl) u v hu hv hvalid
      exact ⟨out, h1, h2.trans (packed_colour_mono8_eq color u v)⟩
    · obtain ⟨out, h1, h2⟩ := processPoints2_rgb MISSING_Z dense color enc.RGB8 points2 hb
        (Or.inr (Or.inl rfl)) u v hu hv hvalid
      exact ⟨out, h1, h2.trans (packed_colour_rgb8_eq color u v)⟩
    · obtain ⟨out, h1, h2⟩ := processPoints2_rgb MISSING_Z dense color enc.BGR8 points2 hb
        (Or.inr (Or.inr rfl)) u v hu hv hvalid
      exact ⟨out, h1, h2.trans (packed_colour_bgr8_eq color u v)⟩

/-- Witness of C8 on the 2 × 2 sample, pixel `(1, 1)` with colour `(11, 21, 30)`: under
rgb8 the word at offset 12 of its record is `packRGB 11 21 30`. -/
theorem C8_packed_colour_witness :
    sample_grid.rows * sample_grid.cols * 16 < 2 ^ 32 ∧
    isValidPoint sample_MISSING_Z (sample_grid.elem 1 1) = true ∧
    sample_color.at_Vec3b 1 1 = ⟨11, 21, 30⟩ ∧
    ∃ out, processPoints2 sample_MISSING_Z sample_grid sample_color enc.RGB8 sample_cloud2 =
        some out ∧
      read4 out.data ((1 * sample_grid.cols + 1) * 16 + 12) =
        packRGB (sample_color.at_Vec3b 1 1).c0.val (sample_color.at_Vec3b 1 1).c1.val
          (sample_color.at_Vec3b 1 1).c2.val :=
  ⟨by decide, by decide!, by decide,
    ((C8_packed_colour sample_MISSING_Z sample_grid sample_color sample_cloud sample_cloud2
      0 0 0 0).2.2 (by decide) 1 1 (by decide) (by decide) (by decide!)).2.1⟩

/-- Counterexample to C8 as stated: on a one-row grid of `2 ^ 28` valid pixels, with an
rgb8 colour image of the same size, the pixel `(0, 0)` is valid and has the colour
`(10, 20, 30)`, but the structured builder packs nothing for it: the 32-bit product
`row_step * height` wraps to 0, the buffer is empty and `processPoints2` leaves defined
behaviour at the first record. -/
theorem C8_counterexample :
    (wide_color.rows = wide_grid.rows ∧ wide_color.cols = wide_grid.cols) ∧
    isValidPoint sample_MISSING_Z (wide_grid.elem 0 0) = true ∧
    wide_color.at_Vec3b 0 0 = ⟨10, 20, 30⟩ ∧
    (points2_layout wide_grid empty_cloud2).data.length = 0 ∧
    processPoints2 sample_MISSING_Z wide_grid wide_color enc.RGB8 empty_cloud2 = none ∧
    processPoints2 sample_MISSING_Z wide_grid wide_color enc.BGR8 empty_cloud2 = none ∧
    processPoints2 sample_MISSING_Z wide_grid wide_color enc.MONO8 empty_cloud2 = none := by
  obtain ⟨hd, hn⟩ :=
    processPoints2_overflow sample_MISSING_Z wide_grid rfl rfl wide_color enc.RGB8 empty_cloud2
  exact ⟨⟨rfl, rfl⟩, by decide!, rfl, by rw [hd]; rfl, hn,
    (processPoints2_overflow sample_MISSING_Z wide_grid rfl rfl wide_color enc.BGR8
      empty_cloud2).2,
    (processPoints2_overflow sample_MISSING_Z wide_grid rfl rfl wide_color enc.MONO8
      empty_cloud2).2⟩

/-- C9: for all 8-bit `R`, `G`, `B` and each of mono8 (with `R = G = B`), rgb8, bgr8:
packing the pixel, storing the 32-bit pattern as a `float` (in the sparse channel by the
bit-cast, in the structured buffer by `memcpy`), reading the pattern back and extracting
bits 16-23, 8-15, 0-7 recovers `(R, G, B)`. -/
theorem C9_pack_unpack_roundtrip (r g b : uint8_t) (data : List uint8_t) (idx : Nat) :
    unpackRGB (bitCastToFloat (rgb_packed_RGB8 ⟨r, g, b⟩)).val = (r.val, g.val, b.val) ∧
    unpackRGB (bitCastToFloat (rgb_packed_BGR8 ⟨b, g, r⟩)).val = (r.val, g.val, b.val) ∧
    unpackRGB (bitCastToFloat (rgb_MONO8 g)).val = (g.val, g.val, g.val) ∧
    (memcpy4 data idx (rgb_packed_RGB8 ⟨r, g, b⟩)).map (fun d => unpackRGB (read4 d idx)) =
      (memcpy4 data idx (rgb_packed_RGB8 ⟨r, g, b⟩)).map (fun _ => (r.val, g.val, b.val)) ∧
    (memcpy4 data idx (rgb_packed_BGR8 ⟨b, g, r⟩)).map (fun d => unpackRGB (read4 d idx)) =
      (memcpy4 data idx (rgb_packed_BGR8 ⟨b, g, r⟩)).map (fun _ => (r.val, g.val, b.val)) ∧
    (memcpy4 data idx (rgb_MONO8 g)).map (fun d => unpackRGB (read4 d idx)) =
      (memcpy4 data idx (rgb_MONO8 g)).map (fun _ => (g.val, g.val, g.val)) := by
  have key : ∀ x y z : uint8_t, packRGB x.val y.val z.val < 4294967296 ∧
      unpackRGB (packRGB x.val y.val z.val) = (x.val, y.val, z.val) := by
    intro x y z
    refine ⟨Nat.lt_trans (packRGB_lt _ _ _ x.isLt y.isLt z.isLt) (by decide), ?_⟩
    unfold packRGB
    rw [pack_eq_add _ _ _ y.isLt z.isLt]
    exact unpackRGB_add _ _ _ x.isLt y.isLt z.isLt
  have e1 : rgb_packed_RGB8 ⟨r, g, b⟩ = packRGB r.val g.val b.val := rfl
  have e2 : rgb_packed_BGR8 ⟨b, g, r⟩ = packRGB r.val g.val b.val := rfl
  have e3 : rgb_MONO8 g = packRGB g.val g.val g.val := rfl
  rw [e1, e2, e3]
  refine ⟨?_, ?_, ?_, ?_, ?_, ?_⟩
  · rw [unpack_bitCast _ (key r g b).1]; exact (key r g b).2
  · rw [unpack_bitCast _ (key r g b).1]; exact (key r g b).2
  · rw [unpack_bitCast _ (key g g g).1]; exact (key g g g).2
  · exact unpack_memcpy4 _ _ _ (key r g b).1 _ (key r g b).2
  · exact unpack_memcpy4 _ _ _ (key r g b).1 _ (key r g b).2
  · exact unpack_memcpy4 _ _ _ (key g g g).1 _ (key g g g).2

/-! ## Flag arithmetic -/

theorem or_and_self_right (x b : Nat) : (x ||| b) &&& b = b := by
  apply Nat.eq_of_testBit_eq
  intro i
  simp only [Nat.testBit_and, Nat.testBit_or]
  cases x.testBit i <;> cases b.testBit i <;> rfl

theorem or_or_and_mid (x a b : Nat) : (x ||| a ||| b) &&& a = a := by
  apply Nat.eq_of_testBit_eq
  intro i
  simp only [Nat.testBit_and, Nat.testBit_or]
  cases x.testBit i <;> cases a.testBit i <;> cases b.testBit i <;> rfl

theorem or_eq_zero (a b : Nat) : a ||| b = 0 ↔ a = 0 ∧ b = 0 := by
  constructor
  · intro h
    have key : ∀ i, a.testBit i = false ∧ b.testBit i = false := by
      intro i
      have := congrArg (fun n => n.testBit i) h
      simp only [Nat.testBit_or, Nat.zero_testBit] at this
      cases ha : a.testBit i <;> cases hb : b.testBit i <;> simp [ha, hb] at this ⊢
    constructor
    · apply Nat.eq_of_testBit_eq
      intro i
      rw [(key i).1, Nat.zero_testBit]
    · apply Nat.eq_of_testBit_eq
      intro i
      rw [(key i).2, Nat.zero_testBit]
  · rintro ⟨rfl, rfl⟩
    rfl

theorem and_or_ne_zero (x a b : Nat) :
    x &&& (a ||| b) ≠ 0 ↔ x &&& a ≠ 0 ∨ x &&& b ≠ 0 := by
  rw [Nat.and_or_distrib_left, Ne, or_eq_zero]
  tauto

theorem shiftRight_and (x b k : Nat) (h : x &&& b = b) :
    (x >>> k) &&& (b >>> k) = b >>> k := by
  apply Nat.eq_of_testBit_eq
  intro i
  have := congrArg (fun n => n.testBit (k + i)) h
  simp only [Nat.testBit_and, Nat.testBit_shiftRight] at this ⊢
  exact this

theorem testBit_one_of_and (x : Nat) (h : x &&& 2 = 2) : x.testBit 1 = true := by
  have := congrArg (fun n => n.testBit 1) h
  simp only [Nat.testBit_and] at this
  have e : Nat.testBit 2 1 = true := by decide
  rw [e, Bool.and_true] at this
  exact this

/-- A cloud flag is a stereo flag. -/
theorem stereo_of_cloud (flags : Nat) (h : flags &&& (POINT_CLOUD ||| POINT_CLOUD2) ≠ 0) :
    flags &&& STEREO_ALL ≠ 0 := by
  have e : STEREO_ALL = DISPARITY ||| (POINT_CLOUD ||| POINT_CLOUD2) := by decide
  rw [e, and_or_ne_zero]
  exact Or.inr h

theorem stereo_flag_iff (flags : Nat) :
    flags &&& STEREO_ALL ≠ 0 ↔
      flags &&& DISPARITY ≠ 0 ∨ flags &&& POINT_CLOUD ≠ 0 ∨ flags &&& POINT_CLOUD2 ≠ 0 := by
  have e : STEREO_ALL = DISPARITY ||| (POINT_CLOUD ||| POINT_CLOUD2) := by decide
  rw [e, and_or_ne_zero, and_or_ne_zero]

/-- With a stereo flag set, `left_flags` holds `LEFT_RECT`. -/
theorem left_flags_rect (flags : Nat) (h : flags &&& STEREO_ALL ≠ 0) :
    left_flags flags &&& LEFT_RECT = LEFT_RECT := by
  unfold left_flags process_flags
  simp only [if_pos h]
  by_cases hc : flags &&& (POINT_CLOUD ||| POINT_CLOUD2) ≠ 0
  · rw [if_pos hc]
    exact or_or_and_mid _ _ _
  · rw [if_neg hc]
    exact or_and_self_right _ _

/-- With a stereo flag set, `right_flags` is the caller's right flags with `RIGHT_RECT`. -/
theorem right_flags_eq (flags : Nat) (h : flags &&& STEREO_ALL ≠ 0) :
    right_flags flags = (flags &&& RIGHT_ALL) ||| RIGHT_RECT := by
  unfold right_flags process_flags
  simp only [if_pos h]

/-- With a cloud flag set, `left_flags` is the caller's left flags with `LEFT_RECT` and
`LEFT_RECT_COLOR`. -/
theorem left_flags_cloud (flags : Nat) (h : flags &&& (POINT_CLOUD ||| POINT_CLOUD2) ≠ 0) :
    left_flags flags = (flags &&& LEFT_ALL) ||| LEFT_RECT ||| LEFT_RECT_COLOR := by
  unfold left_flags process_flags
  simp only [if_pos h, if_pos (stereo_of_cloud flags h)]

/-- The flags as updated hold `DISPARITY` exactly when the caller set a stereo flag. -/
theorem updated_flags_disparity (flags : Nat) :
    (process_flags flags).1 &&& DISPARITY ≠ 0 ↔ flags &&& STEREO_ALL ≠ 0 := by
  unfold process_flags
  by_cases hc : flags &&& (POINT_CLOUD ||| POINT_CLOUD2) ≠ 0
  · simp only [if_pos hc, or_and_self_right]
    exact ⟨fun _ => stereo_of_cloud flags hc, fun _ => by decide⟩
  · simp only [if_neg hc]
    rw [stereo_flag_iff]
    rw [and_or_ne_zero] at hc
    tauto

/-- The update of the flags leaves the cloud flags as the caller set them. -/
theorem updated_flags_cloud (flags X : Nat) (hX : DISPARITY &&& X = 0) :
    (process_flags flags).1 &&& X = flags &&& X := by
  unfold process_flags
  by_cases hc : flags &&& (POINT_CLOUD ||| POINT_CLOUD2) ≠ 0
  · simp only [if_pos hc]
    rw [Nat.and_comm, Nat.and_or_distrib_left, Nat.and_comm X DISPARITY, hX, Nat.or_zero,
      Nat.and_comm]
  · simp only [if_neg hc]

/-! ## Orchestrator -/

theorem process_left_fails (self : StereoProcessor) (CUDA_GPU : Bool) (left_raw right_raw : Image)
    (model : StereoCameraModel) (output : StereoImageSet) (flags : Nat)
    (hl : (mono_left_result self left_raw model output flags).1 = false) :
    process self CUDA_GPU left_raw right_raw model output flags =
      ([Call.mono_left (left_flags flags)],
        some (false,
          { output with left := (mono_left_result self left_raw model output flags).2 })) := by
  unfold mono_left_result left_flags at hl
  unfold process mono_left_result left_flags
  simp only [hl, if_true]

theorem process_right_fails (self : StereoProcessor) (CUDA_GPU : Bool)
    (left_raw right_raw : Image) (model : StereoCameraModel) (output : StereoImageSet)
    (flags : Nat) (hl : (mono_left_result self left_raw model output flags).1 = true)
    (hr : (mono_right_result self right_raw model output flags).1 = false) :
    process self CUDA_GPU left_raw right_raw model output flags =
      ([Call.mono_left (left_flags flags), Call.mono_right (right_flags flags >>> 4)],
        some (false, after_mono self left_raw right_raw model output flags)) := by
  unfold mono_left_result left_flags at hl
  unfold mono_right_result right_flags at hr
  unfold process after_mono mono_left_result mono_right_result left_flags right_flags
  simp only [hl, hr, if_true, Bool.true_eq_false, if_false]

theorem process_both (self : StereoProcessor) (CUDA_GPU : Bool)
    (left_raw right_raw : Image) (model : StereoCameraModel) (output : StereoImageSet)
    (flags : Nat) (hl : (mono_left_result self left_raw model output flags).1 = true)
    (hr : (mono_right_result self right_raw model output flags).1 = true) :
    process self CUDA_GPU left_raw right_raw model output flags =
      ([Call.mono_left (left_flags flags), Call.mono_right (right_flags flags >>> 4)] ++
          (process_stages self CUDA_GPU model
            (after_mono self left_raw right_raw model output flags) (process_flags flags).1).1,
        (process_stages self CUDA_GPU model
            (after_mono self left_raw right_raw model output flags) (process_flags flags).1).2.map
          fun out => (true, out)) := by
  unfold mono_left_result left_flags at hl
  unfold mono_right_result right_flags at hr
  unfold process after_mono mono_left_result mono_right_result left_flags right_flags
  simp only [hl, hr, Bool.true_eq_false, if_false]

/-- The stage calls of `process` are decided by the flags. -/
theorem process_stages_log (self : StereoProcessor) (CUDA_GPU : Bool)
    (model : StereoCameraModel) (o : StereoImageSet) (f : Nat) :
    (process_stages self CUDA_GPU model o f).1 =
      (if f &&& DISPARITY ≠ 0 then [Call.processDisparity] else []) ++
      (if f &&& POINT_CLOUD ≠ 0 then [Call.processPoints] else []) ++
      (if f &&& POINT_CLOUD2 ≠ 0 then [Call.processPoints2] else []) := by
  unfold process_stages
  by_cases hD : f &&& DISPARITY ≠ 0 <;> by_cases hP : f &&& POINT_CLOUD ≠ 0 <;>
    by_cases hQ : f &&& POINT_CLOUD2 ≠ 0 <;>
    simp only [if_pos hD, if_neg hD, if_pos hP, if_neg hP, if_pos hQ, if_neg hQ, call_stage] <;>
    rfl

/-- The output set of the stereo stages, when every stage called stays within defined
behaviour. -/
theorem process_stages_some (self : StereoProcessor) (CUDA_GPU : Bool)
    (model : StereoCameraModel) (o out : StereoImageSet) (f : Nat)
    (h : (process_stages self CUDA_GPU model o f).2 = some out) :
    out.left = o.left ∧ out.right = o.right ∧
      (if f &&& DISPARITY ≠ 0 then stage_disparity self CUDA_GPU model o = some out.disparity
        else out.disparity = o.disparity) ∧
      (out.points = if f &&& POINT_CLOUD ≠ 0 then
          stage_points model { o with disparity := out.disparity } else o.points) ∧
      (if f &&& POINT_CLOUD2 ≠ 0 then
          stage_points2 model { o with disparity := out.disparity } = some out.points2
        else out.points2 = o.points2) := by
  unfold stage_disparity stage_points stage_points2
  unfold process_stages at h
  by_cases hD : f &&& DISPARITY ≠ 0
  · simp only [if_pos hD] at h ⊢
    cases hd : processDisparity CUDA_GPU (self.block_matcher_.compute o.left.rect o.right.rect)
      model.left.cx model.right.cx model.right.fx model.baseline o.disparity with
    | none =>
      exfalso
      simp only [call_stage, hd, Option.map_none', Option.some_bind, Option.none_bind] at h
      split_ifs at h <;> simp at h
    | some d =>
      simp only [call_stage, hd, Option.map_some', Option.some_bind] at h ⊢
      by_cases hP : f &&& POINT_CLOUD ≠ 0 <;> by_cases hQ : f &&& POINT_CLOUD2 ≠ 0 <;>
        simp only [if_pos hP, if_neg hP, if_pos hQ, if_neg hQ, Option.some_bind] at h ⊢
      · obtain ⟨p2, hq, rfl⟩ := Option.map_eq_some'.1 h
        exact ⟨rfl, rfl, rfl, rfl, hq⟩
      · cases h
        exact ⟨rfl, rfl, rfl, rfl, rfl⟩
      · obtain ⟨p2, hq, rfl⟩ := Option.map_eq_some'.1 h
        exact ⟨rfl, rfl, rfl, rfl, hq⟩
      · cases h
        exact ⟨rfl, rfl, rfl, rfl, rfl⟩
  · simp only [if_neg hD] at h ⊢
    by_cases hP : f &&& POINT_CLOUD ≠ 0 <;> by_cases hQ : f &&& POINT_CLOUD2 ≠ 0 <;>
      simp only [if_pos hP, if_neg hP, if_pos hQ, if_neg hQ, call_stage, Option.some_bind] at h ⊢
    · obtain ⟨p2, hq, rfl⟩ := Option.map_eq_some'.1 h
      exact ⟨rfl, rfl, rfl, rfl, hq⟩
    · cases h
      exact ⟨rfl, rfl, rfl, rfl, rfl⟩
    · obtain ⟨p2, hq, rfl⟩ := Option.map_eq_some'.1 h
      exact ⟨rfl, rfl, rfl, rfl, hq⟩
    · cases h
      exact ⟨rfl, rfl, rfl, rfl, rfl⟩

/-- The stereo stages complete when the grids of the stages the flags ask for fit the
32-bit sizes of their messages: the matcher's grids for the disparity stage, the
reprojected grids for the structured cloud. -/
theorem process_stages_total (self : StereoProcessor) (CUDA_GPU : Bool)
    (model : StereoCameraModel) (o : StereoImageSet) (f : Nat)
    (hd : f &&& DISPARITY ≠ 0 → ∀ l r,
      (self.block_matcher_.compute l r).rows * (self.block_matcher_.compute l r).cols * 4
        < 2 ^ 32)
    (hg : f &&& POINT_CLOUD2 ≠ 0 → ∀ img, (model.projectDisparityImageTo3d img).rows *
      (model.projectDisparityImageTo3d img).cols * 16 < 2 ^ 32) :
    ∃ out, (process_stages self CUDA_GPU model o f).2 = some out := by
  have hq : f &&& POINT_CLOUD2 ≠ 0 → ∀ img c e p, ∃ p2,
      processPoints2 model.MISSING_Z (model.projectDisparityImageTo3d img) c e p = some p2 := by
    intro hQ img c e p
    obtain ⟨p2, h2, -⟩ := processPoints2_spec model.MISSING_Z
      (model.projectDisparityImageTo3d img) c e p (hg hQ img)
    exact ⟨p2, h2⟩
  unfold process_stages
  by_cases hD : f &&& DISPARITY ≠ 0
  · obtain ⟨d, hd1, -⟩ := processDisparity_spec CUDA_GPU
      (self.block_matcher_.compute o.left.rect o.right.rect) model.left.cx model.right.cx
      model.right.fx model.baseline o.disparity (hd hD _ _)
    by_cases hP : f &&& POINT_CLOUD ≠ 0 <;> by_cases hQ : f &&& POINT_CLOUD2 ≠ 0 <;>
      simp only [if_pos hD, if_pos hP, if_neg hP, if_pos hQ, if_neg hQ, call_stage, hd1,
        Option.map_some', Option.some_bind]
    · obtain ⟨p2, h2⟩ := hq hQ d.image o.left.rect_color o.left.color_encoding o.points2
      exact ⟨_, by rw [h2]; rfl⟩
    · exact ⟨_, rfl⟩
    · obtain ⟨p2, h2⟩ := hq hQ d.image o.left.rect_color o.left.color_encoding o.points2
      exact ⟨_, by rw [h2]; rfl⟩
    · exact ⟨_, rfl⟩
  · by_cases hP : f &&& POINT_CLOUD ≠ 0 <;> by_cases hQ : f &&& POINT_CLOUD2 ≠ 0 <;>
      simp only [if_neg hD, if_pos hP, if_neg hP, if_pos hQ, if_neg hQ, call_stage,
        Option.map_some', Option.some_bind]
    · obtain ⟨p2, h2⟩ :=
        hq hQ o.disparity.image o.left.rect_color o.left.color_encoding o.points2
      exact ⟨_, by rw [h2]; rfl⟩
    · exact ⟨_, rfl⟩
    · obtain ⟨p2, h2⟩ :=
        hq hQ o.disparity.image o.left.rect_color o.left.color_encoding o.points2
      exact ⟨_, by rw [h2]; rfl⟩
    · exact ⟨_, rfl⟩

/-- The sizes of the image in the message `processDisparity` returns. -/
theorem processDisparity_image_size (CUDA_GPU : Bool) (src : Mat_ Int)
    (cx_left cx_right fx_right baseline : ℚ) (disparity out : DisparityImage)
    (h : processDisparity CUDA_GPU src cx_left cx_right fx_right baseline disparity = some out) :
    out.image.height = src.rows % 2 ^ 32 ∧ out.image.width = src.cols % 2 ^ 32 := by
  unfold processDisparity at h
  obtain ⟨data, -, rfl⟩ := Option.map_eq_some'.1 h
  exact ⟨rfl, rfl⟩

/-- The calls of `process` when both monocular calls succeed: the two monocular calls,
then the stages the flags ask for, the disparity stage first. -/
theorem process_log_both (self : StereoProcessor) (CUDA_GPU : Bool)
    (left_raw right_raw : Image) (model : StereoCameraModel) (output : StereoImageSet)
    (flags : Nat) (hl : (mono_left_result self left_raw model output flags).1 = true)
    (hr : (mono_right_result self right_raw model output flags).1 = true) :
    (process self CUDA_GPU left_raw right_raw model output flags).1 =
      [Call.mono_left (left_flags flags), Call.mono_right (right_flags flags >>> 4)] ++
      (if flags &&& DISPARITY ≠ 0 ∨ flags &&& POINT_CLOUD ≠ 0 ∨ flags &&& POINT_CLOUD2 ≠ 0
        then [Call.processDisparity] else []) ++
      (if flags &&& POINT_CLOUD ≠ 0 then [Call.processPoints] else []) ++
      (if flags &&& POINT_CLOUD2 ≠ 0 then [Call.processPoints2] else []) := by
  have eD : ((process_flags flags).1 &&& DISPARITY ≠ 0) =
      (flags &&& DISPARITY ≠ 0 ∨ flags &&& POINT_CLOUD ≠ 0 ∨ flags &&& POINT_CLOUD2 ≠ 0) :=
    propext ((updated_flags_disparity flags).trans (stereo_flag_iff flags))
  have eP : (process_flags flags).1 &&& POINT_CLOUD = flags &&& POINT_CLOUD :=
    updated_flags_cloud flags POINT_CLOUD (by decide)
  have eQ : (process_flags flags).1 &&& POINT_CLOUD2 = flags &&& POINT_CLOUD2 :=
    updated_flags_cloud flags POINT_CLOUD2 (by decide)
  rw [process_both self CUDA_GPU left_raw right_raw model output flags hl hr]
  show _ ++ _ = _
  rw [process_stages_log, eP, eQ]
  simp only [eD, List.append_assoc]

/-- The left monocular call is the first call of `process`. -/
theorem process_log_head (self : StereoProcessor) (CUDA_GPU : Bool) (left_raw right_raw : Image)
    (model : StereoCameraModel) (output : StereoImageSet) (flags : Nat) :
    (process self CUDA_GPU left_raw right_raw model output flags).1.head? =
      some (Call.mono_left (left_flags flags)) := by
  cases hl : (mono_left_result self left_raw model output flags).1 with
  | false => rw [process_left_fails self CUDA_GPU left_raw right_raw model output flags hl]; rfl
  | true =>
    cases hr : (mono_right_result self right_raw model output flags).1 with
    | false =>
      rw [process_right_fails self CUDA_GPU left_raw right_raw model output flags hl hr]; rfl
    | true => rw [process_both self CUDA_GPU left_raw right_raw model output flags hl hr]; rfl

/-- When the left monocular call succeeds, the right monocular call is the second call
of `process`. -/
theorem process_log_second (self : StereoProcessor) (CUDA_GPU : Bool)
    (left_raw right_raw : Image) (model : StereoCameraModel) (output : StereoImageSet)
    (flags : Nat) (hl : (mono_left_result self left_raw model output flags).1 = true) :
    ∃ rest, (process self CUDA_GPU left_raw right_raw model output flags).1 =
      [Call.mono_left (left_flags flags), Call.mono_right (right_flags flags >>> 4)] ++ rest := by
  cases hr : (mono_right_result self right_raw model output flags).1 with
  | false =>
    rw [process_right_fails self CUDA_GPU left_raw right_raw model output flags hl hr]
    exact ⟨[], rfl⟩
  | true =>
    rw [process_both self CUDA_GPU left_raw right_raw model output flags hl hr]
    exact ⟨_, rfl⟩

/-! ## Claims on the orchestrator -/

/-- C12: with `POINT_CLOUD` or `POINT_CLOUD2` among the flags, the flags that `process`
hands to the left monocular call (its first call) contain `LEFT_RECT_COLOR` and
`LEFT_RECT`, and when both monocular calls succeed the next call is `processDisparity`,
whatever else the caller set; with `flags = POINT_CLOUD2` the left monocular flags are
`LEFT_RECT | LEFT_RECT_COLOR`. -/
theorem C12_cloud_flags (self : StereoProcessor) (CUDA_GPU : Bool) (left_raw right_raw : Image)
    (model : StereoCameraModel) (output : StereoImageSet) (flags : Nat)
    (hc : flags &&& POINT_CLOUD ≠ 0 ∨ flags &&& POINT_CLOUD2 ≠ 0) :
    (process self CUDA_GPU left_raw right_raw model output flags).1.head? =
        some (Call.mono_left (left_flags flags)) ∧
      left_flags flags &&& LEFT_RECT_COLOR = LEFT_RECT_COLOR ∧
      left_flags flags &&& LEFT_RECT = LEFT_RECT ∧
      ((mono_left_result self left_raw model output flags).1 = true →
        (mono_right_result self right_raw model output flags).1 = true →
        ∃ rest, (process self CUDA_GPU left_raw right_raw model output flags).1 =
          [Call.mono_left (left_flags flags), Call.mono_right (right_flags flags >>> 4),
            Call.processDisparity] ++ rest) ∧
      (flags = POINT_CLOUD2 → left_flags flags = LEFT_RECT ||| LEFT_RECT_COLOR) := by
  have hc' : flags &&& (POINT_CLOUD ||| POINT_CLOUD2) ≠ 0 := (and_or_ne_zero _ _ _).2 hc
  have hs := stereo_of_cloud flags hc'
  refine ⟨process_log_head self CUDA_GPU left_raw right_raw model output flags, ?_,
    left_flags_rect flags hs, ?_, ?_⟩
  · rw [left_flags_cloud flags hc']
    exact or_and_self_right _ _
  · intro hl hr
    rw [process_log_both self CUDA_GPU left_raw right_raw model output flags hl hr,
      if_pos (Or.inr hc)]
    exact ⟨(if flags &&& POINT_CLOUD ≠ 0 then [Call.processPoints] else []) ++
      (if flags &&& POINT_CLOUD2 ≠ 0 then [Call.processPoints2] else []),
      by simp only [List.append_assoc, List.cons_append, List.nil_append]⟩
  · rintro rfl
    decide

/-- Witness of C12 on the sample processor with `flags = POINT_CLOUD2`. -/
theorem C12_cloud_flags_witness :
    (POINT_CLOUD2 &&& POINT_CLOUD ≠ 0 ∨ POINT_CLOUD2 &&& POINT_CLOUD2 ≠ 0) ∧
    (mono_left_result sample_processor sample_raw sample_model sample_output POINT_CLOUD2).1 =
      true ∧
    (mono_right_result sample_processor sample_raw sample_model sample_output POINT_CLOUD2).1 =
      true ∧
    left_flags POINT_CLOUD2 = LEFT_RECT ||| LEFT_RECT_COLOR ∧
    ∃ rest, (process sample_processor false sample_raw sample_raw sample_model sample_output
        POINT_CLOUD2).1 =
      [Call.mono_left (left_flags POINT_CLOUD2), Call.mono_right (right_flags POINT_CLOUD2 >>> 4),
        Call.processDisparity] ++ rest :=
  ⟨Or.inr (by decide), by decide!, by decide!,
    (C12_cloud_flags sample_processor false sample_raw sample_raw sample_model sample_output
      POINT_CLOUD2 (Or.inr (by decide))).2.2.2.2 rfl,
    (C12_cloud_flags sample_processor false sample_raw sample_raw sample_model sample_output
      POINT_CLOUD2 (Or.inr (by decide))).2.2.2.1 (by decide!) (by decide!)⟩

/-- C13: with `DISPARITY` among the flags, set by the caller or implied by a cloud flag,
the flags handed to the left monocular call contain `LEFT_RECT`, and `right_flags`
contains `RIGHT_RECT`, so that the value `right_flags >> 4` handed to the right monocular
call has bit 1 set, whatever else the caller set. -/
theorem C13_rect_flags (self : StereoProcessor) (CUDA_GPU : Bool) (left_raw right_raw : Image)
    (model : StereoCameraModel) (output : StereoImageSet) (flags : Nat)
    (hs : flags &&& DISPARITY ≠ 0 ∨ flags &&& POINT_CLOUD ≠ 0 ∨ flags &&& POINT_CLOUD2 ≠ 0) :
    (process self CUDA_GPU left_raw right_raw model output flags).1.head? =
        some (Call.mono_left (left_flags flags)) ∧
      left_flags flags &&& LEFT_RECT = LEFT_RECT ∧
      ((mono_left_result self left_raw model output flags).1 = true →
        ∃ rest, (process self CUDA_GPU left_raw right_raw model output flags).1 =
          [Call.mono_left (left_flags flags), Call.mono_right (right_flags flags >>> 4)] ++
            rest) ∧
      right_flags flags &&& RIGHT_RECT = RIGHT_RECT ∧
      (right_flags flags >>> 4) &&& (RIGHT_RECT >>> 4) = RIGHT_RECT >>> 4 ∧
      (right_flags flags >>> 4).testBit 1 = true := by
  have hs' : flags &&& STEREO_ALL ≠ 0 := (stereo_flag_iff flags).2 hs
  have hr : right_flags flags &&& RIGHT_RECT = RIGHT_RECT := by
    rw [right_flags_eq flags hs']
    exact or_and_self_right _ _
  refine ⟨process_log_head self CUDA_GPU left_raw right_raw model output flags,
    left_flags_rect flags hs',
    process_log_second self CUDA_GPU left_raw right_raw model output flags, hr,
    shiftRight_and _ _ 4 hr, ?_⟩
  exact testBit_one_of_and _ (shiftRight_and _ _ 4 hr)

/-- Witness of C13 on the sample processor with `flags = DISPARITY`. -/
theorem C13_rect_flags_witness :
    (DISPARITY &&& DISPARITY ≠ 0 ∨ DISPARITY &&& POINT_CLOUD ≠ 0 ∨
      DISPARITY &&& POINT_CLOUD2 ≠ 0) ∧
    (mono_left_result sample_processor sample_raw sample_model sample_output DISPARITY).1 =
      true ∧
    left_flags DISPARITY &&& LEFT_RECT = LEFT_RECT ∧
    (right_flags DISPARITY >>> 4).testBit 1 = true ∧
    ∃ rest, (process sample_processor false sample_raw sample_raw sample_model sample_output
        DISPARITY).1 =
      [Call.mono_left (left_flags DISPARITY), Call.mono_right (right_flags DISPARITY >>> 4)] ++
        rest :=
  ⟨Or.inl (by decide), by decide!,
    (C13_rect_flags sample_processor false sample_raw sample_raw sample_model sample_output
      DISPARITY (Or.inl (by decide))).2.1,
    (C13_rect_flags sample_processor false sample_raw sample_raw sample_model sample_output
      DISPARITY (Or.inl (by decide))).2.2.2.2.2,
    (C13_rect_flags sample_processor false sample_raw sample_raw sample_model sample_output
      DISPARITY (Or.inl (by decide))).2.2.1 (by decide!)⟩

/-- C14 (amended): if the left monocular call fails, or it succeeds and the right one
fails, `process` returns false and calls none of `processDisparity`, `processPoints`,
`processPoints2`; if both succeed, every value `process` returns is true, and it returns
whenever the stages the flags ask for stay inside their buffers: the matcher's grid has
`rows * cols * 4 < 2 ^ 32` when a stereo flag is set, and the reprojected grid has
`rows * cols * 16 < 2 ^ 32` when `POINT_CLOUD2` is set. -/
theorem C14_mono_failure (self : StereoProcessor) (CUDA_GPU : Bool) (left_raw right_raw : Image)
    (model : StereoCameraModel) (output : StereoImageSet) (flags : Nat) :
    (((mono_left_result self left_raw model output flags).1 = false ∨
        ((mono_left_result self left_raw model output flags).1 = true ∧
          (mono_right_result self right_raw model output flags).1 = false)) →
      (process self CUDA_GPU left_raw right_raw model output flags).2.map Prod.fst = some false ∧
      Call.processDisparity ∉ (process self CUDA_GPU left_raw right_raw model output flags).1 ∧
      Call.processPoints ∉ (process self CUDA_GPU left_raw right_raw model output flags).1 ∧
      Call.processPoints2 ∉ (process self CUDA_GPU left_raw right_raw model output flags).1) ∧
    ((mono_left_result self left_raw model output flags).1 = true →
      (mono_right_result self right_raw model output flags).1 = true →
      (∀ b out, (process self CUDA_GPU left_raw right_raw model output flags).2 = some (b, out) →
        b = true) ∧
      ((flags &&& DISPARITY ≠ 0 ∨ flags &&& POINT_CLOUD ≠ 0 ∨ flags &&& POINT_CLOUD2 ≠ 0 →
          ∀ l r, (self.block_matcher_.compute l r).rows *
            (self.block_matcher_.compute l r).cols * 4 < 2 ^ 32) →
        (flags &&& POINT_CLOUD2 ≠ 0 → ∀ img, (model.projectDisparityImageTo3d img).rows *
          (model.projectDisparityImageTo3d img).cols * 16 < 2 ^ 32) →
        ∃ out, (process self CUDA_GPU left_raw right_raw model output flags).2 =
          some (true, out))) := by
  refine ⟨?_, ?_⟩
  · rintro (hl | ⟨hl, hr⟩)
    · rw [process_left_fails self CUDA_GPU left_raw right_raw model output flags hl]
      simp
    · rw [process_right_fails self CUDA_GPU left_raw right_raw model output flags hl hr]
      simp
  · intro hl hr
    rw [process_both self CUDA_GPU left_raw right_raw model output flags hl hr]
    refine ⟨?_, ?_⟩
    · intro b out h
      obtain ⟨o, -, ho⟩ := Option.map_eq_some'.1 h
      exact (congrArg Prod.fst ho).symm
    · intro hd hg
      obtain ⟨out, hout⟩ := process_stages_total self CUDA_GPU model
        (after_mono self left_raw right_raw model output flags) (process_flags flags).1
        (fun h => hd ((stereo_flag_iff flags).1 ((updated_flags_disparity flags).1 h)))
        (fun h => hg (by rwa [updated_flags_cloud flags POINT_CLOUD2 (by decide)] at h))
      exact ⟨out, by rw [hout]; rfl⟩

/-- Witness of C14 on the sample processor: a refused right image with every flag set, and
two accepted images with every flag set. -/
theorem C14_mono_failure_witness :
    ((mono_left_result sample_processor sample_raw sample_model sample_output ALL).1 = true ∧
      (mono_right_result sample_processor sample_raw_refused sample_model sample_output ALL).1 =
        false) ∧
    (process sample_processor false sample_raw sample_raw_refused sample_model sample_output
      ALL).2.map Prod.fst = some false ∧
    (mono_right_result sample_processor sample_raw sample_model sample_output ALL).1 = true ∧
    ∃ out, (process sample_processor false sample_raw sample_raw sample_model sample_output
      ALL).2 = some (true, out) :=
  ⟨⟨by decide!, by decide!⟩,
    ((C14_mono_failure sample_processor false sample_raw sample_raw_refused sample_model
      sample_output ALL).1 (Or.inr ⟨by decide!, by decide!⟩)).1,
    by decide!,
    ((C14_mono_failure sample_processor false sample_raw sample_raw sample_model
      sample_output ALL).2 (by decide!) (by decide!)).2
      (fun _ _ _ => show scenario_A.rows * scenario_A.cols * 4 < 2 ^ 32 by decide)
      (fun _ _ => show sample_grid.rows * sample_grid.cols * 16 < 2 ^ 32 by decide)⟩

/-- Counterexample to C14 as stated: two `mono8` images of one row of `2 ^ 30` pixels and
`flags = DISPARITY`.  Both monocular calls succeed, the matcher's grid has one row of
`2 ^ 30` values, the 32-bit `step` of the disparity image wraps to 0, `processDisparity`
writes outside the empty buffer, and `process` has no value to return. -/
theorem C14_counterexample :
    (mono_left_result size_processor (row_raw 1073741824) size_model sample_output
      DISPARITY).1 = true ∧
    (mono_right_result size_processor (row_raw 1073741824) size_model sample_output
      DISPARITY).1 = true ∧
    (process size_processor false (row_raw 1073741824) (row_raw 1073741824) size_model
      sample_output DISPARITY).2 = none := by
  have hl : (mono_left_result size_processor (row_raw 1073741824) size_model sample_output
      DISPARITY).1 = true := by decide!
  have hr : (mono_right_result size_processor (row_raw 1073741824) size_model sample_output
      DISPARITY).1 = true := by decide!
  refine ⟨hl, hr, ?_⟩
  rw [process_both size_processor false (row_raw 1073741824) (row_raw 1073741824) size_model
    sample_output DISPARITY hl hr]
  cases h : (process_stages size_processor false size_model
      (after_mono size_processor (row_raw 1073741824) (row_raw 1073741824) size_model
        sample_output DISPARITY) (process_flags DISPARITY).1).2 with
  | none => rfl
  | some out =>
    exfalso
    obtain ⟨-, -, hd, -, -⟩ := process_stages_some size_processor false size_model _ out _ h
    rw [if_pos (by decide)] at hd
    unfold stage_disparity at hd
    rw [processDisparity_overflow _ rfl rfl] at hd
    exact Option.noConfusion hd

/-- C15 (amended): when `process` fails because a monocular call failed, it returns
false with `disparity`, `points` and `points2` as they were before the call, and with
`left` and `right` as the monocular calls that ran left them; the output set equals the
set before the call exactly when those calls left their image sets as they were. -/
theorem C15_failure_output (self : StereoProcessor) (CUDA_GPU : Bool)
    (left_raw right_raw : Image) (model : StereoCameraModel) (output : StereoImageSet)
    (flags : Nat)
    (hf : (mono_left_result self left_raw model output flags).1 = false ∨
      ((mono_left_result self left_raw model output flags).1 = true ∧
        (mono_right_result self right_raw model output flags).1 = false)) :
    ∃ out, (process self CUDA_GPU left_raw right_raw model output flags).2 = some (false, out) ∧
      out.disparity = output.disparity ∧ out.points = output.points ∧
      out.points2 = output.points2 ∧
      out.left = (mono_left_result self left_raw model output flags).2 ∧
      out.right = (if (mono_left_result self left_raw model output flags).1 = true then
        (mono_right_result self right_raw model output flags).2 else output.right) ∧
      (out = output ↔
        (mono_left_result self left_raw model output flags).2 = output.left ∧
        ((mono_left_result self left_raw model output flags).1 = true →
          (mono_right_result self right_raw model output flags).2 = output.right)) := by
  obtain ⟨oleft, oright, odisp, opts, opts2⟩ := output
  rcases hf with hl | ⟨hl, hr⟩
  · rw [process_left_fails self CUDA_GPU left_raw right_raw model _ flags hl]
    refine ⟨_, rfl, rfl, rfl, rfl, rfl, ?_, ?_⟩
    · rw [hl]
      rfl
    · rw [hl]
      constructor
      · intro h
        exact ⟨congrArg StereoImageSet.left h, fun h' => absurd h' (by decide)⟩
      · rintro ⟨h1, -⟩
        show StereoImageSet.mk _ _ _ _ _ = _
        rw [h1]
  · rw [process_right_fails self CUDA_GPU left_raw right_raw model _ flags hl hr]
    refine ⟨_, rfl, rfl, rfl, rfl, rfl, ?_, ?_⟩
    · rw [hl]
      rfl
    · constructor
      · intro h
        exact ⟨congrArg StereoImageSet.left h, fun _ => congrArg StereoImageSet.right h⟩
      · rintro ⟨h1, h2⟩
        show StereoImageSet.mk _ _ _ _ _ = _
        rw [h1, h2 hl]

/-- Witness of C15 on the sample processor, whose refusal of the left image leaves the
image set as it was. -/
theorem C15_failure_output_witness :
    (mono_left_result sample_processor sample_raw_refused sample_model sample_output ALL).1 =
      false ∧
    ∃ out, (process sample_processor false sample_raw_refused sample_raw sample_model
        sample_output ALL).2 = some (false, out) ∧
      out.disparity = sample_output.disparity ∧ out.points = sample_output.points ∧
      out.points2 = sample_output.points2 := by
  refine ⟨by decide!, ?_⟩
  obtain ⟨out, h1, h2, h3, h4, -⟩ := C15_failure_output sample_processor false
    sample_raw_refused sample_raw sample_model sample_output ALL (Or.inl (by decide!))
  exact ⟨out, h1, h2, h3, h4⟩

/-- Counterexample to C15 as stated: the sample processor accepts the left image and
refuses the right one (leaving the right image set untouched); `process` returns false,
and the output set holds the left results: its colour encoding is `mono8` where the set
before the call had the empty string, its rectified colour image has 2 rows where the
set before the call had an empty image. -/
theorem C15_counterexample :
    (mono_left_result sample_processor sample_raw sample_model sample_output ALL).1 = true ∧
    (mono_right_result sample_processor sample_raw_refused sample_model sample_output ALL) =
      (false, sample_output.right) ∧
    ∃ out, (process sample_processor false sample_raw sample_raw_refused sample_model
        sample_output ALL).2 = some (false, out) ∧
      out.left.color_encoding = "mono8" ∧ sample_output.left.color_encoding = "" ∧
      out.left.rect_color.rows = 2 ∧ sample_output.left.rect_color.rows = 0 ∧
      out ≠ sample_output := by
  refine ⟨by decide!, rfl, ?_⟩
  rw [process_right_fails sample_processor false sample_raw sample_raw_refused sample_model
    sample_output ALL (by decide!) (by decide!)]
  refine ⟨_, rfl, by decide!, rfl, by decide!, rfl, ?_⟩
  intro h
  have h2 := congrArg (fun o => o.left.rect_color.rows) h
  revert h2
  decide!

/-- C16 (amended): when both monocular calls succeed, the stage calls after them are, in
this order, `processDisparity` if and only if the flags contain `DISPARITY`,
`POINT_CLOUD` or `POINT_CLOUD2`, `processPoints` if and only if they contain
`POINT_CLOUD`, `processPoints2` if and only if they contain `POINT_CLOUD2`; whenever
`process` returns, each cloud of the output set is built from the disparity image of that
set, which is the result of the disparity stage whenever a cloud is requested, and an
artifact whose stage is not called is as it was before the call; `process` returns
whenever the matcher's grid has `rows * cols * 4 < 2 ^ 32` (a stereo flag being set) and
the reprojected grid has `rows * cols * 16 < 2 ^ 32` (`POINT_CLOUD2` being set). -/
theorem C16_artifacts (self : StereoProcessor) (CUDA_GPU : Bool) (left_raw right_raw : Image)
    (model : StereoCameraModel) (output : StereoImageSet) (flags : Nat)
    (hl : (mono_left_result self left_raw model output flags).1 = true)
    (hr : (mono_right_result self right_raw model output flags).1 = true) :
    (process self CUDA_GPU left_raw right_raw model output flags).1 =
        [Call.mono_left (left_flags flags), Call.mono_right (right_flags flags >>> 4)] ++
        (if flags &&& DISPARITY ≠ 0 ∨ flags &&& POINT_CLOUD ≠ 0 ∨ flags &&& POINT_CLOUD2 ≠ 0
          then [Call.processDisparity] else []) ++
        (if flags &&& POINT_CLOUD ≠ 0 then [Call.processPoints] else []) ++
        (if flags &&& POINT_CLOUD2 ≠ 0 then [Call.processPoints2] else []) ∧
    (Call.processDisparity ∈ (process self CUDA_GPU left_raw right_raw model output flags).1 ↔
      flags &&& DISPARITY ≠ 0 ∨ flags &&& POINT_CLOUD ≠ 0 ∨ flags &&& POINT_CLOUD2 ≠ 0) ∧
    (Call.processPoints ∈ (process self CUDA_GPU left_raw right_raw model output flags).1 ↔
      flags &&& POINT_CLOUD ≠ 0) ∧
    (Call.processPoints2 ∈ (process self CUDA_GPU left_raw right_raw model output flags).1 ↔
      flags &&& POINT_CLOUD2 ≠ 0) ∧
    (∀ b out,
      (process self CUDA_GPU left_raw right_raw model output flags).2 = some (b, out) →
      out.left = (mono_left_result self left_raw model output flags).2 ∧
      out.right = (mono_right_result self right_raw model output flags).2 ∧
      (if flags &&& DISPARITY ≠ 0 ∨ flags &&& POINT_CLOUD ≠ 0 ∨ flags &&& POINT_CLOUD2 ≠ 0
        then stage_disparity self CUDA_GPU model
          (after_mono self left_raw right_raw model output flags) = some out.disparity
        else out.disparity = output.disparity) ∧
      (out.points = if flags &&& POINT_CLOUD ≠ 0 then
          stage_points model
            { after_mono self left_raw right_raw model output flags with
              disparity := out.disparity }
        else output.points) ∧
      (if flags &&& POINT_CLOUD2 ≠ 0 then
          stage_points2 model
            { after_mono self left_raw right_raw model output flags with
              disparity := out.disparity } = some out.points2
        else out.points2 = output.points2)) ∧
    ((flags &&& DISPARITY ≠ 0 ∨ flags &&& POINT_CLOUD ≠ 0 ∨ flags &&& POINT_CLOUD2 ≠ 0 →
        ∀ l r, (self.block_matcher_.compute l r).rows *
          (self.block_matcher_.compute l r).cols * 4 < 2 ^ 32) →
      (flags &&& POINT_CLOUD2 ≠ 0 → ∀ img, (model.projectDisparityImageTo3d img).rows *
        (model.projectDisparityImageTo3d img).cols * 16 < 2 ^ 32) →
      ∃ out, (process self CUDA_GPU left_raw right_raw model output flags).2 =
        some (true, out)) := by
  have hlog := process_log_both self CUDA_GPU left_raw right_raw model output flags hl hr
  refine ⟨hlog, ?_, ?_, ?_, ?_, ?_⟩
  · rw [hlog]
    by_cases h1 : flags &&& DISPARITY ≠ 0 ∨ flags &&& POINT_CLOUD ≠ 0 ∨
        flags &&& POINT_CLOUD2 ≠ 0 <;>
      by_cases h2 : flags &&& POINT_CLOUD ≠ 0 <;> by_cases h3 : flags &&& POINT_CLOUD2 ≠ 0 <;>
      simp [h1, h2, h3]
  · rw [hlog]
    by_cases h1 : flags &&& DISPARITY ≠ 0 ∨ flags &&& POINT_CLOUD ≠ 0 ∨
        flags &&& POINT_CLOUD2 ≠ 0 <;>
      by_cases h2 : flags &&& POINT_CLOUD ≠ 0 <;> by_cases h3 : flags &&& POINT_CLOUD2 ≠ 0 <;>
      simp [h1, h2, h3]
  · rw [hlog]
    by_cases h1 : flags &&& DISPARITY ≠ 0 ∨ flags &&& POINT_CLOUD ≠ 0 ∨
        flags &&& POINT_CLOUD2 ≠ 0 <;>
      by_cases h2 : flags &&& POINT_CLOUD ≠ 0 <;> by_cases h3 : flags &&& POINT_CLOUD2 ≠ 0 <;>
      simp [h1, h2, h3]
  · rw [process_both self CUDA_GPU left_raw right_raw model output flags hl hr]
    intro b out hres
    obtain ⟨o, ho, hbo⟩ := Option.map_eq_some'.1 hres
    have eo : o = out := congrArg Prod.snd hbo
    subst eo
    obtain ⟨hL, hR, hd, hp, hq⟩ := process_stages_some self CUDA_GPU model _ o _ ho
    have eD : ((process_flags flags).1 &&& DISPARITY ≠ 0) =
        (flags &&& DISPARITY ≠ 0 ∨ flags &&& POINT_CLOUD ≠ 0 ∨ flags &&& POINT_CLOUD2 ≠ 0) :=
      propext ((updated_flags_disparity flags).trans (stereo_flag_iff flags))
    have eP : (process_flags flags).1 &&& POINT_CLOUD = flags &&& POINT_CLOUD :=
      updated_flags_cloud flags POINT_CLOUD (by decide)
    have eQ : (process_flags flags).1 &&& POINT_CLOUD2 = flags &&& POINT_CLOUD2 :=
      updated_flags_cloud flags POINT_CLOUD2 (by decide)
    rw [eP] at hp
    rw [eQ] at hq
    simp only [eD] at hd
    exact ⟨hL, hR, hd, hp, hq⟩
  · intro hd hg
    rw [process_both self CUDA_GPU left_raw right_raw model output flags hl hr]
    obtain ⟨out, hout⟩ := process_stages_total self CUDA_GPU model
      (after_mono self left_raw right_raw model output flags) (process_flags flags).1
      (fun h => hd ((stereo_flag_iff flags).1 ((updated_flags_disparity flags).1 h)))
      (fun h => hg (by rwa [updated_flags_cloud flags POINT_CLOUD2 (by decide)] at h))
    exact ⟨out, by rw [hout]; rfl⟩

/-- Witness of C16 on the sample processor with `flags = POINT_CLOUD2`: the disparity
stage and the structured-cloud stage are called, the sparse cloud is as it was. -/
theorem C16_artifacts_witness :
    (mono_left_result sample_processor sample_raw sample_model sample_output POINT_CLOUD2).1 =
      true ∧
    (mono_right_result sample_processor sample_raw sample_model sample_output POINT_CLOUD2).1 =
      true ∧
    (process sample_processor false sample_raw sample_raw sample_model sample_output
        POINT_CLOUD2).1 =
      [Call.mono_left 10, Call.mono_right 2, Call.processDisparity, Call.processPoints2] ∧
    ∃ out, (process sample_processor false sample_raw sample_raw sample_model sample_output
        POINT_CLOUD2).2 = some (true, out) ∧
      out.points = sample_cloud := by
  have hl : (mono_left_result sample_processor sample_raw sample_model sample_output
      POINT_CLOUD2).1 = true := by decide!
  have hr : (mono_right_result sample_processor sample_raw sample_model sample_output
      POINT_CLOUD2).1 = true := by decide!
  obtain ⟨h1, -, -, -, h5, h6⟩ := C16_artifacts sample_processor false sample_raw sample_raw
    sample_model sample_output POINT_CLOUD2 hl hr
  obtain ⟨out, hres⟩ := h6
    (fun _ _ _ => show scenario_A.rows * scenario_A.cols * 4 < 2 ^ 32 by decide)
    (fun _ _ => show sample_grid.rows * sample_grid.cols * 16 < 2 ^ 32 by decide)
  exact ⟨hl, hr, h1.trans (by decide), out, hres,
    (h5 true out hres).2.2.2.1.trans (if_neg (by decide))⟩

/-- Counterexample to C16 as stated: two `mono8` images of one row of `2 ^ 28` pixels and
`flags = POINT_CLOUD2`.  Both monocular calls succeed and the disparity stage completes
(`2 ^ 28 * 4` fits 32 bits); the reprojected grid has one row of `2 ^ 28` points, the
32-bit product `row_step * height` of the structured cloud wraps to 0, `processPoints2`
writes outside the empty buffer, and `process` leaves no defined `output.points2`: it has
no result. -/
theorem C16_counterexample :
    (mono_left_result size_processor (row_raw 268435456) size_model sample_output
      POINT_CLOUD2).1 = true ∧
    (mono_right_result size_processor (row_raw 268435456) size_model sample_output
      POINT_CLOUD2).1 = true ∧
    (∃ d, stage_disparity size_processor false size_model
      (after_mono size_processor (row_raw 268435456) (row_raw 268435456) size_model
        sample_output POINT_CLOUD2) = some d) ∧
    (process size_processor false (row_raw 268435456) (row_raw 268435456) size_model
      sample_output POINT_CLOUD2).2 = none := by
  have hl : (mono_left_result size_processor (row_raw 268435456) size_model sample_output
      POINT_CLOUD2).1 = true := by decide!
  have hr : (mono_right_result size_processor (row_raw 268435456) size_model sample_output
      POINT_CLOUD2).1 = true := by decide!
  refine ⟨hl, hr, ?_, ?_⟩
  · obtain ⟨d, hd, -⟩ := processDisparity_spec false
      (size_processor.block_matcher_.compute
        (after_mono size_processor (row_raw 268435456) (row_raw 268435456) size_model
          sample_output POINT_CLOUD2).left.rect
        (after_mono size_processor (row_raw 268435456) (row_raw 268435456) size_model
          sample_output POINT_CLOUD2).right.rect)
      size_model.left.cx size_model.right.cx size_model.right.fx size_model.baseline
      sample_output.disparity (by decide!)
    exact ⟨d, hd⟩
  · rw [process_both size_processor false (row_raw 268435456) (row_raw 268435456) size_model
      sample_output POINT_CLOUD2 hl hr]
    cases h : (process_stages size_processor false size_model
        (after_mono size_processor (row_raw 268435456) (row_raw 268435456) size_model
          sample_output POINT_CLOUD2) (process_flags POINT_CLOUD2).1).2 with
    | none => rfl
    | some out =>
      exfalso
      obtain ⟨-, -, hd, -, hq⟩ := process_stages_some size_processor false size_model _ out _ h
      rw [if_pos (by decide)] at hd hq
      unfold stage_disparity at hd
      obtain ⟨hh, hw⟩ := processDisparity_image_size _ _ _ _ _ _ _ _ hd
      unfold stage_points2 at hq
      have hrows : (size_model.projectDisparityImageTo3d out.disparity.image).rows = 1 := by
        show out.disparity.image.height = 1
        rw [hh]
        decide!
      have hcols : (size_model.projectDisparityImageTo3d out.disparity.image).cols =
          268435456 := by
        show out.disparity.image.width = 268435456
        rw [hw]
        decide!
      rw [(processPoints2_overflow _ _ hrows hcols _ _ _).2] at hq
      exact Option.noConfusion hq

/-! ## Claim on the stereo parameters -/

/-- The parameter fields of the message `processDisparity` returns. -/
theorem processDisparity_fields (CUDA_GPU : Bool) (src : Mat_ Int)
    (cx_left cx_right fx_right baseline : ℚ) (disparity out : DisparityImage)
    (h : processDisparity CUDA_GPU src cx_left cx_right fx_right baseline disparity = some out) :
    out.f = roundToF32 fx_right ∧ out.T = roundToF32 baseline ∧
      out.min_disparity = int32ToFloat 0 ∧ out.max_disparity = int32ToFloat 63 ∧
      out.delta_d = roundToF32 (1 / ((if CUDA_GPU then 1 else 16 : Nat) : ℚ)) := by
  unfold processDisparity at h
  obtain ⟨data, -, rfl⟩ := Option.map_eq_some'.1 h
  exact ⟨rfl, rfl, rfl, rfl, rfl⟩

/-- C17 (amended): for every matcher, whatever its configured minimum disparity and
number of disparities, and every input on which the call completes, `processDisparity`
sets `f` to the `float` nearest to the right camera's `fx` and `T` to the `float` nearest
to the baseline (`fx` and the baseline themselves when these are `float` values),
`min_disparity` to 0, `max_disparity` to 63 and `delta_d` to `1 / DPP`; the call
completes when `rows * cols * 4` of the matcher's grid fits 32 bits. -/
theorem C17_stereo_parameters (self : StereoProcessor) (CUDA_GPU : Bool)
    (left_rect right_rect : GrayMat) (model : StereoCameraModel) (disparity : DisparityImage) :
    (∀ out, processDisparity CUDA_GPU (self.block_matcher_.compute left_rect right_rect)
        model.left.cx model.right.cx model.right.fx model.baseline disparity = some out →
      out.f = roundToF32 model.right.fx ∧ out.T = roundToF32 model.baseline ∧
      (f32Representable model.right.fx → f32Val out.f = FloatVal.finite model.right.fx) ∧
      (f32Representable model.baseline → f32Val out.T = FloatVal.finite model.baseline) ∧
      f32Val out.min_disparity = FloatVal.finite 0 ∧
      f32Val out.max_disparity = FloatVal.finite 63 ∧
      f32Val out.delta_d = FloatVal.finite (1 / ((if CUDA_GPU then 1 else 16 : Nat) : ℚ))) ∧
    ((self.block_matcher_.compute left_rect right_rect).rows *
        (self.block_matcher_.compute left_rect right_rect).cols * 4 < 2 ^ 32 →
      ∃ out, processDisparity CUDA_GPU (self.block_matcher_.compute left_rect right_rect)
        model.left.cx model.right.cx model.right.fx model.baseline disparity = some out) := by
  refine ⟨?_, ?_⟩
  · intro out h
    obtain ⟨hf, hT, hmin, hmax, hdd⟩ := processDisparity_fields _ _ _ _ _ _ _ _ h
    refine ⟨hf, hT, ?_, ?_, ?_, ?_, ?_⟩
    · intro hrep
      rw [hf]
      exact roundToF32_exact _ hrep
    · intro hrep
      rw [hT]
      exact roundToF32_exact _ hrep
    · rw [hmin]
      decide!
    · rw [hmax]
      decide!
    · rw [hdd]
      cases CUDA_GPU <;> decide!
  · intro hb
    obtain ⟨out, hout, -⟩ := processDisparity_spec CUDA_GPU
      (self.block_matcher_.compute left_rect right_rect) model.left.cx model.right.cx
      model.right.fx model.baseline disparity hb
    exact ⟨out, hout⟩

/-- Witness of C17 on the sample processor, whose matcher is configured with minimum
disparity 5 and 128 disparities, and the sample cameras (`fx = 500`). -/
theorem C17_stereo_parameters_witness :
    sample_processor.getMinDisparity = 5 ∧ sample_processor.getDisparityRange = 128 ∧
    f32Representable sample_model.right.fx ∧
    ∃ out, processDisparity false (sample_processor.block_matcher_.compute empty_gray empty_gray)
        sample_model.left.cx sample_model.right.cx sample_model.right.fx sample_model.baseline
        empty_disparity = some out ∧
      f32Val out.f = FloatVal.finite 500 ∧ f32Val out.min_disparity = FloatVal.finite 0 ∧
      f32Val out.max_disparity = FloatVal.finite 63 := by
  have hrep : f32Representable sample_model.right.fx :=
    f32Representable_nat 500 (by decide)
  obtain ⟨out, hout⟩ := (C17_stereo_parameters sample_processor false empty_gray empty_gray
    sample_model empty_disparity).2 (by decide)
  obtain ⟨-, -, hf, -, hmin, hmax, -⟩ := (C17_stereo_parameters sample_processor false
    empty_gray empty_gray sample_model empty_disparity).1 out hout
  exact ⟨rfl, rfl, hrep, out, hout, hf hrep, hmin, hmax⟩

/-- Counterexample to C17 as stated: a right camera with `fx = 1 + 2 ^ (-24)`, a value of
type `double`; the field `f` of the message is the `float` 1.0, not `fx`.  And for a
matcher grid of one row of `2 ^ 30` pixels the call leaves defined behaviour and sets
nothing. -/
theorem C17_counterexample :
    (processDisparity false zero_disparity 0 0 (16777217 / 16777216) (1 / 8)
      empty_disparity).map (fun d => f32Val d.f) = some (FloatVal.finite 1) ∧
    FloatVal.finite 1 ≠ FloatVal.finite (16777217 / 16777216) ∧
    (processDisparity false zero_disparity 0 0 (16777217 / 16777216) (1 / 8)
      empty_disparity).map (fun d => f32Val d.T) = some (FloatVal.finite (1 / 8)) ∧
    processDisparity false wide_disparity 0 0 500 (1 / 8) empty_disparity = none := by
  refine ⟨by decide!, by decide!, by decide!, ?_⟩
  exact processDisparity_overflow wide_disparity rfl rfl 0 0 500 (1 / 8) empty_disparity

/-! ## Claim on the layout of the structured cloud -/

theorem set_field_zero (a : PointField) (xs : List PointField) (name : String) (offset : Nat) :
    set_field (a :: xs) 0 name offset = ⟨name, offset, PointField.FLOAT32, 1⟩ :: xs := rfl

theorem set_field_succ (a : PointField) (xs : List PointField) (j : Nat) (name : String)
    (offset : Nat) :
    set_field (a :: xs) (j + 1) name offset = a :: set_field xs j name offset := rfl

theorem resize_four {α : Type} (d : α) (xs : List α) :
    ∃ a b c e, resize 4 d xs = [a, b, c, e] := by
  match xs with
  | [] => exact ⟨d, d, d, d, rfl⟩
  | [a] => exact ⟨a, d, d, d, rfl⟩
  | [a, b] => exact ⟨a, b, d, d, rfl⟩
  | [a, b, c] => exact ⟨a, b, c, d, rfl⟩
  | a :: b :: c :: e :: r => exact ⟨a, b, c, e, by simp [resize]⟩

/-- Whatever fields the message held, the layout declares the four fields `x`, `y`, `z`,
`rgb`. -/
theorem points2_layout_fields (g : Mat_ Vec3f) (points : PointCloud2) :
    (points2_layout g points).fields =
      [⟨"x", 0, PointField.FLOAT32, 1⟩, ⟨"y", 4, PointField.FLOAT32, 1⟩,
        ⟨"z", 8, PointField.FLOAT32, 1⟩, ⟨"rgb", 12, PointField.FLOAT32, 1⟩] := by
  obtain ⟨a, b, c, e, h⟩ := resize_four (⟨"", 0, 0, 0⟩ : PointField) points.fields
  unfold points2_layout
  simp only [h]
  rw [set_field_zero, set_field_succ _ _ 0, set_field_zero, set_field_succ _ _ 1,
    set_field_succ _ _ 0, set_field_zero, set_field_succ _ _ 2, set_field_succ _ _ 1,
    set_field_succ _ _ 0, set_field_zero]

/-- A completed call of `processPoints2` returns the layout with a filled buffer. -/
theorem processPoints2_layout (MISSING_Z : FloatVal) (g : Mat_ Vec3f) (color : ColorMat)
    (encoding : String) (points out : PointCloud2)
    (h : processPoints2 MISSING_Z g color encoding points = some out) :
    out = { points2_layout g points with data := out.data } := by
  unfold processPoints2 at h
  obtain ⟨s, -, h2⟩ := Option.bind_eq_some.1 h
  split_ifs at h2
  · obtain ⟨t, -, rfl⟩ := Option.map_eq_some'.1 h2
    rfl
  · obtain ⟨t, -, rfl⟩ := Option.map_eq_some'.1 h2
    rfl
  · obtain ⟨t, -, rfl⟩ := Option.map_eq_some'.1 h2
    rfl
  · cases h2
    rfl

/-- C18 (amended): every completed call of `processPoints2` sets `height` and `width` to
the grid's rows and columns, declares exactly the four fields `x`, `y`, `z`, `rgb` at
offsets 0, 4, 8, 12, each `FLOAT32` with count 1, so that every byte of a 16-byte record
lies in exactly one field, sets `point_step = 16`, sets `row_step` to `16 * width`
reduced modulo `2 ^ 32` (which is `16 * width` for a width below `2 ^ 28`), and sets
`is_dense = false`, whatever the pixels are; the call completes when
`rows * cols * 16` fits 32 bits. -/
theorem C18_layout (MISSING_Z : FloatVal) (g : Mat_ Vec3f) (color : ColorMat)
    (encoding : String) (points : PointCloud2) :
    (∀ out, processPoints2 MISSING_Z g color encoding points = some out →
      out.height = g.rows % 2 ^ 32 ∧ out.width = g.cols % 2 ^ 32 ∧
      (g.rows < 2 ^ 31 → out.height = g.rows) ∧ (g.cols < 2 ^ 31 → out.width = g.cols) ∧
      out.fields =
        [⟨"x", 0, PointField.FLOAT32, 1⟩, ⟨"y", 4, PointField.FLOAT32, 1⟩,
          ⟨"z", 8, PointField.FLOAT32, 1⟩, ⟨"rgb", 12, PointField.FLOAT32, 1⟩] ∧
      (∀ b, b < 16 →
        (out.fields.filter
          (fun fld => fld.offset ≤ b ∧ b < fld.offset + 4 * fld.count)).length = 1) ∧
      out.point_step = 16 ∧ out.row_step = (16 * out.width) % 2 ^ 32 ∧
      (g.cols < 2 ^ 28 → out.row_step = 16 * out.width) ∧
      out.is_dense = false) ∧
    (g.rows * g.cols * 16 < 2 ^ 32 →
      ∃ out, processPoints2 MISSING_Z g color encoding points = some out) := by
  refine ⟨?_, ?_⟩
  · intro out h
    have e := processPoints2_layout MISSING_Z g color encoding points out h
    have hh : out.height = g.rows % 2 ^ 32 := by rw [e]; rfl
    have hw : out.width = g.cols % 2 ^ 32 := by rw [e]; rfl
    have hf := points2_layout_fields g points
    rw [show (points2_layout g points).fields = out.fields by rw [e]] at hf
    have hs : out.row_step = (16 * out.width) % 2 ^ 32 := by rw [e]; rfl
    refine ⟨hh, hw, ?_, ?_, hf, ?_, by rw [e]; rfl, hs, ?_, by rw [e]; rfl⟩
    · intro hr
      rw [hh]
      exact Nat.mod_eq_of_lt (Nat.lt_trans hr (by decide))
    · intro hc
      rw [hw]
      exact Nat.mod_eq_of_lt (Nat.lt_trans hc (by decide))
    · rw [hf]
      decide
    · intro hc
      rw [hs, hw]
      have hc' := hc
      norm_num at hc' ⊢
      omega
  · intro hb
    obtain ⟨out, hout, -⟩ := processPoints2_spec MISSING_Z g color encoding points hb
    exact ⟨out, hout⟩

/-- Witness of C18 on the 2 × 2 sample and a used message. -/
theorem C18_layout_witness :
    sample_grid.rows * sample_grid.cols * 16 < 2 ^ 32 ∧ sample_grid.cols < 2 ^ 28 ∧
    ∃ out, processPoints2 sample_MISSING_Z sample_grid sample_color enc.RGB8 sample_cloud2 =
        some out ∧
      out.height = 2 ∧ out.width = 2 ∧ out.point_step = 16 ∧ out.row_step = 16 * out.width ∧
      out.is_dense = false := by
  obtain ⟨out, hout⟩ := (C18_layout sample_MISSING_Z sample_grid sample_color enc.RGB8
    sample_cloud2).2 (by decide)
  obtain ⟨-, -, h1, h2, -, -, h3, -, h4, h5⟩ := (C18_layout sample_MISSING_Z sample_grid
    sample_color enc.RGB8 sample_cloud2).1 out hout
  exact ⟨by decide, by decide, out, hout, h1 (by decide), h2 (by decide), h3, h4 (by decide),
    h5⟩

/-- Counterexample to C18 as stated: for a grid of no rows and `2 ^ 28` columns the call
completes with `width = 2 ^ 28` and `row_step = 0`, where `16 * width = 2 ^ 32`.  And for
a grid of one row of `2 ^ 28` valid pixels the call leaves defined behaviour and returns
no message. -/
theorem C18_counterexample :
    (flat_color.rows = flat_grid.rows ∧ flat_color.cols = flat_grid.cols) ∧
    (processPoints2 sample_MISSING_Z flat_grid flat_color enc.RGB8 empty_cloud2).map
      (fun out => (out.height, out.width, out.point_step, out.row_step)) =
      some (0, 268435456, 16, 0) ∧
    16 * 268435456 ≠ 0 ∧
    processPoints2 sample_MISSING_Z wide_grid wide_color enc.RGB8 empty_cloud2 = none := by
  refine ⟨⟨rfl, rfl⟩, by decide!, by decide,
    (processPoints2_overflow sample_MISSING_Z wide_grid rfl rfl wide_color enc.RGB8
      empty_cloud2).2⟩

/-! ## Claims relating the two clouds -/

/-- The valid pixels of `tall_grid`: the single pixel of row `2 ^ 24 + 1`. -/
theorem valid_pixels_tall_grid :
    valid_pixels sample_MISSING_Z tall_grid = [(16777217, 0)] := by
  apply valid_pixels_single _ _ _ (by decide) rfl
  intro u
  by_cases hu : u = 16777217
  · subst hu
    decide!
  · have e : tall_grid.elem u 0 = ⟨0, 0, 0x7F800000⟩ := by
      show (if u = 16777217 then _ else _) = _
      rw [if_neg hu]
    rw [e]
    simp only [hu, decide_False]
    decide

/-- C19 (amended): under a recognised encoding the "rgb" channel of the sparse cloud has
one value per point, and value `k` is the bit-cast of the packed colour of the pixel that
point `k` came from, the `k`-th valid pixel in raster order, whose row and column
converted to `float` are the values `k` of the "u" and "v" channels; in a grid of at
most `2 ^ 24 + 1` rows and columns these two values are the row and the column. -/
theorem C19_rgb_alignment (MISSING_Z : FloatVal) (g : Mat_ Vec3f) (color : ColorMat)
    (encoding : String) (points : PointCloud)
    (henc : encoding = enc.MONO8 ∨ encoding = enc.RGB8 ∨ encoding = enc.BGR8) :
    ∃ crgb cu cv,
      (processPoints MISSING_Z g color encoding points).channels = [crgb, cu, cv] ∧
      crgb.name = "rgb" ∧ cu.name = "u" ∧ cv.name = "v" ∧
      crgb.values.length = (processPoints MISSING_Z g color encoding points).points.length ∧
      ∀ k, k < (processPoints MISSING_Z g color encoding points).points.length →
        ∃ p, (valid_pixels MISSING_Z g)[k]? = some p ∧
          (processPoints MISSING_Z g color encoding points).points[k]? =
            some (point_of (g.elem p.1 p.2)) ∧
          cu.values[k]? = some (int32ToFloat p.1) ∧
          cv.values[k]? = some (int32ToFloat p.2) ∧
          crgb.values[k]? = some (bitCastToFloat (packed_colour color encoding p.1 p.2)) ∧
          (g.rows ≤ 16777217 → g.cols ≤ 16777217 →
            f32Val (int32ToFloat p.1) = FloatVal.finite p.1 ∧
            f32Val (int32ToFloat p.2) = FloatVal.finite p.2) := by
  rw [processPoints_eq, if_pos henc]
  refine ⟨_, _, _, rfl, rfl, rfl, rfl, ?_, ?_⟩
  · simp only [List.length_map]
  · intro k hk
    simp only [List.length_map] at hk
    refine ⟨(valid_pixels MISSING_Z g)[k], List.getElem?_eq_getElem hk, ?_, ?_, ?_, ?_, ?_⟩
    · simp only [List.getElem?_map, List.getElem?_eq_getElem hk, Option.map_some']
    · simp only [List.getElem?_map, List.getElem?_eq_getElem hk, Option.map_some']
    · simp only [List.getElem?_map, List.getElem?_eq_getElem hk, Option.map_some']
    · simp only [List.getElem?_map, List.getElem?_eq_getElem hk, Option.map_some']
    · intro hrows hcols
      have h := mem_valid_pixels (List.getElem_mem hk)
      exact ⟨f32Val_int32ToFloat _ (by omega), f32Val_int32ToFloat _ (by omega)⟩

/-- Witness of C19 on the 2 × 2 sample with encoding bgr8. -/
theorem C19_rgb_alignment_witness :
    (enc.BGR8 = enc.MONO8 ∨ enc.BGR8 = enc.RGB8 ∨ enc.BGR8 = enc.BGR8) ∧
    ∃ crgb cu cv,
      (processPoints sample_MISSING_Z sample_grid sample_color enc.BGR8 sample_cloud).channels =
        [crgb, cu, cv] ∧
      crgb.name = "rgb" ∧
      crgb.values.length =
        (processPoints sample_MISSING_Z sample_grid sample_color enc.BGR8
          sample_cloud).points.length := by
  obtain ⟨crgb, cu, cv, h1, h2, -, -, h3, -⟩ := C19_rgb_alignment sample_MISSING_Z sample_grid
    sample_color enc.BGR8 sample_cloud (Or.inr (Or.inr rfl))
  exact ⟨Or.inr (Or.inr rfl), crgb, cu, cv, h1, h2, h3⟩

/-- Counterexample to C19 as stated: in a one-column grid of `2 ^ 24 + 2` rows whose only
valid pixel is in row `2 ^ 24 + 1`, with a grey image of the same size that is 100 in row
`2 ^ 24` and 200 elsewhere, the "u" and "v" values of the one point are `16777216.0` and
`0.0`, and its "rgb" value packs the grey level 200, where the pixel at
`(16777216, 0)` has grey level 100. -/
theorem C19_counterexample :
    (tall_two_tone.rows = tall_grid.rows ∧ tall_two_tone.cols = tall_grid.cols) ∧
    (processPoints sample_MISSING_Z tall_grid tall_two_tone enc.MONO8 sample_cloud).channels =
      [⟨"rgb", [bitCastToFloat 0xC8C8C8]⟩, ⟨"u", [int32ToFloat 16777217]⟩,
        ⟨"v", [int32ToFloat 0]⟩] ∧
    f32Val (int32ToFloat 16777217) = FloatVal.finite 16777216 ∧
    f32Val (int32ToFloat 0) = FloatVal.finite 0 ∧
    packed_colour tall_two_tone enc.MONO8 16777216 0 = 0x646464 ∧
    bitCastToFloat 0xC8C8C8 ≠ bitCastToFloat 0x646464 := by
  refine ⟨⟨rfl, rfl⟩, ?_, by decide!, by decide!, by decide!, by decide⟩
  rw [processPoints_eq, valid_pixels_tall_grid]
  decide!

/-- A valid pixel inside the grid is one of the valid pixels in raster order. -/
theorem valid_pixel_index (MISSING_Z : FloatVal) (g : Mat_ Vec3f) (u v : Nat)
    (hu : u < g.rows) (hv : v < g.cols) (hvalid : isValidPoint MISSING_Z (g.elem u v) = true) :
    ∃ k : Nat, (valid_pixels MISSING_Z g)[k]? = some (u, v) := by
  have hmem : (u, v) ∈ valid_pixels MISSING_Z g := by
    unfold valid_pixels
    rw [List.mem_filter]
    exact ⟨(mem_raster _ _ _).2 ⟨hu, hv⟩, hvalid⟩
  exact List.mem_iff_getElem?.1 hmem

/-- C20 (amended): when `rows * cols * 16` fits 32 bits, `processPoints2` completes, and under
a recognised encoding and for every valid pixel `(u, v)` of the grid: the pixel has an
entry in the sparse cloud, and at every such entry (its point is the grid point of
`(u, v)`, its "u" and "v" values are the conversions of `u` and `v`) the bit pattern of
the "rgb" value is the 32-bit word at offset 12 of the record of `(u, v)` in the
structured cloud. -/
theorem C20_rgb_agree (MISSING_Z : FloatVal) (g : Mat_ Vec3f) (color : ColorMat)
    (encoding : String) (points : PointCloud) (points2 : PointCloud2)
    (hb : g.rows * g.cols * 16 < 2 ^ 32)
    (henc : encoding = enc.MONO8 ∨ encoding = enc.RGB8 ∨ encoding = enc.BGR8)
    (u v : Nat) (hu : u < g.rows) (hv : v < g.cols)
    (hvalid : isValidPoint MISSING_Z (g.elem u v) = true) :
    ∃ out2 crgb cu cv,
      processPoints2 MISSING_Z g color encoding points2 = some out2 ∧
      (processPoints MISSING_Z g color encoding points).channels = [crgb, cu, cv] ∧
      crgb.name = "rgb" ∧ cu.name = "u" ∧ cv.name = "v" ∧
      (∃ k : Nat, (valid_pixels MISSING_Z g)[k]? = some (u, v)) ∧
      ∀ k : Nat, (valid_pixels MISSING_Z g)[k]? = some (u, v) →
        (processPoints MISSING_Z g color encoding points).points[k]? =
          some (point_of (g.elem u v)) ∧
        cu.values[k]? = some (int32ToFloat u) ∧ cv.values[k]? = some (int32ToFloat v) ∧
        ∃ x : F32, crgb.values[k]? = some x ∧
          x.val = read4 out2.data ((u * g.cols + v) * 16 + 12) := by
  obtain ⟨out2, hout, -, -, -, -, -, h12⟩ :=
    processPoints2_record MISSING_Z g color encoding points2 hb u v hu hv
  rw [if_pos henc] at h12
  rw [processPoints_eq, if_pos henc]
  refine ⟨out2, _, _, _, hout, rfl, rfl, rfl, rfl,
    valid_pixel_index MISSING_Z g u v hu hv hvalid, ?_⟩
  intro k hk
  refine ⟨?_, ?_, ?_, bitCastToFloat (packed_colour color encoding u v), ?_, ?_⟩
  · simp only [List.getElem?_map, hk, Option.map_some']
  · simp only [List.getElem?_map, hk, Option.map_some']
  · simp only [List.getElem?_map, hk, Option.map_some']
  · simp only [List.getElem?_map, hk, Option.map_some']
  · rw [h12]
    unfold rgb_word
    rw [if_pos hvalid]
    rfl

/-- Witness of C20 on the 2 × 2 sample, pixel `(1, 1)`, encoding rgb8. -/
theorem C20_rgb_agree_witness :
    sample_grid.rows * sample_grid.cols * 16 < 2 ^ 32 ∧
    isValidPoint sample_MISSING_Z (sample_grid.elem 1 1) = true ∧
    (valid_pixels sample_MISSING_Z sample_grid)[1]? = some (1, 1) ∧
    ∃ out2 crgb,
      processPoints2 sample_MISSING_Z sample_grid sample_color enc.RGB8 sample_cloud2 =
        some out2 ∧
      (processPoints sample_MISSING_Z sample_grid sample_color enc.RGB8
        sample_cloud).channels[0]? = some crgb ∧
      ∃ x : F32, crgb.values[1]? = some x ∧
        x.val = read4 out2.data ((1 * sample_grid.cols + 1) * 16 + 12) := by
  have hk : (valid_pixels sample_MISSING_Z sample_grid)[1]? = some (1, 1) := by decide!
  obtain ⟨out2, crgb, cu, cv, h1, h2, -, -, -, -, h3⟩ := C20_rgb_agree sample_MISSING_Z
    sample_grid sample_color enc.RGB8 sample_cloud sample_cloud2 (by decide)
    (Or.inr (Or.inl rfl)) 1 1 (by decide) (by decide) (by decide!)
  exact ⟨by decide, by decide!, hk, out2, crgb, h1, by rw [h2]; rfl, (h3 1 hk).2.2.2⟩

/-- The raster enumeration of a one-row grid starts with the pixel `(0, 0)`. -/
theorem raster_one_row (n : Nat) :
    raster 1 (n + 1) = (0, 0) :: (List.map Nat.succ (List.range n)).map (fun v => (0, v)) := by
  unfold raster
  rw [List.range_succ_eq_map n]
  have e : List.range 1 = [0] := rfl
  rw [e, List.flatMap_cons, List.flatMap_nil, List.append_nil, List.map_cons]

/-- In a one-row grid whose pixel `(0, 0)` is valid, that pixel is the first valid
pixel. -/
theorem valid_pixels_head (MISSING_Z : FloatVal) (g : Mat_ Vec3f) (n : Nat) (hr : g.rows = 1)
    (hc : g.cols = n + 1) (hv : isValidPoint MISSING_Z (g.elem 0 0) = true) :
    ∃ rest, valid_pixels MISSING_Z g = (0, 0) :: rest := by
  unfold valid_pixels
  rw [hr, hc, raster_one_row, List.filter_cons, if_pos hv]
  exact ⟨_, rfl⟩

/-- The first valid pixel of `wide_grid` is `(0, 0)`. -/
theorem valid_pixels_wide_grid :
    ∃ rest, valid_pixels sample_MISSING_Z wide_grid = (0, 0) :: rest :=
  valid_pixels_head sample_MISSING_Z wide_grid 268435455 rfl rfl (by decide!)

/-- Counterexample to C20 as stated: on a one-row grid of `2 ^ 28` valid pixels, with a
colour image of the same size and encoding mono8, the pixel `(0, 0)` is valid and is the
first point of the sparse cloud, whose "rgb" pattern is `0xC8C8C8`; the structured cloud
has no record for it: the 32-bit product `row_step * height` wraps to 0, the buffer is
empty and `processPoints2` leaves defined behaviour. -/
theorem C20_counterexample :
    (wide_color.rows = wide_grid.rows ∧ wide_color.cols = wide_grid.cols) ∧
    isValidPoint sample_MISSING_Z (wide_grid.elem 0 0) = true ∧
    (∃ rest, (processPoints sample_MISSING_Z wide_grid wide_color enc.MONO8
        sample_cloud).channels.head? = some ⟨"rgb", bitCastToFloat 0xC8C8C8 :: rest⟩) ∧
    (points2_layout wide_grid empty_cloud2).data.length = 0 ∧
    processPoints2 sample_MISSING_Z wide_grid wide_color enc.MONO8 empty_cloud2 = none := by
  obtain ⟨hd, hn⟩ :=
    processPoints2_overflow sample_MISSING_Z wide_grid rfl rfl wide_color enc.MONO8 empty_cloud2
  refine ⟨⟨rfl, rfl⟩, by decide!, ?_, by rw [hd]; rfl, hn⟩
  obtain ⟨rest, hrest⟩ := valid_pixels_wide_grid
  rw [processPoints_eq, hrest, if_pos (Or.inl rfl)]
  exact ⟨_, rfl⟩

/-- The depth of an invalid point is not the quiet NaN: it is infinite or equal to the
sentinel `MISSING_Z`. -/
theorem invalid_z_ne_NaN (MISSING_Z : FloatVal) (pt : Vec3f)
    (h : isValidPoint MISSING_Z pt = false) : pt.z ≠ quiet_NaN := by
  intro hz
  unfold isValidPoint at h
  rw [hz] at h
  have e1 : f32Val quiet_NaN = FloatVal.nan := by decide!
  have e2 : isinf quiet_NaN = false := by decide
  rw [e1, e2] at h
  cases MISSING_Z <;> simp [FloatVal.fne, FloatVal.feq] at h

theorem and_mask_or (x r m : Nat) (hx : x &&& m = x) (hr : r &&& m = r) :
    (x ||| r) &&& m = x ||| r := by
  rw [Nat.and_comm, Nat.and_or_distrib_left, Nat.and_comm m x, Nat.and_comm m r, hx, hr]

theorem and_and_self (x m : Nat) : (x &&& m) &&& m = x &&& m := by
  rw [Nat.and_assoc, Nat.and_self]

/-- The value of `left_flags` has no bit outside `LEFT_ALL`. -/
theorem left_flags_mask (flags : Nat) : left_flags flags &&& LEFT_ALL = left_flags flags := by
  have h0 := and_and_self flags LEFT_ALL
  have h1 : LEFT_RECT &&& LEFT_ALL = LEFT_RECT := by decide
  have h2 : LEFT_RECT_COLOR &&& LEFT_ALL = LEFT_RECT_COLOR := by decide
  unfold left_flags process_flags
  by_cases hs : flags &&& STEREO_ALL ≠ 0 <;>
    by_cases hc : flags &&& (POINT_CLOUD ||| POINT_CLOUD2) ≠ 0 <;>
    simp only [if_pos hs, if_neg hs, if_pos hc, if_neg hc]
  · exact and_mask_or _ _ _ (and_mask_or _ _ _ h0 h1) h2
  · exact and_mask_or _ _ _ h0 h1
  · exact and_mask_or _ _ _ h0 h2
  · exact h0

/-- The value of `right_flags` has no bit outside `RIGHT_ALL`. -/
theorem right_flags_mask (flags : Nat) :
    right_flags flags &&& RIGHT_ALL = right_flags flags := by
  have h0 := and_and_self flags RIGHT_ALL
  have h1 : RIGHT_RECT &&& RIGHT_ALL = RIGHT_RECT := by decide
  unfold right_flags process_flags
  by_cases hs : flags &&& STEREO_ALL ≠ 0 <;> simp only [if_pos hs, if_neg hs]
  · exact and_mask_or _ _ _ h0 h1
  · exact h0

/-- Without a stereo flag the flag computation adds nothing. -/
theorem process_flags_plain (flags : Nat) (h : flags &&& STEREO_ALL = 0) :
    left_flags flags = flags &&& LEFT_ALL ∧ right_flags flags = flags &&& RIGHT_ALL := by
  have hs : ¬ (flags &&& STEREO_ALL ≠ 0) := fun h' => h' h
  have hc : ¬ (flags &&& (POINT_CLOUD ||| POINT_CLOUD2) ≠ 0) :=
    fun h' => hs (stereo_of_cloud flags h')
  unfold left_flags right_flags process_flags
  simp only [if_neg hs, if_neg hc, and_self]

/-- C21: the value `right_flags >> 4` that `process` hands to the right monocular call is
less than 16 and its bit `k` is bit `k + 4` of the expanded right request `right_flags`;
the value handed to the left monocular call has no bit outside `LEFT_ALL`; and with none
of `DISPARITY`, `POINT_CLOUD`, `POINT_CLOUD2` set, the two monocular flag sets are the
caller's left flags and the caller's right flags (shifted), with nothing added. -/
theorem C21_mono_flag_sets (self : StereoProcessor) (CUDA_GPU : Bool)
    (left_raw right_raw : Image) (model : StereoCameraModel) (output : StereoImageSet)
    (flags : Nat) :
    (process self CUDA_GPU left_raw right_raw model output flags).1.head? =
        some (Call.mono_left (left_flags flags)) ∧
      ((mono_left_result self left_raw model output flags).1 = true →
        ∃ rest, (process self CUDA_GPU left_raw right_raw model output flags).1 =
          [Call.mono_left (left_flags flags), Call.mono_right (right_flags flags >>> 4)] ++
            rest) ∧
      right_flags flags >>> 4 < 16 ∧
      (∀ k, (right_flags flags >>> 4).testBit k = (right_flags flags).testBit (k + 4)) ∧
      (right_flags flags >>> 4).testBit 0 = (right_flags flags &&& RIGHT_MONO != 0) ∧
      (right_flags flags >>> 4).testBit 1 = (right_flags flags &&& RIGHT_RECT != 0) ∧
      (right_flags flags >>> 4).testBit 2 = (right_flags flags &&& RIGHT_COLOR != 0) ∧
      (right_flags flags >>> 4).testBit 3 = (right_flags flags &&& RIGHT_RECT_COLOR != 0) ∧
      left_flags flags &&& LEFT_ALL = left_flags flags ∧
      (flags &&& DISPARITY = 0 → flags &&& POINT_CLOUD = 0 → flags &&& POINT_CLOUD2 = 0 →
        left_flags flags = flags &&& LEFT_ALL ∧
        right_flags flags = flags &&& RIGHT_ALL ∧
        right_flags flags >>> 4 = (flags &&& RIGHT_ALL) >>> 4) := by
  have hbit : ∀ k, (right_flags flags >>> 4).testBit k = (right_flags flags).testBit (k + 4) := by
    intro k
    rw [Nat.testBit_shiftRight, Nat.add_comm]
  have hpow : ∀ x j : Nat, (x &&& 2 ^ j != 0) = x.testBit j := by
    intro x j
    rw [Nat.and_two_pow]
    cases x.testBit j <;> simp
  refine ⟨process_log_head self CUDA_GPU left_raw right_raw model output flags,
    process_log_second self CUDA_GPU left_raw right_raw model output flags, ?_, hbit,
    ?_, ?_, ?_, ?_, left_flags_mask flags, ?_⟩
  · have h := right_flags_mask flags
    have hle : right_flags flags &&& RIGHT_ALL ≤ RIGHT_ALL := Nat.and_le_right
    rw [h] at hle
    have e : RIGHT_ALL = 240 := by decide
    rw [e] at hle
    rw [Nat.shiftRight_eq_div_pow]
    omega
  · rw [hbit 0]
    exact (hpow _ 4).symm
  · rw [hbit 1]
    exact (hpow _ 5).symm
  · rw [hbit 2]
    exact (hpow _ 6).symm
  · rw [hbit 3]
    exact (hpow _ 7).symm
  · intro hd hp hq
    have hs : flags &&& STEREO_ALL = 0 := by
      by_contra h
      rcases (stereo_flag_iff flags).1 h with h' | h' | h'
      · exact h' hd
      · exact h' hp
      · exact h' hq
    obtain ⟨h1, h2⟩ := process_flags_plain flags hs
    exact ⟨h1, h2, by rw [h2]⟩

/-- Witness of C21 on the sample processor with `flags = LEFT_MONO | RIGHT_COLOR`: the
left call receives 1, the right call receives 4. -/
theorem C21_mono_flag_sets_witness :
    (LEFT_MONO ||| RIGHT_COLOR) &&& DISPARITY = 0 ∧
    (LEFT_MONO ||| RIGHT_COLOR) &&& POINT_CLOUD = 0 ∧
    (LEFT_MONO ||| RIGHT_COLOR) &&& POINT_CLOUD2 = 0 ∧
    (mono_left_result sample_processor sample_raw sample_model sample_output
      (LEFT_MONO ||| RIGHT_COLOR)).1 = true ∧
    left_flags (LEFT_MONO ||| RIGHT_COLOR) = (LEFT_MONO ||| RIGHT_COLOR) &&& LEFT_ALL ∧
    right_flags (LEFT_MONO ||| RIGHT_COLOR) >>> 4 =
      ((LEFT_MONO ||| RIGHT_COLOR) &&& RIGHT_ALL) >>> 4 ∧
    ∃ rest, (process sample_processor false sample_raw sample_raw sample_model sample_output
        (LEFT_MONO ||| RIGHT_COLOR)).1 =
      [Call.mono_left (left_flags (LEFT_MONO ||| RIGHT_COLOR)),
        Call.mono_right (right_flags (LEFT_MONO ||| RIGHT_COLOR) >>> 4)] ++ rest :=
  ⟨by decide, by decide, by decide, by decide!,
    ((C21_mono_flag_sets sample_processor false sample_raw sample_raw sample_model sample_output
      (LEFT_MONO ||| RIGHT_COLOR)).2.2.2.2.2.2.2.2.2 (by decide) (by decide) (by decide)).1,
    ((C21_mono_flag_sets sample_processor false sample_raw sample_raw sample_model sample_output
      (LEFT_MONO ||| RIGHT_COLOR)).2.2.2.2.2.2.2.2.2 (by decide) (by decide) (by decide)).2.2,
    (C21_mono_flag_sets sample_processor false sample_raw sample_raw sample_model sample_output
      (LEFT_MONO ||| RIGHT_COLOR)).2.1 (by decide!)⟩

/-! ## Claim on the packed colour as a float -/

/-- A 32-bit integer below `2 ^ 24`, read as a `float`, is a finite non-negative number
and not the quiet NaN. -/
theorem colour_float_ok_of_lt (c : Nat) (h : c < 2 ^ 24) : colour_float_ok c := by
  have h' : c < 16777216 := h
  have hv : (bitCastToFloat c).val = c := by
    show c % 4294967296 = c
    omega
  have hnan : isnan (bitCastToFloat c) = false := by
    unfold isnan
    rw [hv]
    have e : ¬ (c / 0x800000 % 256 = 255) := by omega
    simp [e]
  have hinf : isinf (bitCastToFloat c) = false := by
    unfold isinf
    rw [hv]
    have e : ¬ (c / 0x800000 % 256 = 255) := by omega
    simp [e]
  have hsign : f32Sign (bitCastToFloat c) = false := by
    unfold f32Sign
    rw [hv]
    have e : ¬ (c / 0x80000000 = 1) := by omega
    simp [e]
  have hfin := f32Val_toF32_finite c (by omega) false
  simp only [Bool.false_eq_true, if_false, Nat.zero_add, one_mul] at hfin
  refine ⟨h, by omega, hv, hnan, hinf, hsign, ⟨_, ?_, hfin⟩, ?_⟩
  · exact div_nonneg (Nat.cast_nonneg _) (pow_nonneg (by norm_num) 149)
  · intro e
    have e' := congrArg Fin.val e
    rw [hv] at e'
    have e2 : quiet_NaN.val = 2143289344 := rfl
    omega

theorem rgb_MONO8_lt (g : uint8_t) : rgb_MONO8 g < 2 ^ 24 :=
  packRGB_lt _ _ _ g.isLt g.isLt g.isLt

theorem rgb_packed_RGB8_lt (rgb : Vec3b) : rgb_packed_RGB8 rgb < 2 ^ 24 :=
  packRGB_lt _ _ _ rgb.c0.isLt rgb.c1.isLt rgb.c2.isLt

theorem rgb_packed_BGR8_lt (bgr : Vec3b) : rgb_packed_BGR8 bgr < 2 ^ 24 :=
  packRGB_lt _ _ _ bgr.c2.isLt bgr.c1.isLt bgr.c0.isLt

/-- C22: for every 8-bit grey level and every pixel of three 8-bit channels, the packed
colour of the mono8, rgb8 and bgr8 branches is below `2 ^ 24` (zero top byte), and the
`float` with its bit pattern is finite and non-negative, neither NaN nor infinite, and
not the NaN sentinel: the word stored in the "rgb" field of a record is the sentinel
exactly when the pixel is invalid, and every value of the "rgb" channel of the sparse
cloud is a finite non-negative number. -/
theorem C22_colour_is_finite (MISSING_Z : FloatVal) (g : Mat_ Vec3f) (color : ColorMat)
    (encoding : String) (points : PointCloud) (grey : uint8_t) (px : Vec3b) (pt : Vec3f) :
    colour_float_ok (rgb_MONO8 grey) ∧ colour_float_ok (rgb_packed_RGB8 px) ∧
    colour_float_ok (rgb_packed_BGR8 px) ∧
    (rgb_word MISSING_Z quiet_NaN pt (rgb_MONO8 grey) = quiet_NaN.val ↔
      isValidPoint MISSING_Z pt = false) ∧
    (rgb_word MISSING_Z quiet_NaN pt (rgb_packed_RGB8 px) = quiet_NaN.val ↔
      isValidPoint MISSING_Z pt = false) ∧
    (rgb_word MISSING_Z quiet_NaN pt (rgb_packed_BGR8 px) = quiet_NaN.val ↔
      isValidPoint MISSING_Z pt = false) ∧
    ∃ crgb cu cv,
      (processPoints MISSING_Z g color encoding points).channels = [crgb, cu, cv] ∧
      crgb.name = "rgb" ∧
      ∀ x ∈ crgb.values, isnan x = false ∧ isinf x = false ∧ x ≠ quiet_NaN ∧
        ∃ q : ℚ, 0 ≤ q ∧ f32Val x = FloatVal.finite q := by
  have hword : ∀ c, c < 2 ^ 24 →
      (rgb_word MISSING_Z quiet_NaN pt c = quiet_NaN.val ↔
        isValidPoint MISSING_Z pt = false) := by
    intro c hc
    have hc' : c < 16777216 := hc
    have e2 : quiet_NaN.val = 2143289344 := rfl
    unfold rgb_word
    cases hv : isValidPoint MISSING_Z pt with
    | true =>
      simp only [if_true, Bool.true_eq_false, iff_false]
      rw [e2]
      omega
    | false => simp
  refine ⟨colour_float_ok_of_lt _ (rgb_MONO8_lt grey),
    colour_float_ok_of_lt _ (rgb_packed_RGB8_lt px),
    colour_float_ok_of_lt _ (rgb_packed_BGR8_lt px),
    hword _ (rgb_MONO8_lt grey), hword _ (rgb_packed_RGB8_lt px),
    hword _ (rgb_packed_BGR8_lt px), ?_⟩
  rw [processPoints_eq]
  refine ⟨_, _, _, rfl, rfl, ?_⟩
  intro x hx
  have hx' : ∃ p : Nat × Nat, x = bitCastToFloat (packed_colour color encoding p.1 p.2) := by
    simp only [] at hx
    split_ifs at hx
    · obtain ⟨p, -, rfl⟩ := List.mem_map.1 hx
      exact ⟨p, rfl⟩
    · exact absurd hx (List.not_mem_nil _)
  obtain ⟨p, rfl⟩ := hx'
  obtain ⟨-, -, -, h1, h2, -, h3, h4⟩ :=
    colour_float_ok_of_lt _ (packed_colour_lt color encoding p.1 p.2)
  exact ⟨h1, h2, h4, h3⟩

/-- Witness of C22 on the 2 × 2 sample with encoding rgb8: the "rgb" value of the first
point has the bit pattern `0x0A141E`. -/
theorem C22_colour_is_finite_witness :
    (processPoints sample_MISSING_Z sample_grid sample_color enc.RGB8
      sample_cloud).channels.head? =
      some ⟨"rgb", [bitCastToFloat 0x0A141E, bitCastToFloat 0x0B151E]⟩ ∧
    isnan (bitCastToFloat 0x0A141E) = false ∧ isinf (bitCastToFloat 0x0A141E) = false ∧
    bitCastToFloat 0x0A141E ≠ quiet_NaN ∧
    (∃ q : ℚ, 0 ≤ q ∧ f32Val (bitCastToFloat 0x0A141E) = FloatVal.finite q) ∧
    colour_float_ok (rgb_MONO8 200) := by
  have hch : (processPoints sample_MISSING_Z sample_grid sample_color enc.RGB8
      sample_cloud).channels.head? =
      some ⟨"rgb", [bitCastToFloat 0x0A141E, bitCastToFloat 0x0B151E]⟩ := by decide!
  obtain ⟨hmono, -, -, -, -, -, crgb, cu, cv, h1, -, h3⟩ := C22_colour_is_finite
    sample_MISSING_Z sample_grid sample_color enc.RGB8 sample_cloud 200 ⟨0, 0, 0⟩ ⟨0, 0, 0⟩
  have e : crgb = ⟨"rgb", [bitCastToFloat 0x0A141E, bitCastToFloat 0x0B151E]⟩ := by
    rw [h1] at hch
    exact Option.some.inj hch
  have hm : bitCastToFloat 0x0A141E ∈ crgb.values := by
    rw [e]
    exact List.mem_cons_self _ _
  obtain ⟨k1, k2, k3, k4⟩ := h3 _ hm
  exact ⟨hch, k1, k2, k3, k4, hmono⟩

/-! ## Claim on the independence of the buffer from the previous message -/

/-- Two buffers holding the same 32-bit word at `j` hold the same four bytes there. -/
theorem read4_inj (d d' : List uint8_t) (j : Nat) (h : read4 d j = read4 d' j) (r : Nat)
    (hr : r < 4) : d.getD (j + r) 0 = d'.getD (j + r) 0 := by
  unfold read4 at h
  have a0 := (d.getD j 0).isLt
  have a1 := (d.getD (j + 1) 0).isLt
  have a2 := (d.getD (j + 2) 0).isLt
  have a3 := (d.getD (j + 3) 0).isLt
  have b0 := (d'.getD j 0).isLt
  have b1 := (d'.getD (j + 1) 0).isLt
  have b2 := (d'.getD (j + 2) 0).isLt
  have b3 := (d'.getD (j + 3) 0).isLt
  have hcase : r = 0 ∨ r = 1 ∨ r = 2 ∨ r = 3 := by omega
  rcases hcase with rfl | rfl | rfl | rfl
  · show d.getD j 0 = d'.getD j 0
    exact Fin.ext (by omega)
  · exact Fin.ext (by omega)
  · exact Fin.ext (by omega)
  · exact Fin.ext (by omega)

/-- Two buffers of `4 * n` bytes holding the same `n` words are equal. -/
theorem eq_of_read4 (d d' : List uint8_t) (n : Nat) (hl : d.length = 4 * n)
    (hl' : d'.length = 4 * n) (h : ∀ q, q < n → read4 d (4 * q) = read4 d' (4 * q)) :
    d = d' := by
  apply List.ext_getElem (hl.trans hl'.symm)
  intro i h1 h2
  have hq : i / 4 < n := by omega
  have hr : i % 4 < 4 := Nat.mod_lt _ (by decide)
  have e := read4_inj d d' (4 * (i / 4)) (h _ hq) (i % 4) hr
  rw [Nat.div_add_mod] at e
  rw [List.getD_eq_getElem _ _ h1, List.getD_eq_getElem _ _ h2] at e
  exact e

/-- C23 (amended): when `rows * cols * 16` fits 32 bits, under a recognised encoding
`processPoints2` completes from every previous output message, its buffer has
`rows * cols * 16` bytes, every 32-bit word of it is a word written by the geometry pass
or by the colour pass, and two calls starting from different previous messages produce
identical buffers. -/
theorem C23_buffer_deterministic (MISSING_Z : FloatVal) (g : Mat_ Vec3f) (color : ColorMat)
    (encoding : String) (hb : g.rows * g.cols * 16 < 2 ^ 32)
    (henc : encoding = enc.MONO8 ∨ encoding = enc.RGB8 ∨ encoding = enc.BGR8) :
    ∃ data : List uint8_t, data.length = g.rows * g.cols * 16 ∧
      (∀ q, q < 4 * (g.rows * g.cols) → read4 data (4 * q) =
        if q % 4 ≠ 3 then xyz_word MISSING_Z quiet_NaN (g.pixel (q / 4)) (q % 4)
        else rgb_word MISSING_Z quiet_NaN (g.pixel (q / 4))
          (packed_colour color encoding (q / 4 / g.cols) (q / 4 % g.cols))) ∧
      ∀ points : PointCloud2, ∃ out,
        processPoints2 MISSING_Z g color encoding points = some out ∧ out.data = data := by
  obtain ⟨out0, hout0, -, hlen0, hr0⟩ :=
    processPoints2_spec MISSING_Z g color encoding empty_cloud2 hb
  simp only [if_pos henc] at hr0
  refine ⟨out0.data, hlen0, hr0, ?_⟩
  intro points
  obtain ⟨out, hout, -, hlen, hr⟩ := processPoints2_spec MISSING_Z g color encoding points hb
  simp only [if_pos henc] at hr
  refine ⟨out, hout, ?_⟩
  apply eq_of_read4 out.data out0.data (4 * (g.rows * g.cols)) (by rw [hlen]; ring)
    (by rw [hlen0]; ring)
  intro q hq
  rw [hr q hq, hr0 q hq]

/-- Witness of C23 on the 2 × 2 sample with encoding bgr8: a used message and an empty
message give the same buffer of 64 bytes. -/
theorem C23_buffer_deterministic_witness :
    sample_grid.rows * sample_grid.cols * 16 < 2 ^ 32 ∧
    (enc.BGR8 = enc.MONO8 ∨ enc.BGR8 = enc.RGB8 ∨ enc.BGR8 = enc.BGR8) ∧
    sample_cloud2.data ≠ empty_cloud2.data ∧
    ∃ out out' : PointCloud2,
      processPoints2 sample_MISSING_Z sample_grid sample_color enc.BGR8 sample_cloud2 =
        some out ∧
      processPoints2 sample_MISSING_Z sample_grid sample_color enc.BGR8 empty_cloud2 =
        some out' ∧
      out.data = out'.data ∧ out.data.length = 64 := by
  obtain ⟨data, hlen, -, hall⟩ := C23_buffer_deterministic sample_MISSING_Z sample_grid
    sample_color enc.BGR8 (by decide) (Or.inr (Or.inr rfl))
  obtain ⟨out, h1, e1⟩ := hall sample_cloud2
  obtain ⟨out', h2, e2⟩ := hall empty_cloud2
  exact ⟨by decide, Or.inr (Or.inr rfl), by decide, out, out', h1, h2, e1.trans e2.symm,
    by rw [e1, hlen]; rfl⟩

/-- Counterexample to C23 as stated: for a grid of one row of `2 ^ 28` valid pixels, with
a colour image of the same size and encoding rgb8, `height * width * 16` is `2 ^ 32`,
the buffer is resized to 0 bytes, and `processPoints2` leaves defined behaviour at the
first record, from an empty previous message as from a used one: no buffer of
`height * width * 16` bytes is written. -/
theorem C23_counterexample :
    (wide_color.rows = wide_grid.rows ∧ wide_color.cols = wide_grid.cols) ∧
    wide_grid.rows * wide_grid.cols * 16 = 4294967296 ∧
    (points2_layout wide_grid empty_cloud2).data.length = 0 ∧
    (points2_layout wide_grid sample_cloud2).data.length = 0 ∧
    processPoints2 sample_MISSING_Z wide_grid wide_color enc.RGB8 empty_cloud2 = none ∧
    processPoints2 sample_MISSING_Z wide_grid wide_color enc.RGB8 sample_cloud2 = none := by
  obtain ⟨hd, hn⟩ :=
    processPoints2_overflow sample_MISSING_Z wide_grid rfl rfl wide_color enc.RGB8 empty_cloud2
  obtain ⟨hd', hn'⟩ :=
    processPoints2_overflow sample_MISSING_Z wide_grid rfl rfl wide_color enc.RGB8 sample_cloud2
  exact ⟨⟨rfl, rfl⟩, by decide, by rw [hd]; rfl, by rw [hd']; rfl, hn, hn'⟩

end stereo_image_proc
